import Mathlib

/-!
# kube-slowwhy: the analysis engine, its rules and the correlation stage

A shallow embedding of `pkg/model/finding.go`, `pkg/collector/snapshot.go` and
`pkg/analysis/*.go`, together with the properties of the correlator, of the
engine and of the rules that the specification states.

Modelling conventions.

* Go `string` is Lean `String`; `sort.Strings` and `<` on strings compare
  byte-wise in Go, which on well-formed UTF-8 is the code-point order used here.
  `len` is the length of the UTF-8 encoding. `strings.ToLower` and
  `strings.EqualFold` act on the letters of ASCII only. Where a property counts
  bytes, a Go string is the list of its bytes (`goBytes`) and a slice expression
  that can panic returns an `Option`.
* Go `float64` confidences are exact rationals (`ℚ`): there is no NaN, no
  infinity and no binary rounding error in the rules and the correlator as
  embedded. Where a property depends on binary rounding, the arithmetic is that
  of float64 (`toFloat64`, `boostConfidenceF64`): a finite float64 is the
  rational it denotes, and every constant, sum, product and quotient is rounded
  to the nearest float64, ties to even.
* Go `int` and `int32` counters are integers; none of them is computed with
  beyond adding one and comparing.
* A Go `map` that is only used as a set of seen keys is the list of the keys
  inserted so far; a Go `map` with values is a function into `Option` or the
  list of its entries in insertion order. The order in which `range` visits a
  map is a parameter (`Runtime.rangeOrder`).
* `time.Time` is an integer instant; `time.Now()` is a parameter (`Runtime.now`).
* A loop that appends to a slice under a condition is a `filter`, a `filterMap`
  or a `foldl`.
-/

namespace KubeSlowwhy

/-! ## pkg/model/finding.go -/

abbrev EvidenceType := String

def EvidenceMetric : EvidenceType := "metric"
def EvidenceEvent : EvidenceType := "event"
def EvidenceLog : EvidenceType := "log"
def EvidenceResource : EvidenceType := "resource"

abbrev Severity := String

def SeverityCritical : Severity := "critical"
def SeverityHigh : Severity := "high"
def SeverityMedium : Severity := "medium"
def SeverityLow : Severity := "low"

/-- Go `model.Evidence`; the field `Type` is spelled `Type_`. -/
structure Evidence where
  Type_ : EvidenceType
  Ref : String
  Message : String
  Data : List (String × String) := []
deriving DecidableEq

/-- Go `model.Finding`. -/
structure Finding where
  SchemaVersion : String := ""
  ID : String := ""
  Title : String := ""
  Category : String := ""
  Severity : Severity := ""
  Confidence : ℚ := 0
  Reasoning : String := ""
  Summary : String := ""
  Evidence : List Evidence := []
  NextSteps : List String := []
  Timestamp : Int := 0
deriving DecidableEq

/-! ## pkg/analysis/correlator.go -/

/-- The loop of `rootCauseKey`: `seen` is the map `refs`, the result is what is
appended to `parts` after the category. -/
def collectRefs (seen : List String) : List Evidence → List String
  | [] => []
  | e :: es =>
    if e.Type_ = EvidenceResource ∧ e.Ref ∉ seen then
      e.Ref :: collectRefs (e.Ref :: seen) es
    else
      collectRefs seen es

/-- Go `sort.Strings`. -/
def sortStrings (l : List String) : List String :=
  l.insertionSort (fun a b => a ≤ b)

/-- Go `rootCauseKey`. -/
def rootCauseKey (f : Finding) : String :=
  String.intercalate "|" (f.Category :: sortStrings (collectRefs [] f.Evidence))

/-- Go `severityOrder` / `severityRank`: a severity missing from the map has
rank `0`. -/
def severityRank (s : Severity) : Int :=
  if s = SeverityLow then 0
  else if s = SeverityMedium then 1
  else if s = SeverityHigh then 2
  else if s = SeverityCritical then 3
  else 0

/-- The two append loops of `mergePair`: `existing` is the set of keys already
present, `acc` the slice being appended to. -/
def appendNew {α : Type} (key : α → String) (existing : List String) (acc : List α) :
    List α → List α
  | [] => acc
  | e :: es =>
    if key e ∈ existing then appendNew key existing acc es
    else appendNew key (key e :: existing) (acc ++ [e]) es

/-- The dedup key of an evidence item in `mergePair`. -/
def evidenceKey (e : Evidence) : String :=
  e.Type_ ++ ":" ++ e.Ref ++ ":" ++ e.Message

/-- Go `mergePair`. -/
def mergePair (primary secondary : Finding) : Finding :=
  let p1 : Finding :=
    if severityRank secondary.Severity > severityRank primary.Severity then
      { primary with Severity := secondary.Severity }
    else primary
  let p2 : Finding :=
    if secondary.Confidence > p1.Confidence then
      { p1 with Confidence := secondary.Confidence }
    else p1
  let p3 : Finding :=
    { p2 with Evidence :=
        appendNew evidenceKey (p2.Evidence.map evidenceKey) p2.Evidence secondary.Evidence }
  { p3 with NextSteps :=
      appendNew (fun s => s) p3.NextSteps p3.NextSteps secondary.NextSteps }

/-- The local type `bucket` of `mergeFindings`. -/
structure bucket where
  primary : Finding
  extras : List Finding

/-- The state of the first loop of `mergeFindings`: the slice `order` and the
map `buckets`. -/
structure MergeState where
  order : List String
  buckets : String → Option bucket

/-- One iteration of the first loop of `mergeFindings`. -/
def mergeStep (st : MergeState) (f : Finding) : MergeState :=
  let key := rootCauseKey f
  match st.buckets key with
  | some b =>
    { st with
      buckets := Function.update st.buckets key (some { b with extras := b.extras ++ [f] }) }
  | none =>
    { order := st.order ++ [key],
      buckets := Function.update st.buckets key (some { primary := f, extras := [] }) }

/-- Go `mergeFindings`. Every key of `order` has a bucket (see
`mergeFindings_eq`), so the `filterMap` drops nothing. -/
def mergeFindings (findings : List Finding) : List Finding :=
  let st := findings.foldl mergeStep { order := [], buckets := fun _ => none }
  st.order.filterMap fun key =>
    (st.buckets key).map fun b => b.extras.foldl mergePair b.primary

/-- The map `typeCounts` after `typeCounts[t]++`. -/
def incrCount (t : EvidenceType) : List (EvidenceType × Nat) → List (EvidenceType × Nat)
  | [] => [(t, 1)]
  | (k, n) :: rest => if k = t then (k, n + 1) :: rest else (k, n) :: incrCount t rest

/-- The map `typeCounts` built by `boostConfidence` and `buildReasoning`, as an
association list with one entry per key. -/
def typeCounts (es : List Evidence) : List (EvidenceType × Nat) :=
  es.foldl (fun m e => incrCount e.Type_ m) []

/-- Go `math.Round`: nearest integer, halves away from zero. -/
def mathRound (x : ℚ) : ℚ :=
  if x < 0 then -((⌊-x + 1 / 2⌋ : ℤ) : ℚ) else ((⌊x + 1 / 2⌋ : ℤ) : ℚ)

/-- Go `boostConfidence`. -/
def boostConfidence (f : Finding) : ℚ :=
  let distinctTypes := (typeCounts f.Evidence).length
  let totalEvidence := f.Evidence.length
  let base := f.Confidence
  let base := if distinctTypes ≥ 3 then base + 15 / 100
    else if distinctTypes ≥ 2 then base + 10 / 100 else base
  let base := if totalEvidence ≥ 5 then base + 5 / 100 else base
  let base := mathRound (base * 100) / 100
  if base > 1 then 1 else base

/-- Two to the power `e`. -/
def pow2 (e : Int) : ℚ :=
  if 0 ≤ e then ((2 ^ e.toNat : Nat) : ℚ) else 1 / ((2 ^ (-e).toNat : Nat) : ℚ)

/-- The number of halvings that bring `n` below `2`, at most `fuel` of them. -/
def log2Fuel : Nat → Nat → Nat
  | 0, _ => 0
  | fuel + 1, n => if n < 2 then 0 else log2Fuel fuel (n / 2) + 1

/-- For `n ≥ 1`, the exponent `a` with `2^a ≤ n < 2^(a+1)`. -/
def natLog2 (n : Nat) : Nat :=
  log2Fuel n n

/-- For `x > 0`, the exponent `e` with `2^e ≤ x < 2^(e+1)`. -/
def binade (x : ℚ) : Int :=
  let e : Int := (natLog2 x.num.natAbs : Int) - (natLog2 x.den : Int)
  if pow2 e ≤ x then e else e - 1

/-- Rounding to the nearest integer, a tie going to the even one. -/
def roundHalfEven (m : ℚ) : Int :=
  let fl := ⌊m⌋
  let d := m - fl
  if d < 1 / 2 then fl else if 1 / 2 < d then fl + 1 else if fl % 2 = 0 then fl else fl + 1

/-- The float64 nearest to the real number `x`, ties to even (IEEE 754
binary64: 53 significant bits, subnormal numbers below `2^-1022`), as the
rational it denotes. Overflow to an infinity is left out: a result beyond the
largest float64 is given as if the exponent range had no upper end. -/
def toFloat64 (x : ℚ) : ℚ :=
  if x = 0 then 0
  else
    let e := max (binade |x|) (-1022)
    let ulp := pow2 (e - 52)
    (roundHalfEven (x / ulp) : ℚ) * ulp

/-- Go `boostConfidence` in float64 arithmetic. `f.Confidence` is the value of
a finite float64; the constants `0.15`, `0.10` and `0.05` are their nearest
float64, each `+=`, the product `base*100` and the quotient by `100` are
rounded to float64; `100` and `1.0` are float64 themselves, and `math.Round` of
a float64 is exact. -/
def boostConfidenceF64 (f : Finding) : ℚ :=
  let distinctTypes := (typeCounts f.Evidence).length
  let totalEvidence := f.Evidence.length
  let base := f.Confidence
  let base := if distinctTypes ≥ 3 then toFloat64 (base + toFloat64 (15 / 100))
    else if distinctTypes ≥ 2 then toFloat64 (base + toFloat64 (10 / 100)) else base
  let base := if totalEvidence ≥ 5 then toFloat64 (base + toFloat64 (5 / 100)) else base
  let base := toFloat64 (mathRound (toFloat64 (base * 100)) / 100)
  if base > 1 then 1 else base

/-- Go `fmt.Sprintf("%.0f", x)`: no decimals, ties to even. -/
def formatFixed0 (x : ℚ) : String :=
  let a := |x|
  let fl := ⌊a⌋
  let d := a - fl
  let n := if d < 1 / 2 then fl else if 1 / 2 < d then fl + 1
    else if fl % 2 = 0 then fl else fl + 1
  (if x < 0 then "-" else "") ++ toString n.toNat

/-- The lookup `typeCounts[t]` with its `ok` flag. -/
def lookupCount (m : List (EvidenceType × Nat)) (t : EvidenceType) : Option Nat :=
  (m.find? fun kn => kn.1 = t).map fun kn => kn.2

/-- Go `buildReasoning`. -/
def buildReasoning (f : Finding) : String :=
  let counts := typeCounts f.Evidence
  let parts := ["confidence=" ++ formatFixed0 (f.Confidence * 100) ++ "%"]
  let typeLabels := [EvidenceResource, EvidenceEvent, EvidenceLog, EvidenceMetric]
  let parts := parts ++ typeLabels.filterMap fun t =>
    (lookupCount counts t).map fun n => toString n ++ " " ++ t ++ " source(s)"
  let distinctTypes := counts.length
  let parts := if distinctTypes ≥ 3 then parts ++ ["strong cross-signal agreement"]
    else if distinctTypes ≥ 2 then parts ++ ["cross-signal agreement"] else parts
  String.intercalate "; " parts

/-- The comparison function handed to `sort.SliceStable` in `sortFindings`. -/
def sortLess (a b : Finding) : Prop :=
  if severityRank a.Severity ≠ severityRank b.Severity then
    severityRank a.Severity > severityRank b.Severity
  else if a.Confidence ≠ b.Confidence then a.Confidence > b.Confidence
  else a.ID < b.ID

instance (a b : Finding) : Decidable (sortLess a b) := by
  unfold sortLess; infer_instance

/-- Go `sortFindings`: `sort.SliceStable` is the stable insertion of every
element before the first one it is not greater than. -/
def sortFindings (findings : List Finding) : List Finding :=
  findings.insertionSort fun a b => ¬ sortLess b a

/-- The body of the loop of `Correlate` for one merged finding. -/
def rescore (m : Finding) : Finding :=
  let m1 : Finding := { m with Confidence := boostConfidence m }
  { m1 with Reasoning := buildReasoning m1 }

/-- Go `(*Correlator).Correlate`. -/
def Correlate (findings : List Finding) : List Finding :=
  sortFindings ((mergeFindings findings).map rescore)

/-! ## k8s.io/api/core/v1 and pkg/collector/snapshot.go

Only the fields that the analysis reads are kept; resource lists are left out. -/

/-- Constant `corev1.NodeDiskPressure`. -/
def NodeDiskPressure : String := "DiskPressure"
/-- Constant `corev1.NodeMemoryPressure`. -/
def NodeMemoryPressure : String := "MemoryPressure"
/-- Constant `corev1.NodePIDPressure`. -/
def NodePIDPressure : String := "PIDPressure"
/-- Constant `corev1.ConditionTrue`. -/
def ConditionTrue : String := "True"
/-- Constant `corev1.PodPending`. -/
def PodPending : String := "Pending"
/-- Constant `corev1.PodRunning`. -/
def PodRunning : String := "Running"
/-- Constant `corev1.ClaimPending`. -/
def ClaimPending : String := "Pending"
/-- Constant `corev1.VolumeFailed`. -/
def VolumeFailed : String := "Failed"

/-- Go `corev1.NodeCondition`. -/
structure NodeCondition where
  Type_ : String := ""
  Status : String := ""
  Reason : String := ""
  Message : String := ""
deriving DecidableEq

/-- Go `corev1.PodCondition`. -/
structure PodCondition where
  Type_ : String := ""
  Status : String := ""
  Reason : String := ""
  Message : String := ""
deriving DecidableEq

/-- Go `corev1.ContainerStateWaiting`. -/
structure ContainerStateWaiting where
  Reason : String := ""
  Message : String := ""
deriving DecidableEq

/-- Go `corev1.ContainerState`; the pointer `Waiting` is an `Option`. -/
structure ContainerState where
  Waiting : Option ContainerStateWaiting := none
deriving DecidableEq

/-- Go `collector.NodeInfo`. -/
structure NodeInfo where
  Name : String := ""
  Conditions : List NodeCondition := []
  Unschedulable : Bool := false
deriving DecidableEq

/-- Go `collector.ContainerInfo`. -/
structure ContainerInfo where
  Name : String := ""
  Ready : Bool := false
  RestartCount : Int := 0
  State : ContainerState := {}
deriving DecidableEq

/-- Go `collector.PodInfo`. -/
structure PodInfo where
  Name : String := ""
  Namespace : String := ""
  Phase : String := ""
  Conditions : List PodCondition := []
  Containers : List ContainerInfo := []
  NodeName : String := ""
  QOSClass : String := ""
deriving DecidableEq

/-- Go `collector.EventInfo`. -/
structure EventInfo where
  Namespace : String := ""
  Name : String := ""
  Reason : String := ""
  Message : String := ""
  Type_ : String := ""
  InvolvedObject : String := ""
  Count : Int := 0
  FirstTimestamp : Int := 0
  LastTimestamp : Int := 0
deriving DecidableEq

/-- Go `collector.PVCInfo`. -/
structure PVCInfo where
  Name : String := ""
  Namespace : String := ""
  Phase : String := ""
  VolumeName : String := ""
  StorageClassName : String := ""
deriving DecidableEq

/-- Go `collector.PVInfo`. -/
structure PVInfo where
  Name : String := ""
  Phase : String := ""
  StorageClassName : String := ""
  ClaimRef : String := ""
deriving DecidableEq

/-- Go `collector.DaemonSetInfo`. -/
structure DaemonSetInfo where
  Name : String := ""
  DesiredNumberScheduled : Int := 0
  CurrentNumberScheduled : Int := 0
  NumberReady : Int := 0
  NumberMisscheduled : Int := 0
  NumberUnavailable : Int := 0
deriving DecidableEq

/-- Go `collector.KubeSystemHealth`. -/
structure KubeSystemHealth where
  DaemonSets : List DaemonSetInfo := []
  Pods : List PodInfo := []
deriving DecidableEq

/-- Go `collector.Snapshot`. -/
structure Snapshot where
  SchemaVersion : String := ""
  CollectedAt : Int := 0
  Since : String := ""
  Nodes : List NodeInfo := []
  Pods : List PodInfo := []
  Events : List EventInfo := []
  PVCs : List PVCInfo := []
  PVs : List PVInfo := []
  KubeSystem : KubeSystemHealth := {}
deriving DecidableEq

/-! ## The Go standard library and runtime -/

/-- The part of the Go runtime that an evaluation depends on and that its
arguments do not fix: the reading of `time.Now().UTC()`, here one instant for a
whole evaluation, and the order in which `range` visits the entries of a map,
here any rearrangement of the entries in insertion order. -/
structure Runtime where
  now : Int
  rangeOrder : {α : Type} → List α → List α
  rangeOrder_perm : ∀ {α : Type} (l : List α), (rangeOrder l).Perm l

/-- Whether `sub` occurs in `s` as a block of consecutive characters. -/
def hasInfix (sub : List Char) : List Char → Bool
  | [] => sub.isEmpty
  | c :: cs => sub.isPrefixOf (c :: cs) || hasInfix sub cs

namespace strings

/-- Go `strings.Contains`. -/
def Contains (s substr : String) : Bool :=
  hasInfix substr.data s.data

/-- Go `strings.ToLower`, on the letters `A` to `Z`; letters outside ASCII are
left as they are. -/
def ToLower (s : String) : String :=
  String.mk (s.data.map Char.toLower)

/-- Go `strings.EqualFold`, on the letters of ASCII. -/
def EqualFold (s t : String) : Bool :=
  ToLower s = ToLower t

/-- Go `strings.ReplaceAll(s, old, new)` for one-character `old` and `new`. -/
def ReplaceAll (s : String) (old new : Char) : String :=
  String.mk (s.data.map fun c => if c = old then new else c)

/-- Go `strings.Join`. -/
def Join (parts : List String) (sep : String) : String :=
  String.intercalate sep parts

end strings

/-! ## pkg/analysis/rule.go -/

/-- Go interface `Rule`, as the pair of its two methods. -/
structure Rule where
  Name : String
  Evaluate : Snapshot → List Finding

/-- Constant `model.SchemaVersion`. -/
def SchemaVersion : String := "v1"

/-- Go `model.Report`. -/
structure Report where
  SchemaVersion : String
  Findings : List Finding
deriving DecidableEq

/-- Go `model.NewReport`. -/
def NewReport (findings : List Finding) : Report :=
  { SchemaVersion := SchemaVersion, Findings := findings }

/-! ## pkg/analysis/node_pressure.go -/

/-- Go `pressureConditions`. -/
def pressureConditions : List String :=
  [NodeDiskPressure, NodeMemoryPressure, NodePIDPressure]

/-- Go `evictionReasons`. -/
def evictionReasons : List String :=
  ["Evicted", "eviction", "NodeHasDiskPressure", "NodeHasMemoryPressure",
   "NodeHasPIDPressure", "OOMKilling", "SystemOOM"]

/-- Go `isPressureCondition`. -/
def isPressureCondition (ct : String) : Bool :=
  pressureConditions.any fun p => ct = p

/-- Go `isEvictionRelated`. -/
def isEvictionRelated (reason message : String) : Bool :=
  let combined := reason ++ " " ++ message
  evictionReasons.any fun keyword =>
    strings.Contains (strings.ToLower combined) (strings.ToLower keyword)

/-- Go `findEvictionEvents`. -/
def findEvictionEvents (events : List EventInfo) (nodeName : String) : List EventInfo :=
  events.filter fun ev =>
    isEvictionRelated ev.Reason ev.Message &&
      (strings.Contains ev.InvolvedObject nodeName || strings.Contains ev.Message nodeName)

/-- Go `pressureConfidence`. -/
def pressureConfidence (_cond : NodeCondition) (evictionEventCount : Int) : ℚ :=
  let base : ℚ := 7 / 10
  let base := if evictionEventCount > 0 then base + 15 / 100 else base
  let base := if evictionEventCount > 3 then base + 10 / 100 else base
  if base > 1 then 1 else base

/-- Go `pressureSeverity`. -/
def pressureSeverity (ct : String) (evictionEventCount : Int) : Severity :=
  if evictionEventCount > 0 then SeverityCritical
  else if ct = NodeMemoryPressure ∨ ct = NodeDiskPressure then SeverityHigh
  else SeverityMedium

/-- Go `buildPressureSummary`. -/
def buildPressureSummary (nodeName : String) (cond : NodeCondition) (evCount : Int) : String :=
  let s := "Node " ++ nodeName ++ " reports " ++ cond.Type_ ++ " (reason: " ++ cond.Reason ++ ")."
  if evCount > 0 then s ++ " " ++ toString evCount ++ " eviction-related event(s) correlated."
  else s

/-- Go `pressureNextSteps`. -/
def pressureNextSteps (ct : String) : List String :=
  if ct = NodeDiskPressure then
    ["Check disk usage on the node", "Review pod ephemeral storage usage",
     "Consider expanding node disk or cleaning images"]
  else if ct = NodeMemoryPressure then
    ["Review pod memory requests and limits", "Check for memory leaks in workloads",
     "Consider adding nodes or increasing node memory"]
  else if ct = NodePIDPressure then
    ["Check for fork bombs or runaway processes", "Review pod PID limits",
     "Inspect node process table"]
  else ["Investigate node conditions"]

/-- Go `conditionSlug`. -/
def conditionSlug (ct : String) : String :=
  strings.ToLower (strings.ReplaceAll ct ' ' '-')

/-- The evidence item that `NodePressureRule.Evaluate` appends for a related event. -/
def pressureEventEvidence (ev : EventInfo) : Evidence :=
  { Type_ := EvidenceEvent, Ref := ev.InvolvedObject, Message := ev.Message,
    Data := [("reason", ev.Reason), ("count", toString ev.Count)] }

/-- The body of the inner loop of `NodePressureRule.Evaluate`: the finding
appended for a pressure condition of a node that is true. -/
def pressureFinding (rt : Runtime) (snap : Snapshot) (node : NodeInfo) (cond : NodeCondition) :
    Finding :=
  let evidence : List Evidence :=
    [{ Type_ := EvidenceResource, Ref := "node/" ++ node.Name,
       Message := "Condition " ++ cond.Type_ ++ " is True: " ++ cond.Message,
       Data := [("condition", cond.Type_), ("status", cond.Status), ("reason", cond.Reason)] }]
  let relatedEvents := findEvictionEvents snap.Events node.Name
  let evidence := evidence ++ relatedEvents.map pressureEventEvidence
  let confidence := pressureConfidence cond relatedEvents.length
  let severity := pressureSeverity cond.Type_ relatedEvents.length
  { SchemaVersion := SchemaVersion,
    ID := "node-pressure-" ++ node.Name ++ "-" ++ conditionSlug cond.Type_,
    Title := "Node " ++ node.Name ++ " has " ++ cond.Type_,
    Category := "node-health",
    Severity := severity,
    Confidence := confidence,
    Summary := buildPressureSummary node.Name cond relatedEvents.length,
    Evidence := evidence,
    NextSteps := pressureNextSteps cond.Type_,
    Timestamp := rt.now }

/-- Go `(*NodePressureRule).Evaluate`: the two nested loops over the nodes and
their conditions. -/
def NodePressureRule.Evaluate (rt : Runtime) (snap : Snapshot) : List Finding :=
  snap.Nodes.foldl
    (fun findings node =>
      node.Conditions.foldl
        (fun findings cond =>
          if !isPressureCondition cond.Type_ || cond.Status != ConditionTrue then findings
          else findings ++ [pressureFinding rt snap node cond])
        findings)
    []

/-- The rule `&NodePressureRule{}` with its `Name` method. -/
def NodePressureRule.toRule (rt : Runtime) : Rule :=
  { Name := "node-pressure", Evaluate := NodePressureRule.Evaluate rt }

/-! ## pkg/analysis/pending_pods.go -/

/-- Go `schedulingReason`. -/
structure schedulingReason where
  Category : String
  Keywords : List String

/-- Go `schedulingReasons`. -/
def schedulingReasons : List schedulingReason :=
  [{ Category := "insufficient-cpu", Keywords := ["Insufficient cpu", "cpu"] },
   { Category := "insufficient-memory", Keywords := ["Insufficient memory", "memory"] },
   { Category := "taint",
     Keywords := ["had taint", "untolerated taint", "NoSchedule", "NoExecute"] },
   { Category := "affinity",
     Keywords := ["node affinity", "node(s) didn't match", "affinity", "anti-affinity"] },
   { Category := "unschedulable", Keywords := ["unschedulable", "SchedulingDisabled"] }]

/-- The local type `podReason` of `PendingPodsRule.Evaluate`. -/
structure podReason where
  pod : PodInfo
  reason : String
  events : List EventInfo

/-- Go `findPodEvents`. -/
def findPodEvents (events : List EventInfo) (namespace_ name : String) : List EventInfo :=
  let ref := "Pod/" ++ namespace_ ++ "/" ++ name
  events.filter fun ev =>
    ev.InvolvedObject = ref || (ev.Namespace = namespace_ && strings.Contains ev.Name name)

/-- Go `collectMessages`. -/
def collectMessages (pod : PodInfo) (events : List EventInfo) : List String :=
  let msgs : List String := pod.Conditions.foldl
    (fun msgs c =>
      let msgs := if c.Message ≠ "" then msgs ++ [c.Message] else msgs
      if c.Reason ≠ "" then msgs ++ [c.Reason] else msgs)
    []
  events.foldl (fun msgs ev => msgs ++ [ev.Message, ev.Reason]) msgs

/-- Go `classifySchedulingReason`: the category of the first scheduling reason
one of whose keywords occurs in one of the messages. -/
def classifySchedulingReason (pod : PodInfo) (events : List EventInfo) : String :=
  let messages := collectMessages pod events
  match schedulingReasons.find? fun sr =>
      sr.Keywords.any fun kw =>
        messages.any fun msg => strings.Contains (strings.ToLower msg) (strings.ToLower kw) with
  | some sr => sr.Category
  | none => "unknown"

/-- Go `pendingConfidence`. -/
def pendingConfidence (pendingCount totalPods : Int) : ℚ :=
  if totalPods = 0 then 5 / 10
  else
    let ratio : ℚ := (pendingCount : ℚ) / (totalPods : ℚ)
    let base : ℚ := 6 / 10
    let base := if pendingCount ≥ 3 then base + 15 / 100 else base
    let base := if ratio > 1 / 10 then base + 15 / 100 else base
    if base > 1 then 1 else base

/-- Go `pendingSeverity`. -/
def pendingSeverity (count : Int) (category : String) : Severity :=
  if count ≥ 5 then SeverityCritical
  else if category = "insufficient-cpu" ∨ category = "insufficient-memory" then
    if count ≥ 2 then SeverityHigh else SeverityMedium
  else if category = "taint" ∨ category = "affinity" then SeverityMedium
  else SeverityLow

/-- Go `buildPendingSummary`. -/
def buildPendingSummary (count : Int) (category : String) : String :=
  toString count ++ " pod(s) stuck in Pending state. Most common scheduling failure: " ++
    category ++ "."

/-- Go `pendingNextSteps`. -/
def pendingNextSteps (category : String) : List String :=
  if category = "insufficient-cpu" then
    ["Review CPU requests across the cluster", "Consider adding nodes or increasing node size",
     "Check for pods with excessive CPU requests"]
  else if category = "insufficient-memory" then
    ["Review memory requests across the cluster",
     "Consider adding nodes or increasing node memory",
     "Check for pods with excessive memory requests"]
  else if category = "taint" then
    ["Review node taints and pod tolerations", "Check if taints were recently added",
     "Verify pod tolerations match node taints"]
  else if category = "affinity" then
    ["Review pod affinity and anti-affinity rules", "Check node labels match pod nodeSelector",
     "Consider relaxing affinity constraints"]
  else if category = "unschedulable" then
    ["Check if nodes are cordoned", "Uncordon nodes if maintenance is complete"]
  else ["Inspect pod events with kubectl describe", "Check scheduler logs for details"]

/-- The map `buckets` of `PendingPodsRule.Evaluate` after
`buckets[cat] = append(buckets[cat], pr)`, as the list of its entries in
insertion order. -/
def appendToBucket (cat : String) (pr : podReason) :
    List (String × List podReason) → List (String × List podReason)
  | [] => [(cat, [pr])]
  | (k, prs) :: rest =>
    if k = cat then (k, prs ++ [pr]) :: rest else (k, prs) :: appendToBucket cat pr rest

/-- The first loop of `PendingPodsRule.Evaluate`: the buckets of the pending pods. -/
def pendingBuckets (snap : Snapshot) : List (String × List podReason) :=
  snap.Pods.foldl
    (fun buckets pod =>
      if pod.Phase ≠ PodPending then buckets
      else
        let events := findPodEvents snap.Events pod.Namespace pod.Name
        let cat := classifySchedulingReason pod events
        appendToBucket cat { pod := pod, reason := cat, events := events } buckets)
    []

/-- The evidence that `PendingPodsRule.Evaluate` appends for one pod of a bucket. -/
def pendingPodEvidence (cat : String) (pr : podReason) : List Evidence :=
  { Type_ := EvidenceResource, Ref := "pod/" ++ pr.pod.Namespace ++ "/" ++ pr.pod.Name,
    Message := "Pod is Pending (reason: " ++ cat ++ ")",
    Data := [("namespace", pr.pod.Namespace), ("nodeName", pr.pod.NodeName)] } ::
  pr.events.map fun ev =>
    { Type_ := EvidenceEvent, Ref := ev.InvolvedObject, Message := ev.Message,
      Data := [("reason", ev.Reason), ("count", toString ev.Count)] }

/-- The body of the second loop of `PendingPodsRule.Evaluate`: the finding of
one bucket. -/
def pendingFinding (rt : Runtime) (snap : Snapshot) (cat : String) (pods : List podReason) :
    Finding :=
  let evidence := pods.foldl (fun evidence pr => evidence ++ pendingPodEvidence cat pr) []
  let confidence := pendingConfidence pods.length snap.Pods.length
  let severity := pendingSeverity pods.length cat
  { SchemaVersion := SchemaVersion,
    ID := "pending-pods-" ++ cat,
    Title := toString pods.length ++ " Pending pod(s) due to " ++ cat,
    Category := "scheduling",
    Severity := severity,
    Confidence := confidence,
    Summary := buildPendingSummary pods.length cat,
    Evidence := evidence,
    NextSteps := pendingNextSteps cat,
    Timestamp := rt.now }

/-- Go `(*PendingPodsRule).Evaluate`; the second loop ranges over the map
`buckets` in the order of the runtime. -/
def PendingPodsRule.Evaluate (rt : Runtime) (snap : Snapshot) : List Finding :=
  let buckets := pendingBuckets snap
  if buckets.length = 0 then []
  else
    (rt.rangeOrder buckets).foldl
      (fun findings entry => findings ++ [pendingFinding rt snap entry.1 entry.2])
      []

/-- The rule `&PendingPodsRule{}` with its `Name` method. -/
def PendingPodsRule.toRule (rt : Runtime) : Rule :=
  { Name := "pending-pods", Evaluate := PendingPodsRule.Evaluate rt }

/-! ## pkg/analysis/dns.go -/

/-- Go `maxLogLineLen`. -/
def maxLogLineLen : Nat := 256

/-- Go `restartThreshold`. -/
def restartThreshold : Int := 3

/-- Go `coreDNSLabels`. -/
def coreDNSLabels : List String := ["coredns", "kube-dns"]

/-- Go `dnsLogPatterns`. -/
def dnsLogPatterns : List String :=
  ["SERVFAIL", "timeout", "i/o timeout", "connection refused", "no such host", "NXDOMAIN"]

/-- Go `dnsEventReasons`. -/
def dnsEventReasons : List String :=
  ["BackOff", "CrashLoopBackOff", "Unhealthy", "Failed", "OOMKilled"]

/-- The characters of a string that lie wholly within its first `n` bytes. -/
def bytePrefix : Nat → List Char → List Char
  | _, [] => []
  | n, c :: cs => if c.utf8Size ≤ n then c :: bytePrefix (n - c.utf8Size) cs else []

/-- Go `truncate`: `len` counts bytes and `s[:max-3]` cuts at a byte offset.
A cut inside a character leaves bytes that are no character; they are dropped
here. For `max < 3` the Go slice expression panics; the rules pass `256`. -/
def truncate (s : String) (max : Nat) : String :=
  if s.utf8ByteSize ≤ max then s
  else String.mk (bytePrefix (max - 3) s.data) ++ "..."

/-- The bytes of the Go string that holds the text `s`, in UTF-8. -/
def goBytes (s : String) : List UInt8 :=
  s.data.flatMap String.utf8EncodeChar

/-- Go slice expression `s[:n]` on the bytes of a string: a run-time panic,
here `none`, unless `0 ≤ n ≤ len(s)`. -/
def sliceTo (s : List UInt8) (n : Int) : Option (List UInt8) :=
  if 0 ≤ n ∧ n ≤ (s.length : Int) then some (s.take n.toNat) else none

/-- Go `truncate` on the bytes of its argument, with the panic of the slice
expression kept. `truncate` above is this function on the strings that are
texts; `truncate_bytes` compares the two. -/
def truncateBytes (s : List UInt8) (max : Int) : Option (List UInt8) :=
  if (s.length : Int) ≤ max then some s
  else (sliceTo s (max - 3)).map fun t => t ++ goBytes "..."

/-- Go `isCoreDNSPod`. -/
def isCoreDNSPod (name : String) : Bool :=
  let lower := strings.ToLower name
  coreDNSLabels.any fun label => strings.Contains lower label

/-- Go `podInSlice`. -/
def podInSlice (pods : List PodInfo) (name ns : String) : Bool :=
  pods.any fun p => p.Name = name && p.Namespace = ns

/-- Go `findCoreDNSPods`. -/
def findCoreDNSPods (snap : Snapshot) : List PodInfo :=
  let pods := snap.KubeSystem.Pods.filter fun p => isCoreDNSPod p.Name
  snap.Pods.foldl
    (fun pods p =>
      if p.Namespace = "kube-system" && isCoreDNSPod p.Name then
        if !podInSlice pods p.Name p.Namespace then pods ++ [p] else pods
      else pods)
    pods

/-- Go `findDNSEvents`; the map `podRefs` is the list of its keys. -/
def findDNSEvents (events : List EventInfo) (dnsPods : List PodInfo) : List EventInfo :=
  let podRefs := dnsPods.map fun p => "Pod/" ++ p.Namespace ++ "/" ++ p.Name
  events.filter fun ev =>
    decide (ev.InvolvedObject ∈ podRefs) &&
      dnsEventReasons.any fun reason => strings.EqualFold ev.Reason reason

/-- Go `findDNSLogPatternEvidence`. -/
def findDNSLogPatternEvidence (events : List EventInfo) : List Evidence :=
  events.filterMap fun ev =>
    if !strings.Contains (strings.ToLower ev.InvolvedObject) "coredns" &&
        !strings.Contains (strings.ToLower ev.InvolvedObject) "kube-dns" then none
    else
      (dnsLogPatterns.find? fun pattern =>
          strings.Contains (strings.ToLower ev.Message) (strings.ToLower pattern)).map
        fun pattern =>
          { Type_ := EvidenceLog, Ref := ev.InvolvedObject,
            Message := truncate ev.Message maxLogLineLen,
            Data := [("pattern", pattern)] }

/-- Go `dnsConfidence`. -/
def dnsConfidence (crashlooping highRestarts eventCount logPatterns : Int) : ℚ :=
  let base : ℚ := 5 / 10
  let base := if crashlooping > 0 then base + 25 / 100 else base
  let base := if highRestarts > 0 then base + 10 / 100 else base
  let base := if eventCount > 0 then base + 10 / 100 else base
  let base := if logPatterns > 0 then base + 10 / 100 else base
  if base > 1 then 1 else base

/-- Go `dnsSeverity`. -/
def dnsSeverity (crashlooping highRestarts totalDNSPods : Int) : Severity :=
  if crashlooping > 0 ∧ crashlooping ≥ totalDNSPods then SeverityCritical
  else if crashlooping > 0 then SeverityHigh
  else if highRestarts > 0 then SeverityMedium
  else SeverityLow

/-- Go `dnsSummary`. -/
def dnsSummary (pods : List PodInfo) (crashlooping highRestarts eventCount : Int) : String :=
  let parts := [toString pods.length ++ " CoreDNS pod(s) inspected."]
  let parts := if crashlooping > 0 then parts ++ [toString crashlooping ++ " crashlooping."]
    else parts
  let parts :=
    if highRestarts > 0 then parts ++ [toString highRestarts ++ " with high restart count."]
    else parts
  let parts := if eventCount > 0 then parts ++ [toString eventCount ++ " warning event(s)."]
    else parts
  strings.Join parts " "

/-- Go `dnsNextSteps`. -/
def dnsNextSteps : List String :=
  ["Check CoreDNS pod logs for errors", "Review CoreDNS Corefile configuration",
   "Verify upstream DNS resolver connectivity", "Check CoreDNS resource limits and OOM kills",
   "Test DNS resolution from within pods"]

/-- The variables `evidence`, `crashlooping` and `highRestarts` of `DNSRule.Evaluate`. -/
structure dnsScan where
  evidence : List Evidence
  crashlooping : Int
  highRestarts : Int

/-- The body of the loop of `DNSRule.Evaluate` over the containers of a pod. -/
def scanContainer (pod : PodInfo) (st : dnsScan) (c : ContainerInfo) : dnsScan :=
  if (match c.State.Waiting with
      | some w => decide (w.Reason = "CrashLoopBackOff")
      | none => false) then
    { st with
      crashlooping := st.crashlooping + 1,
      evidence := st.evidence ++
        [{ Type_ := EvidenceResource, Ref := "pod/" ++ pod.Namespace ++ "/" ++ pod.Name,
           Message := "Container " ++ c.Name ++ " is in CrashLoopBackOff",
           Data := [("container", c.Name), ("restartCount", toString c.RestartCount)] }] }
  else if c.RestartCount ≥ restartThreshold then
    { st with
      highRestarts := st.highRestarts + 1,
      evidence := st.evidence ++
        [{ Type_ := EvidenceResource, Ref := "pod/" ++ pod.Namespace ++ "/" ++ pod.Name,
           Message := "Container " ++ c.Name ++ " has " ++ toString c.RestartCount ++ " restarts",
           Data := [("container", c.Name), ("restartCount", toString c.RestartCount)] }] }
  else st

/-- The body of the loop of `DNSRule.Evaluate` over the DNS pods. -/
def scanPod (st : dnsScan) (pod : PodInfo) : dnsScan :=
  let st := pod.Containers.foldl (scanContainer pod) st
  if pod.Phase ≠ PodRunning then
    { st with
      evidence := st.evidence ++
        [{ Type_ := EvidenceResource, Ref := "pod/" ++ pod.Namespace ++ "/" ++ pod.Name,
           Message := "CoreDNS pod is in " ++ pod.Phase ++ " phase" }] }
  else st

/-- The evidence item that `DNSRule.Evaluate` appends for a DNS event. -/
def dnsEventEvidence (ev : EventInfo) : Evidence :=
  { Type_ := EvidenceEvent, Ref := ev.InvolvedObject,
    Message := truncate ev.Message maxLogLineLen,
    Data := [("reason", ev.Reason), ("count", toString ev.Count)] }

/-- Go `(*DNSRule).Evaluate`. -/
def DNSRule.Evaluate (rt : Runtime) (snap : Snapshot) : List Finding :=
  let dnsPods := findCoreDNSPods snap
  if dnsPods.length = 0 then []
  else
    let st := dnsPods.foldl scanPod { evidence := [], crashlooping := 0, highRestarts := 0 }
    let dnsEvents := findDNSEvents snap.Events dnsPods
    let evidence := st.evidence ++ dnsEvents.map dnsEventEvidence
    let logEvidence := findDNSLogPatternEvidence snap.Events
    let evidence := evidence ++ logEvidence
    if evidence.length = 0 then []
    else
      let confidence :=
        dnsConfidence st.crashlooping st.highRestarts dnsEvents.length logEvidence.length
      let severity := dnsSeverity st.crashlooping st.highRestarts dnsPods.length
      [{ SchemaVersion := SchemaVersion,
         ID := "dns-instability",
         Title := "DNS instability detected",
         Category := "dns",
         Severity := severity,
         Confidence := confidence,
         Summary := dnsSummary dnsPods st.crashlooping st.highRestarts dnsEvents.length,
         Evidence := evidence,
         NextSteps := dnsNextSteps,
         Timestamp := rt.now }]

/-- The rule `&DNSRule{}` with its `Name` method. -/
def DNSRule.toRule (rt : Runtime) : Rule :=
  { Name := "dns-instability", Evaluate := DNSRule.Evaluate rt }

/-! ## pkg/analysis/storage.go -/

/-- Go `storageEventReasons`. -/
def storageEventReasons : List String :=
  ["FailedAttachVolume", "FailedMount", "FailedDetach", "VolumeFailedRecycle",
   "VolumeFailedDelete", "ProvisioningFailed", "ExternalProvisioning"]

/-- Go `storageEventKeywords`. -/
def storageEventKeywords : List String :=
  ["AttachVolume", "MountVolume", "CSI", "csi", "volume", "disk", "FailedMount"]

/-- Go `isStorageEvent`. -/
def isStorageEvent (ev : EventInfo) : Bool :=
  if storageEventReasons.any fun reason => strings.EqualFold ev.Reason reason then true
  else
    let combined := ev.Reason ++ " " ++ ev.Message
    storageEventKeywords.any fun kw => strings.Contains combined kw

/-- The loop of `findStorageEvents`: `seen` is the map of the keys seen so far,
`matched` the slice being appended to. -/
def storageEventsLoop (seen : List String) (matched : List EventInfo) :
    List EventInfo → List EventInfo
  | [] => matched
  | ev :: evs =>
    let key := ev.Namespace ++ "/" ++ ev.Name
    if key ∈ seen then storageEventsLoop seen matched evs
    else if isStorageEvent ev then storageEventsLoop (key :: seen) (matched ++ [ev]) evs
    else storageEventsLoop seen matched evs

/-- Go `findStorageEvents`. -/
def findStorageEvents (events : List EventInfo) : List EventInfo :=
  storageEventsLoop [] [] events

/-- Go `storageClassOrNone`. -/
def storageClassOrNone (sc : String) : String :=
  if sc = "" then "<none>" else sc

/-- Go `truncateStorage`, with the conventions of `truncate`. -/
def truncateStorage (s : String) (max : Nat) : String :=
  if s.utf8ByteSize ≤ max then s
  else String.mk (bytePrefix (max - 3) s.data) ++ "..."

/-- Go `truncateStorage` on the bytes of its argument, as `truncateBytes`. -/
def truncateStorageBytes (s : List UInt8) (max : Int) : Option (List UInt8) :=
  if (s.length : Int) ≤ max then some s
  else (sliceTo s (max - 3)).map fun t => t ++ goBytes "..."

/-- Go `storageConfidence`. -/
def storageConfidence (pendingPVCs eventCount : Int) : ℚ :=
  let base : ℚ := 5 / 10
  let base := if pendingPVCs > 0 then base + 20 / 100 else base
  let base := if pendingPVCs > 2 then base + 10 / 100 else base
  let base := if eventCount > 0 then base + 15 / 100 else base
  let base := if eventCount > 3 then base + 10 / 100 else base
  if base > 1 then 1 else base

/-- Go `storageSeverity`. -/
def storageSeverity (pendingPVCs eventCount : Int) : Severity :=
  if pendingPVCs ≥ 3 ∨ eventCount ≥ 5 then SeverityCritical
  else if pendingPVCs > 0 ∧ eventCount > 0 then SeverityHigh
  else if pendingPVCs > 0 ∨ eventCount > 2 then SeverityMedium
  else SeverityLow

/-- Go `storageSummary`. -/
def storageSummary (pendingPVCs eventCount : Int) : String :=
  let parts : List String := []
  let parts := if pendingPVCs > 0 then parts ++ [toString pendingPVCs ++ " PVC(s) stuck in Pending."]
    else parts
  let parts :=
    if eventCount > 0 then parts ++ [toString eventCount ++ " storage-related warning event(s)."]
    else parts
  strings.Join parts " "

/-- Go `storageNextSteps`. -/
def storageNextSteps : List String :=
  ["Check PVC events with kubectl describe pvc", "Verify StorageClass provisioner is running",
   "Check CSI driver pod health", "Review node volume attachment limits",
   "Verify cloud provider permissions for volume operations"]

/-- The variables `evidence` and `pendingPVCs` of `StorageRule.Evaluate`. -/
structure storageScan where
  evidence : List Evidence
  pendingPVCs : Int

/-- The body of the loop of `StorageRule.Evaluate` over the claims. -/
def scanPVC (st : storageScan) (pvc : PVCInfo) : storageScan :=
  if pvc.Phase = ClaimPending then
    { pendingPVCs := st.pendingPVCs + 1,
      evidence := st.evidence ++
        [{ Type_ := EvidenceResource, Ref := "pvc/" ++ pvc.Namespace ++ "/" ++ pvc.Name,
           Message := "PVC is Pending (storageClass: " ++
             storageClassOrNone pvc.StorageClassName ++ ")",
           Data := [("namespace", pvc.Namespace), ("storageClass", pvc.StorageClassName),
                    ("volumeName", pvc.VolumeName)] }] }
  else st

/-- The body of the loop of `StorageRule.Evaluate` over the volumes. -/
def scanPV (evidence : List Evidence) (pv : PVInfo) : List Evidence :=
  if pv.Phase = VolumeFailed then
    evidence ++
      [{ Type_ := EvidenceResource, Ref := "pv/" ++ pv.Name,
         Message := "PV is in Failed phase (storageClass: " ++
           storageClassOrNone pv.StorageClassName ++ ")",
         Data := [("storageClass", pv.StorageClassName), ("claimRef", pv.ClaimRef)] }]
  else evidence

/-- The evidence item that `StorageRule.Evaluate` appends for a storage event. -/
def storageEventEvidence (ev : EventInfo) : Evidence :=
  { Type_ := EvidenceEvent, Ref := ev.InvolvedObject,
    Message := truncateStorage ev.Message maxLogLineLen,
    Data := [("reason", ev.Reason), ("count", toString ev.Count), ("namespace", ev.Namespace)] }

/-- Go `(*StorageRule).Evaluate`. -/
def StorageRule.Evaluate (rt : Runtime) (snap : Snapshot) : List Finding :=
  let st := snap.PVCs.foldl scanPVC { evidence := [], pendingPVCs := 0 }
  let evidence := snap.PVs.foldl scanPV st.evidence
  let storageEvents := findStorageEvents snap.Events
  let evidence := evidence ++ storageEvents.map storageEventEvidence
  if evidence.length = 0 then []
  else
    let confidence := storageConfidence st.pendingPVCs storageEvents.length
    let severity := storageSeverity st.pendingPVCs storageEvents.length
    [{ SchemaVersion := SchemaVersion,
       ID := "storage-issue",
       Title := "Storage provisioning/attachment issue",
       Category := "storage",
       Severity := severity,
       Confidence := confidence,
       Summary := storageSummary st.pendingPVCs storageEvents.length,
       Evidence := evidence,
       NextSteps := storageNextSteps,
       Timestamp := rt.now }]

/-- The rule `&StorageRule{}` with its `Name` method. -/
def StorageRule.toRule (rt : Runtime) : Rule :=
  { Name := "storage-issues", Evaluate := StorageRule.Evaluate rt }

/-! ## pkg/analysis/engine.go -/

/-- Go `Engine`. -/
structure Engine where
  rules : List Rule

/-- Go `NewEngine`. -/
def NewEngine (rules : List Rule) : Engine :=
  { rules := rules }

/-- Go `DefaultEngine`. -/
def DefaultEngine (rt : Runtime) : Engine :=
  NewEngine [NodePressureRule.toRule rt, PendingPodsRule.toRule rt, DNSRule.toRule rt,
    StorageRule.toRule rt]

/-- Go `(*Engine).Register`: the engine after the call. -/
def Engine.Register (e : Engine) (r : Rule) : Engine :=
  { rules := e.rules ++ [r] }

/-- Go `(*Engine).Analyze`. -/
def Engine.Analyze (e : Engine) (snap : Snapshot) : Report :=
  NewReport (e.rules.foldl (fun findings r => findings ++ r.Evaluate snap) [])

/-! ## Auxiliary definitions used to state the properties -/

/-- The items of a list that `appendNew` appends: those whose key is neither in
`existing` nor the key of an earlier appended item. -/
def freshItems {α : Type} (key : α → String) (existing : List String) : List α → List α
  | [] => []
  | e :: es =>
    if key e ∈ existing then freshItems key existing es
    else e :: freshItems key (key e :: existing) es

/-- The findings of `fs` whose merge key is `k`, in input order. -/
def groupOf (fs : List Finding) (k : String) : List Finding :=
  fs.filter fun f => rootCauseKey f = k

/-- The distinct elements of a list in order of first occurrence. -/
def firstKeys : List String → List String
  | [] => []
  | k :: ks => k :: (firstKeys ks).filter fun x => x ≠ k

/-- The result of merging a group one finding at a time, in order. -/
def mergeGroup : List Finding → Option Finding
  | [] => none
  | p :: extras => some (extras.foldl mergePair p)

/-- The bucket that the first loop of `mergeFindings` holds for a group. -/
def bucketOf : List Finding → Option bucket
  | [] => none
  | p :: extras => some { primary := p, extras := extras }

/-- The invariant of the first loop of `mergeFindings` after the prefix `pre`. -/
def MergeInv (pre : List Finding) (st : MergeState) : Prop :=
  st.order = firstKeys (pre.map rootCauseKey) ∧ ∀ k, st.buckets k = bucketOf (groupOf pre k)

/-- The refs of the resource-type evidence of a finding. -/
def resourceRefs (f : Finding) : List String :=
  (f.Evidence.filter fun e => e.Type_ = EvidenceResource).map fun e => e.Ref

/-- The strings of `new` that a union after `old` keeps, read from left to
right: a string is kept when it equals no string of `old` and no string kept
before it. -/
def keptNew (old new : List String) : List String :=
  new.foldl (fun kept x => if x ∈ old ∨ x ∈ kept then kept else kept ++ [x]) []

/-- The first finding of `TestCorrelator_MergesDuplicates`. -/
def exPressure1 : Finding :=
  { ID := "pressure-1", Category := "node-health", Severity := SeverityHigh,
    Confidence := 7 / 10,
    Evidence := [{ Type_ := EvidenceResource, Ref := "node/worker-1", Message := "DiskPressure" }],
    NextSteps := ["Check disk usage"] }

/-- The second finding of `TestCorrelator_MergesDuplicates`. -/
def exPressure2 : Finding :=
  { ID := "pressure-2", Category := "node-health", Severity := SeverityCritical,
    Confidence := 85 / 100,
    Evidence := [{ Type_ := EvidenceResource, Ref := "node/worker-1", Message := "DiskPressure" },
                 { Type_ := EvidenceEvent, Ref := "node/worker-1", Message := "eviction happened" }],
    NextSteps := ["Check disk usage", "Clean images"] }

/-- A finding whose category contains the separator of `rootCauseKey`. -/
def exPipeA : Finding :=
  { ID := "x", Category := "a|b", Severity := SeverityLow }

/-- A finding of category `a` with the resource ref `b`. -/
def exPipeB : Finding :=
  { ID := "y", Category := "a", Severity := SeverityLow,
    Evidence := [{ Type_ := EvidenceResource, Ref := "b", Message := "m" }] }

/-- A primary finding whose evidence ref contains the separator of the dedup key. -/
def exColonP : Finding :=
  { ID := "p", Category := "c",
    Evidence := [{ Type_ := EvidenceEvent, Ref := "pod/x:Failed", Message := "timeout" }] }

/-- A secondary finding whose evidence has another triple and the same dedup key. -/
def exColonS : Finding :=
  { ID := "s", Category := "c",
    Evidence := [{ Type_ := EvidenceEvent, Ref := "pod/x", Message := "Failed:timeout" }] }

/-- The number `T` of distinct evidence types of a finding. -/
def distinctTypes (f : Finding) : Nat :=
  ((f.Evidence.map fun e => e.Type_).dedup).length

/-- The boost for `T` distinct evidence types. -/
def typeBoost (T : Nat) : ℚ :=
  if T ≥ 3 then 15 / 100 else if T = 2 then 10 / 100 else 0

/-- The boost for `E` evidence items. -/
def sizeBoost (E : Nat) : ℚ :=
  if E ≥ 5 then 5 / 100 else 0

/-- Rounding to two decimals: the nearest multiple of `0.01`, a half going away
from zero. -/
def round2 (x : ℚ) : ℚ :=
  ((if 0 ≤ x then ⌊x * 100 + 1 / 2⌋ else ⌈x * 100 - 1 / 2⌉ : ℤ) : ℚ) / 100

/-- A finding with confidence `0` and a single evidence item. -/
def exZeroConfidence : Finding :=
  { ID := "zero", Category := "test", Severity := SeverityLow, Confidence := 0,
    Evidence := [{ Type_ := EvidenceResource, Ref := "a/1", Message := "m" }] }

/-- A finding whose confidence `0.123` is not a multiple of `0.01`. -/
def exThirdDecimal : Finding :=
  { ID := "third", Category := "test", Severity := SeverityLow, Confidence := 123 / 1000,
    Evidence := [{ Type_ := EvidenceResource, Ref := "a/1", Message := "m" }] }

/-- The finding of `TestCorrelator_ConfidenceCappedAt1`. -/
def exCapped : Finding :=
  { ID := "max", Category := "test", Severity := SeverityHigh, Confidence := 95 / 100,
    Evidence := [{ Type_ := EvidenceResource, Ref := "a/1", Message := "m1" },
                 { Type_ := EvidenceEvent, Ref := "a/1", Message := "m2" },
                 { Type_ := EvidenceLog, Ref := "a/1", Message := "m3" },
                 { Type_ := EvidenceMetric, Ref := "a/1", Message := "m4" },
                 { Type_ := EvidenceResource, Ref := "a/2", Message := "m5" },
                 { Type_ := EvidenceEvent, Ref := "a/3", Message := "m6" }] }

/-- The (type, ref, message) triple of an evidence item. -/
def evidenceTriple (e : Evidence) : String × String × String :=
  (e.Type_, e.Ref, e.Message)

/-- A finding that carries the same evidence item twice. -/
def exRepeatedEvidence : Finding :=
  { ID := "dup", Category := "test", Severity := SeverityLow, Confidence := 1 / 2,
    Evidence := [{ Type_ := EvidenceEvent, Ref := "pod/x", Message := "BackOff" },
                 { Type_ := EvidenceEvent, Ref := "pod/x", Message := "BackOff" }] }

/-- Two findings agree on what the final sort compares: severity rank,
confidence and ID. -/
def sameSortKey (a b : Finding) : Prop :=
  severityRank a.Severity = severityRank b.Severity ∧ a.Confidence = b.Confidence ∧ a.ID = b.ID

instance (a b : Finding) : Decidable (sameSortKey a b) := by
  unfold sameSortKey; infer_instance

/-- The number of evidence items of type `t` in a finding. -/
def countType (f : Finding) (t : EvidenceType) : Nat :=
  (f.Evidence.filter fun e => e.Type_ = t).length

/-- The finding of `TestCorrelator_ReasoningContainsSourceCounts`. -/
def exReasoning : Finding :=
  { ID := "r-1", Category := "test", Severity := SeverityLow, Confidence := 6 / 10,
    Evidence := [{ Type_ := EvidenceResource, Ref := "a/1", Message := "r1" },
                 { Type_ := EvidenceResource, Ref := "a/2", Message := "r2" },
                 { Type_ := EvidenceEvent, Ref := "a/1", Message := "e1" }] }

/-- A finding whose category is the merge key of `exPipeA` merged with `exPipeB`. -/
def exPipeC : Finding :=
  { ID := "z", Category := "a|b|b", Severity := SeverityHigh }

/-- A finding is well formed: non-empty category, at least one evidence item,
one of the four severities, confidence in `[0, 1]`. -/
def WellFormed (f : Finding) : Prop :=
  f.Category ≠ "" ∧ f.Evidence ≠ [] ∧
    (f.Severity = SeverityLow ∨ f.Severity = SeverityMedium ∨ f.Severity = SeverityHigh ∨
      f.Severity = SeverityCritical) ∧
    0 ≤ f.Confidence ∧ f.Confidence ≤ 1

/-- A condition entry for which `NodePressureRule.Evaluate` emits a finding. -/
def isTruePressure (c : NodeCondition) : Prop :=
  (c.Type_ = "DiskPressure" ∨ c.Type_ = "MemoryPressure" ∨ c.Type_ = "PIDPressure") ∧
    c.Status = "True"

instance (c : NodeCondition) : Decidable (isTruePressure c) := by
  unfold isTruePressure; infer_instance

/-- A runtime whose `range` visits a map in insertion order, at instant `0`. -/
def exRuntime : Runtime :=
  { now := 0, rangeOrder := fun l => l, rangeOrder_perm := fun l => List.Perm.refl l }

/-- The snapshot of `TestNodePressureRule_NoFindings`. -/
def exNoPressure : Snapshot :=
  { Nodes := [{ Name := "node-1",
                Conditions := [{ Type_ := "Ready", Status := "True" },
                               { Type_ := NodeDiskPressure, Status := "False" },
                               { Type_ := NodeMemoryPressure, Status := "False" }] }] }

/-- The snapshot of `TestNodePressureRule_MultiplePressures`. -/
def exTwoPressures : Snapshot :=
  { Nodes := [{ Name := "worker-3",
                Conditions := [{ Type_ := NodeDiskPressure, Status := ConditionTrue,
                                 Reason := "DiskPressure", Message := "disk pressure" },
                               { Type_ := NodePIDPressure, Status := ConditionTrue,
                                 Reason := "PIDPressure", Message := "pid pressure" }] }] }

/-- A snapshot with a pressured node, two pending pods, a crashlooping DNS pod,
a pending claim and a failed volume. -/
def exBusy : Snapshot :=
  { Nodes := [{ Name := "worker-1",
                Conditions := [{ Type_ := NodeDiskPressure, Status := ConditionTrue,
                                 Reason := "KubeletHasDiskPressure",
                                 Message := "kubelet has disk pressure" }] }],
    Pods := [{ Name := "cpu-pod", Namespace := "default", Phase := PodPending,
               Conditions := [{ Type_ := "PodScheduled", Status := "False",
                                Message := "Insufficient cpu" }] },
             { Name := "mem-pod", Namespace := "default", Phase := PodPending,
               Conditions := [{ Type_ := "PodScheduled", Status := "False",
                                Message := "Insufficient memory" }] }],
    Events := [{ Namespace := "kube-system", Name := "coredns-abc.1", Reason := "BackOff",
                 Message := "Back-off restarting failed container",
                 InvolvedObject := "Pod/kube-system/coredns-abc", Count := 7 }],
    PVCs := [{ Name := "data", Namespace := "default", Phase := ClaimPending }],
    PVs := [{ Name := "pv1", Phase := VolumeFailed }],
    KubeSystem :=
      { Pods := [{ Name := "coredns-abc", Namespace := "kube-system", Phase := PodRunning,
                   Containers := [{ Name := "coredns", RestartCount := 15,
                                    State := { Waiting := some { Reason := "CrashLoopBackOff" } } }] }] } }

/-- The scenario of the specification: node `worker-1` with DiskPressure true
and one eviction event that names the node. -/
def exDiskEviction : Snapshot :=
  { Nodes := [{ Name := "worker-1",
                Conditions := [{ Type_ := "Ready", Status := "True" },
                               { Type_ := NodeDiskPressure, Status := ConditionTrue,
                                 Reason := "KubeletHasDiskPressure",
                                 Message := "kubelet has disk pressure" }] }],
    Events := [{ Namespace := "default", Name := "app-pod.eviction", Reason := "Evicted",
                 Message := "The node worker-1 was low on resource: ephemeral-storage.",
                 Type_ := "Warning", InvolvedObject := "Pod/default/app-pod", Count := 1 }] }

/-- A node with DiskPressure true and an event that names the node and spells
the eviction keywords in lower case only. -/
def exLowercaseEviction : Snapshot :=
  { Nodes := [{ Name := "worker-1",
                Conditions := [{ Type_ := NodeDiskPressure, Status := ConditionTrue,
                                 Reason := "KubeletHasDiskPressure",
                                 Message := "kubelet has disk pressure" }] }],
    Events := [{ Namespace := "default", Name := "app-pod.1", Reason := "evicted",
                 Message := "oomkilling on worker-1", Type_ := "Warning",
                 InvolvedObject := "Pod/default/app-pod", Count := 1 }] }

/-- The snapshot of `TestPendingPodsRule_HighCountCritical`: six pending pods
with the message `Insufficient memory`. -/
def exSixPending : Snapshot :=
  { Pods := (List.range 6).map fun i =>
      { Name := "mem-pod-" ++ toString i, Namespace := "default", Phase := PodPending,
        Conditions := [{ Type_ := "PodScheduled", Status := "False",
                         Message := "Insufficient memory" }] } }

/-- A node that lists the condition DiskPressure twice, both times true. -/
def exRepeatedCondition : Snapshot :=
  { Nodes := [{ Name := "worker-1",
                Conditions := [{ Type_ := NodeDiskPressure, Status := ConditionTrue,
                                 Reason := "KubeletHasDiskPressure", Message := "first" },
                               { Type_ := NodeDiskPressure, Status := ConditionTrue,
                                 Reason := "KubeletHasDiskPressure", Message := "second" }] }] }

/-- The name and namespace of a pod. -/
def podKey (p : PodInfo) : String × String :=
  (p.Name, p.Namespace)

/-- A kube-system health view that lists the same CoreDNS pod twice. -/
def exRepeatedDNSPod : Snapshot :=
  { KubeSystem :=
      { Pods := [{ Name := "coredns-abc", Namespace := "kube-system", Phase := PodRunning },
                 { Name := "coredns-abc", Namespace := "kube-system", Phase := PodRunning }] } }

/-- The snapshot of `TestDNSRule_PodFromMainPodList` with the pod moved to the
namespace `default`. -/
def exDNSPodElsewhere : Snapshot :=
  { Pods := [{ Name := "coredns-xyz", Namespace := "default", Phase := PodRunning,
               Containers := [{ Name := "coredns", Ready := true, RestartCount := 7 }] }] }

/-- The snapshot of `TestDNSRule_PodFromMainPodList`. -/
def exDNSPodGeneral : Snapshot :=
  { Pods := [{ Name := "coredns-xyz", Namespace := "kube-system", Phase := PodRunning,
               Containers := [{ Name := "coredns", Ready := true, RestartCount := 7 }] }] }

/-- The body of the second loop of `findCoreDNSPods`. -/
def addGeneralDNSPod (pods : List PodInfo) (p : PodInfo) : List PodInfo :=
  if p.Namespace = "kube-system" && isCoreDNSPod p.Name then
    if !podInSlice pods p.Name p.Namespace then pods ++ [p] else pods
  else pods

/-- The evidence item of a restarting container `c` of the DNS pod `pod`:
a resource item for the pod that names the container. -/
def isRestartEvidence (pod : PodInfo) (c : ContainerInfo) (e : Evidence) : Prop :=
  e.Type_ = EvidenceResource ∧ e.Ref = "pod/" ++ pod.Namespace ++ "/" ++ pod.Name ∧
    e.Data = [("container", c.Name), ("restartCount", toString c.RestartCount)]

/-- The texts of a pod that its classification reads: the message and the
reason of each condition, then the message and the reason of each event. -/
def podTexts (pod : PodInfo) (events : List EventInfo) : List String :=
  (pod.Conditions.map fun c => [c.Message, c.Reason]).flatten ++
    (events.map fun ev => [ev.Message, ev.Reason]).flatten

/-- Some keyword of the scheduling reason is a substring of some of the texts,
letter case apart. -/
def keywordMatches (sr : schedulingReason) (texts : List String) : Prop :=
  ∃ kw ∈ sr.Keywords, ∃ msg ∈ texts,
    strings.Contains (strings.ToLower msg) (strings.ToLower kw) = true

/-- A pending pod whose condition matches keywords of `insufficient-memory`
first and of `insufficient-cpu` second. -/
def exTwoReasons : PodInfo :=
  { Name := "web-0", Namespace := "default", Phase := PodPending,
    Conditions := [{ Type_ := "PodScheduled", Status := "False", Reason := "Unschedulable",
                     Message := "0/3 nodes: Insufficient MEMORY, Insufficient CPU." }] }

/-- The pods of the snapshot in phase Pending, in the order of the snapshot. -/
def pendingPodsOf (snap : Snapshot) : List PodInfo :=
  snap.Pods.filter fun p => p.Phase = PodPending

/-- The category of a pod of the snapshot: its classification with the events
correlated to it. -/
def podCategory (snap : Snapshot) (p : PodInfo) : String :=
  classifySchedulingReason p (findPodEvents snap.Events p.Namespace p.Name)

/-- The record that `PendingPodsRule.Evaluate` keeps of a pending pod. -/
def podEntry (snap : Snapshot) (p : PodInfo) : podReason :=
  { pod := p, reason := podCategory snap p,
    events := findPodEvents snap.Events p.Namespace p.Name }

/-- The group of a category: the pending pods of that category, in the order
of the snapshot. -/
def pendingGroup (snap : Snapshot) (c : String) : List PodInfo :=
  (pendingPodsOf snap).filter fun p => podCategory snap p = c

/-- The resource evidence items of a finding. -/
def resourceEvidence (f : Finding) : List Evidence :=
  f.Evidence.filter fun e => e.Type_ = EvidenceResource

/-- The resource evidence item of a pending pod of category `c`. -/
def pendingResourceItem (c : String) (p : PodInfo) : Evidence :=
  { Type_ := EvidenceResource, Ref := "pod/" ++ p.Namespace ++ "/" ++ p.Name,
    Message := "Pod is Pending (reason: " ++ c ++ ")",
    Data := [("namespace", p.Namespace), ("nodeName", p.NodeName)] }

/-- The buckets after the entries `items` have been appended in order. -/
def bucketsOf (items : List (String × podReason)) : List (String × List podReason) :=
  items.foldl (fun buckets it => appendToBucket it.1 it.2 buckets) []

/-- The snapshot of `TestPendingPodsRule_MixedReasons`, with a running pod. -/
def exMixedPending : Snapshot :=
  { Pods := [{ Name := "cpu-pod", Namespace := "default", Phase := PodPending,
               Conditions := [{ Type_ := "PodScheduled", Status := "False",
                                Message := "Insufficient cpu" }] },
             { Name := "taint-pod", Namespace := "default", Phase := PodPending,
               Conditions := [{ Type_ := "PodScheduled", Status := "False",
                                Message := "node(s) had taint {key: value}" }] },
             { Name := "running-pod", Namespace := "default", Phase := PodRunning },
             { Name := "cpu-pod-2", Namespace := "default", Phase := PodPending,
               Conditions := [{ Type_ := "PodScheduled", Status := "False",
                                Message := "Insufficient cpu" }] }] }

/-- The test of `DNSRule.Evaluate` for a container in CrashLoopBackOff. -/
def isCrashLooping (c : ContainerInfo) : Bool :=
  match c.State.Waiting with
  | some w => decide (w.Reason = "CrashLoopBackOff")
  | none => false

/-- The test of `DNSRule.Evaluate` for a container counted as high-restart: it
is not in CrashLoopBackOff and has restarted at least `restartThreshold` times. -/
def isHighRestart (c : ContainerInfo) : Bool :=
  !isCrashLooping c && decide (restartThreshold ≤ c.RestartCount)

/-- A DNS pod that gives no resource evidence: it is Running, no container is in
CrashLoopBackOff and every restart count is below `restartThreshold`. -/
def dnsPodHealthy (p : PodInfo) : Prop :=
  p.Phase = PodRunning ∧
    ∀ c ∈ p.Containers, isCrashLooping c = false ∧ c.RestartCount < restartThreshold

/-- The number of containers of the pods that are in CrashLoopBackOff. -/
def crashCount (pods : List PodInfo) : Nat :=
  (pods.map fun p => p.Containers.countP isCrashLooping).sum

/-- The number of containers of the pods that are counted as high-restart. -/
def highRestartCount (pods : List PodInfo) : Nat :=
  (pods.map fun p => p.Containers.countP isHighRestart).sum

/-- The snapshot of `TestDNSRule_CrashLooping`. -/
def exDNSCrashLooping : Snapshot :=
  { KubeSystem :=
      { Pods := [{ Name := "coredns-abc123", Namespace := "kube-system", Phase := PodRunning,
                   Containers := [{ Name := "coredns", Ready := false, RestartCount := 15,
                                    State := { Waiting := some { Reason := "CrashLoopBackOff" } } }] },
                 { Name := "coredns-def456", Namespace := "kube-system", Phase := PodRunning,
                   Containers := [{ Name := "coredns", Ready := true, RestartCount := 0 }] }] },
    Events := [{ Namespace := "kube-system", Name := "coredns-abc123.backoff",
                 Reason := "BackOff", Message := "Back-off restarting failed container",
                 Type_ := "Warning", InvolvedObject := "Pod/kube-system/coredns-abc123",
                 Count := 10 }] }

/-- The snapshot of `TestDNSRule_CrashLooping` without its healthy second pod. -/
def exDNSOnlyCrashLooping : Snapshot :=
  { exDNSCrashLooping with
    KubeSystem := { Pods := exDNSCrashLooping.KubeSystem.Pods.take 1 } }

/-- The snapshot of `TestDNSRule_HealthyCoreDNS`. -/
def exDNSHealthy : Snapshot :=
  { KubeSystem :=
      { Pods := [{ Name := "coredns-abc123", Namespace := "kube-system", Phase := PodRunning,
                   Containers := [{ Name := "coredns", Ready := true, RestartCount := 0 }] },
                 { Name := "coredns-def456", Namespace := "kube-system", Phase := PodRunning,
                   Containers := [{ Name := "coredns", Ready := true, RestartCount := 1 }] }] } }

/-- The evidence that `DNSRule.Evaluate` gathers for the DNS pods `pods`: the
resource items of the pods, the items of their events, the log items. -/
def dnsEvidence (snap : Snapshot) (pods : List PodInfo) : List Evidence :=
  (pods.foldl scanPod { evidence := [], crashlooping := 0, highRestarts := 0 }).evidence ++
    (findDNSEvents snap.Events pods).map dnsEventEvidence ++
    findDNSLogPatternEvidence snap.Events

/-- The snapshot of `TestDNSRule_HighRestarts`: a DNS pod with 10 restarts and
no crashloop. -/
def exDNSHighRestarts : Snapshot :=
  { KubeSystem :=
      { Pods := [{ Name := "coredns-abc", Namespace := "kube-system", Phase := PodRunning,
                   Containers := [{ Name := "coredns", Ready := true, RestartCount := 10 }] }] } }

/-- The snapshot of `TestDNSRule_AllCrashLoopingCritical`. -/
def exDNSAllCrashLooping : Snapshot :=
  { KubeSystem :=
      { Pods := [{ Name := "coredns-abc", Namespace := "kube-system", Phase := PodRunning,
                   Containers := [{ Name := "coredns", Ready := false, RestartCount := 8,
                                    State := { Waiting := some { Reason := "CrashLoopBackOff" } } }] },
                 { Name := "coredns-def", Namespace := "kube-system", Phase := PodRunning,
                   Containers := [{ Name := "coredns", Ready := false, RestartCount := 12,
                                    State := { Waiting := some { Reason := "CrashLoopBackOff" } } }] }] } }

/-- The key under which `findStorageEvents` remembers an event. -/
def storageEventKey (ev : EventInfo) : String :=
  ev.Namespace ++ "/" ++ ev.Name

/-- The number of claims of the snapshot in phase Pending. -/
def pendingPVCCount (snap : Snapshot) : Nat :=
  snap.PVCs.countP fun pvc => pvc.Phase = ClaimPending

/-- The volumes of the snapshot in phase Failed, in the order of the snapshot. -/
def failedPVs (snap : Snapshot) : List PVInfo :=
  snap.PVs.filter fun pv => pv.Phase = VolumeFailed

/-- The type and the ref of an evidence item. -/
def evidenceTypeRef (e : Evidence) : EvidenceType × String :=
  (e.Type_, e.Ref)

/-- The snapshot of `TestStorageRule_FailedPV`, with a second failed volume and
a bound one. -/
def exFailedPVs : Snapshot :=
  { PVs := [{ Name := "pv-broken", Phase := VolumeFailed, StorageClassName := "local-storage",
              ClaimRef := "default/my-claim" },
            { Name := "pv-fine", Phase := "Bound" },
            { Name := "pv-broken-2", Phase := VolumeFailed }] }

/-- A storage event of namespace `a/b` and name `c`. -/
def exSlashA : EventInfo :=
  { Namespace := "a/b", Name := "c", Reason := "FailedMount", Message := "first" }

/-- A storage event of namespace `a` and name `b/c`. -/
def exSlashB : EventInfo :=
  { Namespace := "a", Name := "b/c", Reason := "FailedMount", Message := "second" }

/-- An event whose message is 300 bytes long. -/
def exLongEvent : EventInfo :=
  { Namespace := "kube-system", Name := "coredns-abc.timeout", Reason := "Unhealthy",
    Message := String.mk (List.replicate 300 'x'), Type_ := "Warning",
    InvolvedObject := "Pod/kube-system/coredns-abc" }

/-- The sum that `boostConfidence` rounds: the confidence plus the boosts. -/
def boostedSum (f : Finding) : ℚ :=
  f.Confidence + typeBoost (distinctTypes f) + sizeBoost f.Evidence.length

/-- The order of `boostConfidence`: round to two decimals with `math.Round`,
then clamp to at most `1.0`. -/
def roundThenClamp (x : ℚ) : ℚ :=
  let r := mathRound (x * 100) / 100
  if r > 1 then 1 else r

/-- The order in which the specification words the arithmetic: clamp to at most
`1.0`, then round to two decimals. -/
def clampThenRound (x : ℚ) : ℚ :=
  mathRound ((if x > 1 then 1 else x) * 100) / 100

/-- Two nodes of the same name `w`: the first with PID pressure, the second with
disk and memory pressure. -/
def exSameNameNodes : Snapshot :=
  { Nodes := [{ Name := "w",
                Conditions := [{ Type_ := NodePIDPressure, Status := ConditionTrue,
                                 Reason := "PIDPressure", Message := "pid pressure" }] },
              { Name := "w",
                Conditions := [{ Type_ := NodeDiskPressure, Status := ConditionTrue,
                                 Reason := "DiskPressure", Message := "disk pressure" },
                               { Type_ := NodeMemoryPressure, Status := ConditionTrue,
                                 Reason := "MemoryPressure", Message := "memory pressure" }] }] }

/-- The computation of `boostConfidenceF64` for the confidence `c`, `T` distinct
evidence types and `E` evidence items. -/
def boostF64 (c : ℚ) (T E : Nat) : ℚ :=
  let base := c
  let base := if T ≥ 3 then toFloat64 (base + toFloat64 (15 / 100))
    else if T ≥ 2 then toFloat64 (base + toFloat64 (10 / 100)) else base
  let base := if E ≥ 5 then toFloat64 (base + toFloat64 (5 / 100)) else base
  let base := toFloat64 (mathRound (toFloat64 (base * 100)) / 100)
  if base > 1 then 1 else base

/-- A finding with the float64 confidence `0.015` and a single evidence item. -/
def exNearTieUp : Finding :=
  { ID := "tie-up", Category := "test", Severity := SeverityLow,
    Confidence := toFloat64 (15 / 1000),
    Evidence := [{ Type_ := EvidenceResource, Ref := "a/1", Message := "m" }] }

/-- A finding with the float64 confidence `0.145` and a single evidence item. -/
def exNearTieDown : Finding :=
  { ID := "tie-down", Category := "test", Severity := SeverityLow,
    Confidence := toFloat64 (145 / 1000),
    Evidence := [{ Type_ := EvidenceResource, Ref := "a/1", Message := "m" }] }

/-- The finding of `TestCorrelator_BoostMultipleEvidenceTypes`: confidence `0.5`,
three evidence types, three items. -/
def exBoostThreeTypes : Finding :=
  { ID := "multi", Category := "test", Severity := SeverityMedium,
    Confidence := toFloat64 (50 / 100),
    Evidence := [{ Type_ := EvidenceResource, Ref := "node/a", Message := "condition" },
                 { Type_ := EvidenceEvent, Ref := "node/a", Message := "event" },
                 { Type_ := EvidenceLog, Ref := "node/a", Message := "log line" }] }

/-! ## Lemmas -/

theorem appendNew_eq {α : Type} (key : α → String) (es : List α) :
    ∀ (existing : List String) (acc : List α),
      appendNew key existing acc es = acc ++ freshItems key existing es := by
  induction es with
  | nil => intro existing acc; simp [appendNew, freshItems]
  | cons e es ih =>
    intro existing acc
    by_cases h : key e ∈ existing
    · simp [appendNew, freshItems, h, ih]
    · simp [appendNew, freshItems, h, ih]

theorem mem_freshItems {α : Type} (key : α → String) (es : List α) :
    ∀ (existing : List String) (x : α),
      x ∈ freshItems key existing es → x ∈ es ∧ key x ∉ existing := by
  induction es with
  | nil => intro existing x h; simp [freshItems] at h
  | cons e es ih =>
    intro existing x h
    by_cases he : key e ∈ existing
    · simp only [freshItems, he, if_true] at h
      exact ⟨List.mem_cons_of_mem _ (ih _ _ h).1, (ih _ _ h).2⟩
    · simp only [freshItems, he, if_false, List.mem_cons] at h
      rcases h with rfl | h
      · exact ⟨List.mem_cons_self _ _, he⟩
      · have := ih _ _ h
        exact ⟨List.mem_cons_of_mem _ this.1, fun hx => this.2 (List.mem_cons_of_mem _ hx)⟩

theorem key_mem_of_mem {α : Type} (key : α → String) (es : List α) :
    ∀ (existing : List String) (x : α), x ∈ es →
      key x ∈ existing ∨ key x ∈ (freshItems key existing es).map key := by
  induction es with
  | nil => intro existing x h; simp at h
  | cons e es ih =>
    intro existing x h
    by_cases he : key e ∈ existing
    · simp only [freshItems, he, if_true]
      rcases List.mem_cons.1 h with rfl | h
      · exact Or.inl he
      · exact ih _ _ h
    · simp only [freshItems, he, if_false, List.map_cons, List.mem_cons]
      rcases List.mem_cons.1 h with rfl | h
      · exact Or.inr (Or.inl rfl)
      · rcases ih (key e :: existing) x h with h1 | h1
        · rcases List.mem_cons.1 h1 with h2 | h2
          · exact Or.inr (Or.inl h2)
          · exact Or.inl h2
        · exact Or.inr (Or.inr h1)

theorem nodup_freshItems {α : Type} (key : α → String) (es : List α) :
    ∀ (existing : List String), ((freshItems key existing es).map key).Nodup := by
  induction es with
  | nil => intro existing; simp [freshItems]
  | cons e es ih =>
    intro existing
    by_cases he : key e ∈ existing
    · simp only [freshItems, he, if_true]; exact ih _
    · simp only [freshItems, he, if_false, List.map_cons, List.nodup_cons]
      refine ⟨?_, ih _⟩
      intro hmem
      rcases List.mem_map.1 hmem with ⟨x, hx, hkx⟩
      exact (mem_freshItems key es _ x hx).2 (hkx ▸ List.mem_cons_self _ _)

theorem freshItems_sublist {α : Type} (key : α → String) (es : List α) :
    ∀ (existing : List String), (freshItems key existing es).Sublist es := by
  induction es with
  | nil => intro existing; simp [freshItems]
  | cons e es ih =>
    intro existing
    by_cases he : key e ∈ existing
    · simp only [freshItems, he, if_true]; exact (ih _).cons _
    · simp only [freshItems, he, if_false]; exact (ih _).cons₂ _

theorem firstKeys_append_singleton (l : List String) (k : String) :
    firstKeys (l ++ [k]) = if k ∈ l then firstKeys l else firstKeys l ++ [k] := by
  induction l with
  | nil => simp [firstKeys]
  | cons a l ih =>
    rw [List.cons_append, firstKeys, ih]
    by_cases hka : k = a
    · subst hka
      by_cases hkl : k ∈ l <;> simp [firstKeys, hkl, List.filter_append]
    · have hak : ¬ a = k := fun h => hka h.symm
      by_cases hkl : k ∈ l <;> simp [firstKeys, hkl, hka, hak, List.filter_append]

theorem mem_firstKeys (l : List String) (x : String) : x ∈ firstKeys l ↔ x ∈ l := by
  induction l with
  | nil => simp [firstKeys]
  | cons a l ih =>
    simp only [firstKeys, List.mem_cons, List.mem_filter, ih]
    by_cases h : x = a <;> simp [h]

theorem nodup_firstKeys (l : List String) : (firstKeys l).Nodup := by
  induction l with
  | nil => simp [firstKeys]
  | cons a l ih =>
    simp only [firstKeys, List.nodup_cons, List.mem_filter]
    exact ⟨fun h => by simpa using h.2, ih.filter _⟩

theorem length_firstKeys (l : List String) : (firstKeys l).length = l.dedup.length := by
  apply List.Perm.length_eq
  rw [List.perm_ext_iff_of_nodup (nodup_firstKeys l) (List.nodup_dedup l)]
  intro x
  rw [mem_firstKeys, List.mem_dedup]

theorem groupOf_append (pre : List Finding) (f : Finding) (k : String) :
    groupOf (pre ++ [f]) k =
      if rootCauseKey f = k then groupOf pre k ++ [f] else groupOf pre k := by
  unfold groupOf
  by_cases h : rootCauseKey f = k <;> simp [List.filter_append, List.filter_cons, h]

theorem groupOf_eq_nil_iff (fs : List Finding) (k : String) :
    groupOf fs k = [] ↔ k ∉ fs.map rootCauseKey := by
  unfold groupOf
  simp [List.filter_eq_nil_iff]

theorem mergeInv_step (pre : List Finding) (st : MergeState) (f : Finding)
    (h : MergeInv pre st) : MergeInv (pre ++ [f]) (mergeStep st f) := by
  obtain ⟨ho, hb⟩ := h
  cases hk : st.buckets (rootCauseKey f) with
  | none =>
    simp only [mergeStep, hk]
    have hnil : groupOf pre (rootCauseKey f) = [] := by
      have := hb (rootCauseKey f)
      rw [hk] at this
      cases hg : groupOf pre (rootCauseKey f) with
      | nil => rfl
      | cons p ex => rw [hg] at this; simp [bucketOf] at this
    have hnot : rootCauseKey f ∉ pre.map rootCauseKey := (groupOf_eq_nil_iff _ _).1 hnil
    refine ⟨?_, ?_⟩
    · simp only [List.map_append, List.map_cons, List.map_nil]
      rw [firstKeys_append_singleton, if_neg hnot, ho]
    · intro k
      rw [groupOf_append]
      by_cases hkk : rootCauseKey f = k
      · subst hkk
        simp [hnil, bucketOf]
      · have hkk2 : k ≠ rootCauseKey f := fun h => hkk h.symm
        simp [hkk, Function.update_noteq hkk2, hb]
  | some b =>
    simp only [mergeStep, hk]
    have hgrp : groupOf pre (rootCauseKey f) = b.primary :: b.extras := by
      have := hb (rootCauseKey f)
      rw [hk] at this
      cases hg : groupOf pre (rootCauseKey f) with
      | nil => rw [hg] at this; simp [bucketOf] at this
      | cons p ex =>
        rw [hg] at this
        simp only [bucketOf, Option.some.injEq] at this
        subst this
        rfl
    have hmem : rootCauseKey f ∈ pre.map rootCauseKey := by
      by_contra hcon
      have := (groupOf_eq_nil_iff _ _).2 hcon
      rw [hgrp] at this
      exact List.cons_ne_nil _ _ this
    refine ⟨?_, ?_⟩
    · simp only [List.map_append, List.map_cons, List.map_nil]
      rw [firstKeys_append_singleton, if_pos hmem, ← ho]
    · intro k
      rw [groupOf_append]
      by_cases hkk : rootCauseKey f = k
      · subst hkk
        simp [hgrp, bucketOf]
      · have hkk2 : k ≠ rootCauseKey f := fun h => hkk h.symm
        simp [hkk, Function.update_noteq hkk2, hb]

theorem mergeInv_foldl (fs : List Finding) :
    ∀ (pre : List Finding) (st : MergeState), MergeInv pre st →
      MergeInv (pre ++ fs) (fs.foldl mergeStep st) := by
  induction fs with
  | nil => intro pre st h; simpa using h
  | cons f fs ih =>
    intro pre st h
    have := ih (pre ++ [f]) (mergeStep st f) (mergeInv_step pre st f h)
    simpa using this

/-- The first loop of `mergeFindings` leaves the first-seen keys in `order` and
every group in its bucket, so the result is the list of merged groups. -/
theorem mergeFindings_eq (fs : List Finding) :
    mergeFindings fs =
      (firstKeys (fs.map rootCauseKey)).filterMap fun k => mergeGroup (groupOf fs k) := by
  have hinit : MergeInv [] { order := [], buckets := fun _ => none } := by
    refine ⟨by simp [firstKeys], fun k => by simp [groupOf, bucketOf]⟩
  have h := mergeInv_foldl fs [] _ hinit
  simp only [List.nil_append] at h
  obtain ⟨ho, hb⟩ := h
  unfold mergeFindings
  simp only [ho, hb]
  apply List.filterMap_congr
  intro k _
  cases groupOf fs k <;> simp [bucketOf, mergeGroup]

theorem sortLess_iff (a b : Finding) :
    sortLess a b ↔
      severityRank a.Severity > severityRank b.Severity ∨
      (severityRank a.Severity = severityRank b.Severity ∧ a.Confidence > b.Confidence) ∨
      (severityRank a.Severity = severityRank b.Severity ∧ a.Confidence = b.Confidence ∧
        a.ID < b.ID) := by
  unfold sortLess
  by_cases h1 : severityRank a.Severity = severityRank b.Severity
  · by_cases h2 : a.Confidence = b.Confidence
    · simp [h1, h2]
    · simp [h1, h2]
  · simp [h1]

theorem not_sortLess_iff (a b : Finding) :
    ¬ sortLess b a ↔
      severityRank a.Severity > severityRank b.Severity ∨
      (severityRank a.Severity = severityRank b.Severity ∧ a.Confidence > b.Confidence) ∨
      (severityRank a.Severity = severityRank b.Severity ∧ a.Confidence = b.Confidence ∧
        a.ID ≤ b.ID) := by
  rw [sortLess_iff]
  constructor
  · intro h
    simp only [not_or, not_and, not_lt] at h
    obtain ⟨h1, h2, h3⟩ := h
    rcases lt_or_eq_of_le h1 with h1 | h1
    · exact Or.inl h1
    · rcases lt_or_eq_of_le (h2 h1) with h2 | h2
      · exact Or.inr (Or.inl ⟨h1.symm, h2⟩)
      · exact Or.inr (Or.inr ⟨h1.symm, h2.symm, h3 h1 h2⟩)
  · intro h
    simp only [not_or, not_and, not_lt]
    rcases h with h | ⟨h1, h2⟩ | ⟨h1, h2, h3⟩
    · exact ⟨le_of_lt h, fun h' => absurd h (by rw [h']; exact lt_irrefl _), fun h' =>
        absurd h (by rw [h']; exact lt_irrefl _)⟩
    · exact ⟨le_of_eq h1.symm, fun _ => le_of_lt h2, fun _ h' =>
        absurd h2 (by rw [h']; exact lt_irrefl _)⟩
    · exact ⟨le_of_eq h1.symm, fun _ => le_of_eq h2.symm, fun _ _ => h3⟩

theorem sortOrder_total (a b : Finding) : ¬ sortLess b a ∨ ¬ sortLess a b := by
  rw [not_sortLess_iff, not_sortLess_iff]
  rcases lt_trichotomy (severityRank a.Severity) (severityRank b.Severity) with h | h | h
  · exact Or.inr (Or.inl h)
  · rcases lt_trichotomy a.Confidence b.Confidence with h2 | h2 | h2
    · exact Or.inr (Or.inr (Or.inl ⟨h.symm, h2⟩))
    · rcases le_total a.ID b.ID with h3 | h3
      · exact Or.inl (Or.inr (Or.inr ⟨h, h2, h3⟩))
      · exact Or.inr (Or.inr (Or.inr ⟨h.symm, h2.symm, h3⟩))
    · exact Or.inl (Or.inr (Or.inl ⟨h, h2⟩))
  · exact Or.inl (Or.inl h)

theorem sortOrder_trans (a b c : Finding) (hab : ¬ sortLess b a) (hbc : ¬ sortLess c b) :
    ¬ sortLess c a := by
  rw [not_sortLess_iff] at hab hbc ⊢
  rcases hab with h | ⟨h1, h2⟩ | ⟨h1, h2, h3⟩ <;>
    rcases hbc with k | ⟨k1, k2⟩ | ⟨k1, k2, k3⟩
  · exact Or.inl (lt_trans k h)
  · exact Or.inl (k1 ▸ h)
  · exact Or.inl (k1 ▸ h)
  · exact Or.inl (h1 ▸ k)
  · exact Or.inr (Or.inl ⟨h1.trans k1, lt_trans k2 h2⟩)
  · exact Or.inr (Or.inl ⟨h1.trans k1, k2 ▸ h2⟩)
  · exact Or.inl (h1 ▸ k)
  · exact Or.inr (Or.inl ⟨h1.trans k1, h2 ▸ k2⟩)
  · exact Or.inr (Or.inr ⟨h1.trans k1, h2.trans k2, le_trans h3 k3⟩)

theorem sortFindings_sorted (l : List Finding) :
    (sortFindings l).Pairwise fun a b => ¬ sortLess b a :=
  @List.sorted_insertionSort Finding (fun a b => ¬ sortLess b a) _
    ⟨sortOrder_total⟩ ⟨sortOrder_trans⟩ l

theorem sortFindings_perm (l : List Finding) : (sortFindings l).Perm l :=
  List.perm_insertionSort _ l

theorem filterMap_map_some {α β : Type} (f : α → Option β) (l : List α)
    (h : ∀ a ∈ l, ∃ b, f a = some b) : (l.filterMap f).map some = l.map f := by
  induction l with
  | nil => simp
  | cons a l ih =>
    obtain ⟨b, hb⟩ := h a (List.mem_cons_self _ _)
    have := ih fun x hx => h x (List.mem_cons_of_mem _ hx)
    simp [List.filterMap_cons, hb, this]

theorem groupOf_ne_nil_of_mem (fs : List Finding) (k : String)
    (hk : k ∈ firstKeys (fs.map rootCauseKey)) : ∃ p extras, groupOf fs k = p :: extras := by
  rw [mem_firstKeys] at hk
  cases hg : groupOf fs k with
  | nil => exact absurd hk ((groupOf_eq_nil_iff fs k).1 hg)
  | cons p extras => exact ⟨p, extras, rfl⟩

theorem mergeFindings_map_some (fs : List Finding) :
    (mergeFindings fs).map some =
      (firstKeys (fs.map rootCauseKey)).map fun k => mergeGroup (groupOf fs k) := by
  rw [mergeFindings_eq]
  apply filterMap_map_some
  intro k hk
  obtain ⟨p, extras, h⟩ := groupOf_ne_nil_of_mem fs k hk
  exact ⟨_, by rw [h]; rfl⟩

theorem length_mergeFindings (fs : List Finding) :
    (mergeFindings fs).length = ((fs.map rootCauseKey).dedup).length := by
  have h := congrArg List.length (mergeFindings_map_some fs)
  simpa [length_firstKeys] using h

theorem mem_mergeFindings_iff (fs : List Finding) (m : Finding) :
    m ∈ mergeFindings fs ↔
      ∃ k p extras, groupOf fs k = p :: extras ∧ m = extras.foldl mergePair p := by
  constructor
  · intro h
    rw [mergeFindings_eq, List.mem_filterMap] at h
    obtain ⟨k, _, hk⟩ := h
    cases hg : groupOf fs k with
    | nil => rw [hg] at hk; simp [mergeGroup] at hk
    | cons p extras =>
      rw [hg] at hk
      simp only [mergeGroup, Option.some.injEq] at hk
      exact ⟨k, p, extras, hg, hk.symm⟩
  · rintro ⟨k, p, extras, hg, rfl⟩
    rw [mergeFindings_eq, List.mem_filterMap]
    refine ⟨k, ?_, by rw [hg]; rfl⟩
    rw [mem_firstKeys]
    by_contra hcon
    have := (groupOf_eq_nil_iff fs k).2 hcon
    rw [hg] at this
    exact List.cons_ne_nil _ _ this

theorem correlate_perm (fs : List Finding) :
    (Correlate fs).Perm ((mergeFindings fs).map rescore) :=
  sortFindings_perm _

theorem mem_correlate_iff (fs : List Finding) (m : Finding) :
    m ∈ Correlate fs ↔
      ∃ k p extras, groupOf fs k = p :: extras ∧ m = rescore (extras.foldl mergePair p) := by
  rw [(correlate_perm fs).mem_iff, List.mem_map]
  constructor
  · rintro ⟨m0, hm0, rfl⟩
    obtain ⟨k, p, extras, hg, rfl⟩ := (mem_mergeFindings_iff fs m0).1 hm0
    exact ⟨k, p, extras, hg, rfl⟩
  · rintro ⟨k, p, extras, hg, rfl⟩
    exact ⟨_, (mem_mergeFindings_iff fs _).2 ⟨k, p, extras, hg, rfl⟩, rfl⟩

theorem mem_collectRefs (es : List Evidence) :
    ∀ (seen : List String) (r : String),
      r ∈ collectRefs seen es ↔
        r ∉ seen ∧ ∃ e ∈ es, e.Type_ = EvidenceResource ∧ e.Ref = r := by
  induction es with
  | nil => intro seen r; simp [collectRefs]
  | cons e es ih =>
    intro seen r
    by_cases hc : e.Type_ = EvidenceResource ∧ e.Ref ∉ seen
    · rw [collectRefs, if_pos hc]
      simp only [List.mem_cons, ih, not_or]
      constructor
      · rintro (rfl | ⟨⟨h1, h2⟩, e', he', ht, hr⟩)
        · exact ⟨hc.2, e, Or.inl rfl, hc.1, rfl⟩
        · exact ⟨h2, e', Or.inr he', ht, hr⟩
      · rintro ⟨h1, e', he' | he', ht, hr⟩
        · subst he'; exact Or.inl hr.symm
        · by_cases hre : r = e.Ref
          · exact Or.inl hre
          · exact Or.inr ⟨⟨hre, h1⟩, e', he', ht, hr⟩
    · rw [collectRefs, if_neg hc]
      simp only [ih, List.mem_cons]
      constructor
      · rintro ⟨h1, e', he', ht, hr⟩
        exact ⟨h1, e', Or.inr he', ht, hr⟩
      · rintro ⟨h1, e', he' | he', ht, hr⟩
        · subst he'
          exact absurd ⟨ht, hr ▸ h1⟩ hc
        · exact ⟨h1, e', he', ht, hr⟩

theorem nodup_collectRefs (es : List Evidence) :
    ∀ (seen : List String), (collectRefs seen es).Nodup := by
  induction es with
  | nil => intro seen; simp [collectRefs]
  | cons e es ih =>
    intro seen
    by_cases hc : e.Type_ = EvidenceResource ∧ e.Ref ∉ seen
    · rw [collectRefs, if_pos hc, List.nodup_cons]
      refine ⟨fun h => ?_, ih _⟩
      exact ((mem_collectRefs es _ _).1 h).1 (List.mem_cons_self _ _)
    · rw [collectRefs, if_neg hc]
      exact ih _

theorem sortStrings_eq_of_same_members (l₁ l₂ : List String) (h₁ : l₁.Nodup) (h₂ : l₂.Nodup)
    (h : ∀ x, x ∈ l₁ ↔ x ∈ l₂) : sortStrings l₁ = sortStrings l₂ := by
  have hp : l₁.Perm l₂ := (List.perm_ext_iff_of_nodup h₁ h₂).2 h
  unfold sortStrings
  apply List.eq_of_perm_of_sorted (r := fun a b : String => a ≤ b)
  · exact ((List.perm_insertionSort _ l₁).trans hp).trans (List.perm_insertionSort _ l₂).symm
  · exact List.sorted_insertionSort _ l₁
  · exact List.sorted_insertionSort _ l₂

theorem mem_groupOf (fs : List Finding) (k : String) (f : Finding) :
    f ∈ groupOf fs k ↔ f ∈ fs ∧ rootCauseKey f = k := by
  simp [groupOf, List.mem_filter]

theorem mergePair_severity (p s : Finding) :
    (mergePair p s).Severity =
      if severityRank s.Severity > severityRank p.Severity then s.Severity else p.Severity := by
  unfold mergePair
  by_cases h1 : severityRank s.Severity > severityRank p.Severity <;>
    by_cases h2 : s.Confidence > p.Confidence <;> simp [h1, h2]

theorem mergePair_confidence (p s : Finding) :
    (mergePair p s).Confidence = max p.Confidence s.Confidence := by
  unfold mergePair
  by_cases h1 : severityRank s.Severity > severityRank p.Severity <;>
    by_cases h2 : s.Confidence > p.Confidence <;>
    simp [h1, h2, max_def, le_of_lt, not_le.2, not_lt.1]

theorem mergePair_evidence (p s : Finding) :
    (mergePair p s).Evidence =
      p.Evidence ++ freshItems evidenceKey (p.Evidence.map evidenceKey) s.Evidence := by
  unfold mergePair
  by_cases h1 : severityRank s.Severity > severityRank p.Severity <;>
    by_cases h2 : s.Confidence > p.Confidence <;> simp [h1, h2, appendNew_eq]

theorem mergePair_nextSteps (p s : Finding) :
    (mergePair p s).NextSteps =
      p.NextSteps ++ freshItems (fun x => x) p.NextSteps s.NextSteps := by
  unfold mergePair
  by_cases h1 : severityRank s.Severity > severityRank p.Severity <;>
    by_cases h2 : s.Confidence > p.Confidence <;> simp [h1, h2, appendNew_eq]

theorem mergePair_frame (p s : Finding) :
    (mergePair p s).ID = p.ID ∧ (mergePair p s).Title = p.Title ∧
      (mergePair p s).Summary = p.Summary ∧ (mergePair p s).Timestamp = p.Timestamp ∧
      (mergePair p s).Category = p.Category ∧
      (mergePair p s).SchemaVersion = p.SchemaVersion ∧
      (mergePair p s).Reasoning = p.Reasoning := by
  unfold mergePair
  by_cases h1 : severityRank s.Severity > severityRank p.Severity <;>
    by_cases h2 : s.Confidence > p.Confidence <;> simp [h1, h2]

theorem mergePair_rank (p s : Finding) :
    severityRank (mergePair p s).Severity =
      max (severityRank p.Severity) (severityRank s.Severity) := by
  rw [mergePair_severity]
  by_cases h : severityRank s.Severity > severityRank p.Severity
  · rw [if_pos h, max_eq_right (le_of_lt h)]
  · rw [if_neg h, max_eq_left (not_lt.1 h)]

theorem foldl_mergePair_rank_ge (extras : List Finding) :
    ∀ p : Finding, ∀ g ∈ p :: extras,
      severityRank g.Severity ≤ severityRank (extras.foldl mergePair p).Severity := by
  induction extras with
  | nil => intro p g hg; simp at hg; subst hg; simp
  | cons s extras ih =>
    intro p g hg
    simp only [List.foldl_cons]
    have hp : severityRank p.Severity ≤ severityRank (mergePair p s).Severity := by
      rw [mergePair_rank]; exact le_max_left _ _
    have hs : severityRank s.Severity ≤ severityRank (mergePair p s).Severity := by
      rw [mergePair_rank]; exact le_max_right _ _
    have hm := ih (mergePair p s) (mergePair p s) (List.mem_cons_self _ _)
    rcases List.mem_cons.1 hg with rfl | hg
    · exact le_trans hp hm
    · rcases List.mem_cons.1 hg with rfl | hg
      · exact le_trans hs hm
      · exact ih (mergePair p s) g (List.mem_cons_of_mem _ hg)

theorem foldl_mergePair_severity_mem (extras : List Finding) :
    ∀ p : Finding, ∃ g ∈ p :: extras, (extras.foldl mergePair p).Severity = g.Severity := by
  induction extras with
  | nil => intro p; exact ⟨p, List.mem_cons_self _ _, rfl⟩
  | cons s extras ih =>
    intro p
    simp only [List.foldl_cons]
    obtain ⟨g, hg, heq⟩ := ih (mergePair p s)
    rcases List.mem_cons.1 hg with rfl | hg
    · rw [heq, mergePair_severity]
      by_cases h : severityRank s.Severity > severityRank p.Severity
      · exact ⟨s, by simp, by rw [if_pos h]⟩
      · exact ⟨p, by simp, by rw [if_neg h]⟩
    · exact ⟨g, by simp [hg], heq⟩

theorem foldl_mergePair_frame (extras : List Finding) :
    ∀ p : Finding,
      (extras.foldl mergePair p).ID = p.ID ∧ (extras.foldl mergePair p).Title = p.Title ∧
        (extras.foldl mergePair p).Summary = p.Summary ∧
        (extras.foldl mergePair p).Timestamp = p.Timestamp ∧
        (extras.foldl mergePair p).Category = p.Category ∧
        (extras.foldl mergePair p).SchemaVersion = p.SchemaVersion := by
  induction extras with
  | nil => intro p; simp
  | cons s extras ih =>
    intro p
    simp only [List.foldl_cons]
    obtain ⟨h1, h2, h3, h4, h5, h6⟩ := ih (mergePair p s)
    obtain ⟨k1, k2, k3, k4, k5, k6, _⟩ := mergePair_frame p s
    exact ⟨h1.trans k1, h2.trans k2, h3.trans k3, h4.trans k4, h5.trans k5, h6.trans k6⟩

theorem foldl_kept_eq (old new : List String) :
    ∀ (kept existing : List String), (∀ x, x ∈ existing ↔ x ∈ old ∨ x ∈ kept) →
      new.foldl (fun kept x => if x ∈ old ∨ x ∈ kept then kept else kept ++ [x]) kept =
        kept ++ freshItems (fun x => x) existing new := by
  induction new with
  | nil => intro kept existing _; simp [freshItems]
  | cons a new ih =>
    intro kept existing h
    simp only [List.foldl_cons, freshItems]
    by_cases ha : a ∈ existing
    · rw [if_pos ((h a).1 ha), if_pos ha]
      exact ih kept existing h
    · rw [if_neg (fun hc => ha ((h a).2 hc)), if_neg ha]
      rw [ih (kept ++ [a]) (a :: existing)]
      · simp
      · intro x
        simp only [List.mem_cons, List.mem_append, List.mem_singleton, h x]
        tauto

theorem keptNew_eq (old new : List String) :
    keptNew old new = freshItems (fun x => x) old new := by
  unfold keptNew
  rw [foldl_kept_eq old new [] old (by simp)]
  simp

theorem rescore_frame (m : Finding) :
    (rescore m).ID = m.ID ∧ (rescore m).Title = m.Title ∧ (rescore m).Summary = m.Summary ∧
      (rescore m).Timestamp = m.Timestamp ∧ (rescore m).Category = m.Category ∧
      (rescore m).SchemaVersion = m.SchemaVersion ∧ (rescore m).Severity = m.Severity ∧
      (rescore m).Evidence = m.Evidence ∧ (rescore m).NextSteps = m.NextSteps ∧
      (rescore m).Confidence = boostConfidence m := by
  simp [rescore]

theorem keys_incrCount (t : EvidenceType) (m : List (EvidenceType × Nat)) :
    (incrCount t m).map Prod.fst =
      if t ∈ m.map Prod.fst then m.map Prod.fst else m.map Prod.fst ++ [t] := by
  induction m with
  | nil => simp [incrCount]
  | cons kn m ih =>
    obtain ⟨k, n⟩ := kn
    by_cases hk : k = t
    · subst hk; simp [incrCount]
    · have hk2 : ¬ t = k := fun h => hk h.symm
      simp only [incrCount, if_neg hk, List.map_cons, ih, List.mem_cons, hk2, false_or]
      by_cases hm : t ∈ m.map Prod.fst <;> simp [hm]

theorem keys_typeCounts (es : List Evidence) :
    (typeCounts es).map Prod.fst = firstKeys (es.map fun e => e.Type_) := by
  induction es using List.reverseRecOn with
  | nil => simp [typeCounts, firstKeys]
  | append_singleton es e ih =>
    have hstep : typeCounts (es ++ [e]) = incrCount e.Type_ (typeCounts es) := by
      simp [typeCounts, List.foldl_append]
    rw [hstep, keys_incrCount, ih, List.map_append, List.map_cons, List.map_nil,
      firstKeys_append_singleton]
    simp only [mem_firstKeys]

theorem length_typeCounts (f : Finding) : (typeCounts f.Evidence).length = distinctTypes f := by
  have h := congrArg List.length (keys_typeCounts f.Evidence)
  rw [List.length_map, length_firstKeys] at h
  exact h

theorem mathRound_div_eq_round2 (x : ℚ) : mathRound (x * 100) / 100 = round2 x := by
  unfold mathRound round2
  by_cases hx : 0 ≤ x
  · have h : ¬ x * 100 < 0 := not_lt.2 (by positivity)
    rw [if_neg h, if_pos hx]
  · have h : x * 100 < 0 := by
      have := not_le.1 hx
      linarith
    rw [if_pos h, if_neg hx]
    have : ⌈x * 100 - 1 / 2⌉ = -⌊-(x * 100) + 1 / 2⌋ := by
      rw [← Int.ceil_neg]
      congr 1
      ring
    rw [this]
    push_cast
    ring

theorem round2_spec (x : ℚ) :
    ∃ n : ℤ, round2 x = (n : ℚ) / 100 ∧ |round2 x - x| ≤ 1 / 200 ∧
      (|round2 x - x| = 1 / 200 → |x| < |round2 x|) := by
  unfold round2
  by_cases hx : 0 ≤ x
  · rw [if_pos hx]
    refine ⟨⌊x * 100 + 1 / 2⌋, rfl, ?_, ?_⟩
    · have h1 := Int.floor_le (x * 100 + 1 / 2)
      have h2 := Int.lt_floor_add_one (x * 100 + 1 / 2)
      rw [abs_le]
      constructor <;> linarith
    · intro h
      have h1 := Int.floor_le (x * 100 + 1 / 2)
      have h2 := Int.lt_floor_add_one (x * 100 + 1 / 2)
      have h3 : ((⌊x * 100 + 1 / 2⌋ : ℤ) : ℚ) / 100 - x = 1 / 200 := by
        rcases abs_eq (by norm_num : (0 : ℚ) ≤ 1 / 200) |>.1 h with h | h
        · exact h
        · linarith
      rw [abs_of_nonneg hx, abs_of_nonneg (by linarith)]
      linarith
  · rw [if_neg hx]
    have hx' : x < 0 := not_le.1 hx
    refine ⟨⌈x * 100 - 1 / 2⌉, rfl, ?_, ?_⟩
    · have h1 := Int.le_ceil (x * 100 - 1 / 2)
      have h2 := Int.ceil_lt_add_one (x * 100 - 1 / 2)
      rw [abs_le]
      constructor <;> linarith
    · intro h
      have h1 := Int.le_ceil (x * 100 - 1 / 2)
      have h2 := Int.ceil_lt_add_one (x * 100 - 1 / 2)
      have h3 : ((⌈x * 100 - 1 / 2⌉ : ℤ) : ℚ) / 100 - x = -(1 / 200) := by
        rcases abs_eq (by norm_num : (0 : ℚ) ≤ 1 / 200) |>.1 h with h | h
        · linarith
        · exact h
      rw [abs_of_neg hx', abs_of_neg (by linarith)]
      linarith

theorem boostConfidence_eq (f : Finding) :
    boostConfidence f =
      min 1 (round2 (f.Confidence + typeBoost (distinctTypes f) + sizeBoost f.Evidence.length)) := by
  unfold boostConfidence
  simp only [length_typeCounts, mathRound_div_eq_round2]
  have hbase : (if f.Evidence.length ≥ 5 then
        (if distinctTypes f ≥ 3 then f.Confidence + 15 / 100
          else if distinctTypes f ≥ 2 then f.Confidence + 10 / 100 else f.Confidence) + 5 / 100
      else
        (if distinctTypes f ≥ 3 then f.Confidence + 15 / 100
          else if distinctTypes f ≥ 2 then f.Confidence + 10 / 100 else f.Confidence)) =
      f.Confidence + typeBoost (distinctTypes f) + sizeBoost f.Evidence.length := by
    unfold typeBoost sizeBoost
    by_cases h3 : distinctTypes f ≥ 3
    · by_cases h5 : f.Evidence.length ≥ 5 <;> simp [h3, h5]
    · by_cases h2 : distinctTypes f ≥ 2
      · have h2' : distinctTypes f = 2 := by omega
        by_cases h5 : f.Evidence.length ≥ 5 <;> simp [h2', h5]
      · have h2' : ¬ distinctTypes f = 2 := by omega
        by_cases h5 : f.Evidence.length ≥ 5 <;> simp [h3, h2, h2', h5]
  rw [hbase]
  by_cases h : round2 (f.Confidence + typeBoost (distinctTypes f) + sizeBoost f.Evidence.length) > 1
  · rw [if_pos h, min_eq_left (le_of_lt h)]
  · rw [if_neg h, min_eq_right (not_lt.1 h)]

theorem foldl_mergePair_confidence_ge (extras : List Finding) :
    ∀ p : Finding, ∀ g ∈ p :: extras, g.Confidence ≤ (extras.foldl mergePair p).Confidence := by
  induction extras with
  | nil => intro p g hg; simp at hg; subst hg; simp
  | cons s extras ih =>
    intro p g hg
    simp only [List.foldl_cons]
    have hp : p.Confidence ≤ (mergePair p s).Confidence := by
      rw [mergePair_confidence]; exact le_max_left _ _
    have hs : s.Confidence ≤ (mergePair p s).Confidence := by
      rw [mergePair_confidence]; exact le_max_right _ _
    have hm := ih (mergePair p s) (mergePair p s) (List.mem_cons_self _ _)
    rcases List.mem_cons.1 hg with rfl | hg
    · exact le_trans hp hm
    · rcases List.mem_cons.1 hg with rfl | hg
      · exact le_trans hs hm
      · exact ih (mergePair p s) g (List.mem_cons_of_mem _ hg)

theorem typeBoost_nonneg (T : Nat) : 0 ≤ typeBoost T := by
  unfold typeBoost
  split_ifs <;> norm_num

theorem sizeBoost_nonneg (E : Nat) : 0 ≤ sizeBoost E := by
  unfold sizeBoost
  split_ifs <;> norm_num

theorem round2_nonneg (x : ℚ) (hx : 0 ≤ x) : 0 ≤ round2 x := by
  unfold round2
  rw [if_pos hx]
  have h : (0 : ℤ) ≤ ⌊x * 100 + 1 / 2⌋ := Int.floor_nonneg.2 (by positivity)
  have h' : (0 : ℚ) ≤ ((⌊x * 100 + 1 / 2⌋ : ℤ) : ℚ) := by exact_mod_cast h
  positivity

theorem boostConfidence_le_one (f : Finding) : boostConfidence f ≤ 1 := by
  rw [boostConfidence_eq]
  exact min_le_left _ _

theorem boostConfidence_nonneg (f : Finding) (h : 0 ≤ f.Confidence) :
    0 ≤ boostConfidence f := by
  rw [boostConfidence_eq]
  refine le_min (by norm_num) (round2_nonneg _ ?_)
  have h1 := typeBoost_nonneg (distinctTypes f)
  have h2 := sizeBoost_nonneg f.Evidence.length
  linarith

theorem boostConfidence_hundredth (f : Finding) :
    ∃ n : ℤ, boostConfidence f = (n : ℚ) / 100 := by
  rw [boostConfidence_eq]
  obtain ⟨n, hn, _⟩ :=
    round2_spec (f.Confidence + typeBoost (distinctTypes f) + sizeBoost f.Evidence.length)
  rcases min_choice (1 : ℚ)
      (round2 (f.Confidence + typeBoost (distinctTypes f) + sizeBoost f.Evidence.length))
    with h | h
  · exact ⟨100, by rw [h]; norm_num⟩
  · exact ⟨n, by rw [h, hn]⟩

theorem round2_mono {x y : ℚ} (h : x ≤ y) : round2 x ≤ round2 y := by
  unfold round2
  have hdiv : ∀ a b : ℤ, a ≤ b → (a : ℚ) / 100 ≤ (b : ℚ) / 100 := by
    intro a b hab
    have : (a : ℚ) ≤ (b : ℚ) := by exact_mod_cast hab
    linarith
  by_cases hx : 0 ≤ x
  · have hy : 0 ≤ y := le_trans hx h
    rw [if_pos hx, if_pos hy]
    exact hdiv _ _ (Int.floor_mono (by linarith))
  · by_cases hy : 0 ≤ y
    · rw [if_neg hx, if_pos hy]
      apply hdiv
      have h1 : ⌈x * 100 - 1 / 2⌉ ≤ 0 := by
        apply Int.ceil_le.2
        have := not_le.1 hx
        push_cast
        linarith
      have h2 : (0 : ℤ) ≤ ⌊y * 100 + 1 / 2⌋ := Int.floor_nonneg.2 (by positivity)
      exact le_trans h1 h2
    · rw [if_neg hx, if_neg hy]
      exact hdiv _ _ (Int.ceil_mono (by linarith))

theorem round2_hundredth (n : ℤ) : round2 ((n : ℚ) / 100) = (n : ℚ) / 100 := by
  unfold round2
  by_cases hn : 0 ≤ (n : ℚ) / 100
  · rw [if_pos hn]
    have : ⌊(n : ℚ) / 100 * 100 + 1 / 2⌋ = n := by
      rw [Int.floor_eq_iff]
      constructor <;> linarith
    rw [this]
  · rw [if_neg hn]
    have : ⌈(n : ℚ) / 100 * 100 - 1 / 2⌉ = n := by
      rw [Int.ceil_eq_iff]
      constructor <;> linarith
    rw [this]

theorem round2_ge_sub (x : ℚ) : x - 1 / 200 ≤ round2 x := by
  obtain ⟨_, _, h, _⟩ := round2_spec x
  have := (abs_le.1 h).1
  linarith

theorem round2_ge_hundredth (x : ℚ) (h : 1 / 200 ≤ x) : 1 / 100 ≤ round2 x := by
  unfold round2
  rw [if_pos (by linarith : (0 : ℚ) ≤ x)]
  have h1 : (1 : ℤ) ≤ ⌊x * 100 + 1 / 2⌋ := Int.le_floor.2 (by push_cast; linarith)
  have h2 : (1 : ℚ) ≤ ((⌊x * 100 + 1 / 2⌋ : ℤ) : ℚ) := by exact_mod_cast h1
  linarith

theorem round2_ge_one (x : ℚ) (h : 1 ≤ x) : 1 ≤ round2 x := by
  have h1 : round2 (((100 : ℤ) : ℚ) / 100) ≤ round2 x := by
    apply round2_mono
    push_cast
    linarith
  rw [round2_hundredth 100] at h1
  have : (((100 : ℤ) : ℚ) / 100) = 1 := by norm_num
  rwa [this] at h1

theorem mergeFindings_singleton (f : Finding) : mergeFindings [f] = [f] := by
  rw [mergeFindings_eq]
  simp [firstKeys, groupOf, mergeGroup]

theorem correlate_singleton (f : Finding) : Correlate [f] = [rescore f] := by
  unfold Correlate
  rw [mergeFindings_singleton]
  simp [sortFindings]

theorem evidenceKey_eq_of_triple_eq (a b : Evidence) (h : evidenceTriple a = evidenceTriple b) :
    evidenceKey a = evidenceKey b := by
  simp only [evidenceTriple, Prod.mk.injEq] at h
  obtain ⟨h1, h2, h3⟩ := h
  simp [evidenceKey, h1, h2, h3]

theorem mergePair_triples_nodup (p s : Finding)
    (hp : (p.Evidence.map evidenceTriple).Nodup) :
    ((mergePair p s).Evidence.map evidenceTriple).Nodup := by
  rw [mergePair_evidence, List.map_append, List.nodup_append]
  refine ⟨hp, ?_, ?_⟩
  · have hk := nodup_freshItems evidenceKey s.Evidence (p.Evidence.map evidenceKey)
    rw [List.Nodup, List.pairwise_map] at hk ⊢
    exact hk.imp fun hne heq => hne (evidenceKey_eq_of_triple_eq _ _ heq)
  · intro t ht1 ht2
    rcases List.mem_map.1 ht1 with ⟨a, ha, rfl⟩
    rcases List.mem_map.1 ht2 with ⟨b, hb, hab⟩
    have hbkey := (mem_freshItems evidenceKey s.Evidence _ b hb).2
    apply hbkey
    rw [evidenceKey_eq_of_triple_eq b a hab]
    exact List.mem_map_of_mem _ ha

theorem foldl_mergePair_triples_nodup (extras : List Finding) :
    ∀ p : Finding, (p.Evidence.map evidenceTriple).Nodup →
      ((extras.foldl mergePair p).Evidence.map evidenceTriple).Nodup := by
  induction extras with
  | nil => intro p hp; simpa using hp
  | cons s extras ih =>
    intro p hp
    simp only [List.foldl_cons]
    exact ih _ (mergePair_triples_nodup p s hp)

theorem filter_orderedInsert_of_not (C : Finding → Bool) (a : Finding) (hCa : C a = false) :
    ∀ l : List Finding,
      (l.orderedInsert (fun x y => ¬ sortLess y x) a).filter C = l.filter C := by
  intro l
  induction l with
  | nil => simp [hCa]
  | cons b l ih =>
    simp only [List.orderedInsert]
    split_ifs with h
    · simp only [List.filter_cons, ih]
    · simp [List.filter_cons, hCa]

theorem filter_orderedInsert_of_class (C : Finding → Bool) (a : Finding) (hCa : C a = true)
    (hC : ∀ b, C b = true → ¬ sortLess b a) :
    ∀ l : List Finding,
      (l.orderedInsert (fun x y => ¬ sortLess y x) a).filter C = a :: l.filter C := by
  intro l
  induction l with
  | nil => simp [hCa]
  | cons b l ih =>
    simp only [List.orderedInsert]
    split_ifs with h
    · have hb : C b = false := by
        cases hcb : C b with
        | false => rfl
        | true => exact absurd h (hC b hcb)
      simp only [List.filter_cons, ih, hb]
      simp
    · simp [List.filter_cons, hCa]

theorem filter_sortFindings (C : Finding → Bool)
    (hC : ∀ a b, C a = true → C b = true → ¬ sortLess b a) :
    ∀ l : List Finding, (sortFindings l).filter C = l.filter C := by
  intro l
  induction l with
  | nil => simp [sortFindings]
  | cons a l ih =>
    unfold sortFindings at ih ⊢
    rw [List.insertionSort]
    cases hCa : C a with
    | false => rw [filter_orderedInsert_of_not C a hCa, ih]; simp [List.filter_cons, hCa]
    | true =>
      rw [filter_orderedInsert_of_class C a hCa (fun b hb => hC a b hCa hb), ih]
      simp [List.filter_cons, hCa]

theorem not_sortLess_of_sameSortKey (a b : Finding) (h : sameSortKey a b) :
    ¬ sortLess b a := by
  rw [not_sortLess_iff]
  obtain ⟨h1, h2, h3⟩ := h
  exact Or.inr (Or.inr ⟨h1, h2, le_of_eq h3⟩)

theorem lookupCount_incrCount (t' t : EvidenceType) (m : List (EvidenceType × Nat)) :
    lookupCount (incrCount t' m) t =
      if t' = t then some ((lookupCount m t).getD 0 + 1) else lookupCount m t := by
  induction m with
  | nil =>
    by_cases h : t' = t <;> simp [incrCount, lookupCount, h]
  | cons kn m ih =>
    obtain ⟨k, n⟩ := kn
    by_cases hk : k = t'
    · subst hk
      by_cases h : k = t <;> simp [incrCount, lookupCount, h]
    · by_cases h : t' = t
      · subst h
        have ih' := ih
        simp only [if_true] at ih'
        simp only [incrCount, if_neg hk, if_true]
        simp only [lookupCount, List.find?_cons, hk, decide_False] at ih' ⊢
        exact ih'
      · simp only [if_neg h] at ih
        simp only [incrCount, if_neg hk, if_neg h]
        by_cases hkt : k = t
        · simp [lookupCount, hkt]
        · simp only [lookupCount, List.find?_cons, hkt, decide_False] at ih ⊢
          exact ih

theorem lookupCount_typeCounts (es : List Evidence) (t : EvidenceType) :
    lookupCount (typeCounts es) t =
      if (es.filter fun e => e.Type_ = t).length = 0 then none
      else some (es.filter fun e => e.Type_ = t).length := by
  induction es using List.reverseRecOn with
  | nil => simp [typeCounts, lookupCount]
  | append_singleton es e ih =>
    have hstep : typeCounts (es ++ [e]) = incrCount e.Type_ (typeCounts es) := by
      simp [typeCounts, List.foldl_append]
    rw [hstep, lookupCount_incrCount, ih, List.filter_append, List.length_append]
    by_cases h : e.Type_ = t
    · by_cases h0 : (es.filter fun e => e.Type_ = t).length = 0 <;>
        simp [List.filter_cons, h, h0]
    · by_cases h0 : (es.filter fun e => e.Type_ = t).length = 0 <;>
        simp [List.filter_cons, h, h0]

theorem filterMap_counts (c : EvidenceType → Nat) (g : EvidenceType → Nat → String)
    (l : List EvidenceType) :
    (l.filterMap fun t => (if c t = 0 then none else some (c t)).map (g t)) =
      (l.filter fun t => 0 < c t).map fun t => g t (c t) := by
  induction l with
  | nil => simp
  | cons t l ih =>
    by_cases h : c t = 0
    · simp [List.filterMap_cons, List.filter_cons, h, ih]
    · have hpos : 0 < c t := Nat.pos_of_ne_zero h
      simp [List.filterMap_cons, List.filter_cons, h, hpos, ih]

theorem formatFixed0_nat (n : Nat) : formatFixed0 (n : ℚ) = toString n := by
  unfold formatFixed0
  have hn : (0 : ℚ) ≤ (n : ℚ) := Nat.cast_nonneg n
  have habs : |(n : ℚ)| = (n : ℚ) := abs_of_nonneg hn
  have hfl : ⌊(n : ℚ)⌋ = (n : ℤ) := by
    have : ((n : ℤ) : ℚ) = (n : ℚ) := by push_cast; rfl
    rw [← this, Int.floor_intCast]
  simp only [habs, hfl]
  have hd : ((n : ℚ) - ((n : ℤ) : ℚ)) < 1 / 2 := by
    push_cast
    norm_num
  rw [if_pos hd, if_neg (not_lt.2 hn)]
  simp

theorem buildReasoning_rescore (m : Finding) :
    (rescore m).Reasoning = buildReasoning (rescore m) := by
  simp [rescore, buildReasoning]

theorem foldl_append_eq_flatten {α β : Type} (f : α → List β) (l : List α) :
    ∀ init : List β, l.foldl (fun acc a => acc ++ f a) init = init ++ (l.map f).flatten := by
  induction l with
  | nil => intro init; simp
  | cons a l ih => intro init; simp [ih, List.append_assoc]

theorem isPressureCondition_iff (c : NodeCondition) :
    (!isPressureCondition c.Type_ || c.Status != ConditionTrue) = false ↔ isTruePressure c := by
  simp only [isPressureCondition, pressureConditions, isTruePressure, NodeDiskPressure,
    NodeMemoryPressure, NodePIDPressure, ConditionTrue, List.any_cons, List.any_nil,
    Bool.or_false, Bool.or_eq_false_iff, Bool.not_eq_false', Bool.or_eq_true,
    decide_eq_true_eq, bne_eq_false_iff_eq]

theorem conditions_foldl (rt : Runtime) (snap : Snapshot) (node : NodeInfo)
    (conds : List NodeCondition) :
    ∀ findings : List Finding,
      conds.foldl
          (fun findings cond =>
            if !isPressureCondition cond.Type_ || cond.Status != ConditionTrue then findings
            else findings ++ [pressureFinding rt snap node cond])
          findings =
        findings ++ (conds.filter fun c => decide (isTruePressure c)).map
          (pressureFinding rt snap node) := by
  induction conds with
  | nil => intro findings; simp
  | cons c conds ih =>
    intro findings
    simp only [List.foldl_cons]
    by_cases h : isTruePressure c
    · have h' := (isPressureCondition_iff c).2 h
      rw [h', ih]
      simp [List.filter_cons, h]
    · have h' : (!isPressureCondition c.Type_ || c.Status != ConditionTrue) = true := by
        cases hb : (!isPressureCondition c.Type_ || c.Status != ConditionTrue) with
        | true => rfl
        | false => exact absurd ((isPressureCondition_iff c).1 hb) h
      rw [h', ih]
      simp [List.filter_cons, h]

theorem nodePressure_evaluate_eq (rt : Runtime) (snap : Snapshot) :
    NodePressureRule.Evaluate rt snap =
      (snap.Nodes.map fun node =>
        (node.Conditions.filter fun c => decide (isTruePressure c)).map
          (pressureFinding rt snap node)).flatten := by
  unfold NodePressureRule.Evaluate
  have h : (fun (findings : List Finding) (node : NodeInfo) =>
        node.Conditions.foldl
          (fun findings cond =>
            if !isPressureCondition cond.Type_ || cond.Status != ConditionTrue then findings
            else findings ++ [pressureFinding rt snap node cond])
          findings) =
      fun findings node =>
        findings ++ (node.Conditions.filter fun c => decide (isTruePressure c)).map
          (pressureFinding rt snap node) := by
    funext findings node
    exact conditions_foldl rt snap node node.Conditions findings
  rw [h, foldl_append_eq_flatten]
  simp

theorem pressureConfidence_range (cond : NodeCondition) (n : Int) :
    0 ≤ pressureConfidence cond n ∧ pressureConfidence cond n ≤ 1 := by
  unfold pressureConfidence
  constructor <;> split_ifs <;> norm_num

theorem pressureSeverity_known (ct : String) (n : Int) :
    pressureSeverity ct n = SeverityLow ∨ pressureSeverity ct n = SeverityMedium ∨
      pressureSeverity ct n = SeverityHigh ∨ pressureSeverity ct n = SeverityCritical := by
  unfold pressureSeverity
  split_ifs <;> simp

theorem pendingConfidence_range (n t : Int) :
    0 ≤ pendingConfidence n t ∧ pendingConfidence n t ≤ 1 := by
  unfold pendingConfidence
  by_cases ht : t = 0
  · simp only [ht, if_true]
    norm_num
  · by_cases h3 : n ≥ 3 <;> by_cases hr : (n : ℚ) / (t : ℚ) > 1 / 10 <;>
      simp only [ht, h3, hr, if_true, if_false] <;> norm_num

theorem pendingSeverity_known (n : Int) (cat : String) :
    pendingSeverity n cat = SeverityLow ∨ pendingSeverity n cat = SeverityMedium ∨
      pendingSeverity n cat = SeverityHigh ∨ pendingSeverity n cat = SeverityCritical := by
  unfold pendingSeverity
  split_ifs <;> simp

theorem dnsConfidence_range (a b c d : Int) :
    0 ≤ dnsConfidence a b c d ∧ dnsConfidence a b c d ≤ 1 := by
  unfold dnsConfidence
  constructor <;> split_ifs <;> norm_num at *

theorem dnsSeverity_known (a b c : Int) :
    dnsSeverity a b c = SeverityLow ∨ dnsSeverity a b c = SeverityMedium ∨
      dnsSeverity a b c = SeverityHigh ∨ dnsSeverity a b c = SeverityCritical := by
  unfold dnsSeverity
  split_ifs <;> simp

theorem storageConfidence_range (a b : Int) :
    0 ≤ storageConfidence a b ∧ storageConfidence a b ≤ 1 := by
  unfold storageConfidence
  constructor <;> split_ifs <;> norm_num at *

theorem storageSeverity_known (a b : Int) :
    storageSeverity a b = SeverityLow ∨ storageSeverity a b = SeverityMedium ∨
      storageSeverity a b = SeverityHigh ∨ storageSeverity a b = SeverityCritical := by
  unfold storageSeverity
  split_ifs <;> simp

theorem pressureFinding_wellFormed (rt : Runtime) (snap : Snapshot) (node : NodeInfo)
    (cond : NodeCondition) : WellFormed (pressureFinding rt snap node cond) := by
  refine ⟨by simp [pressureFinding], by simp [pressureFinding], ?_, ?_, ?_⟩
  · exact pressureSeverity_known _ _
  · exact (pressureConfidence_range cond _).1
  · exact (pressureConfidence_range cond _).2

theorem appendToBucket_nonempty (cat : String) (pr : podReason) :
    ∀ buckets : List (String × List podReason), (∀ e ∈ buckets, e.2 ≠ []) →
      ∀ e ∈ appendToBucket cat pr buckets, e.2 ≠ [] := by
  intro buckets
  induction buckets with
  | nil => intro _ e he; simp [appendToBucket] at he; subst he; simp
  | cons b buckets ih =>
    obtain ⟨k, prs⟩ := b
    intro h e he
    by_cases hk : k = cat
    · simp only [appendToBucket, if_pos hk, List.mem_cons] at he
      rcases he with rfl | he
      · simp
      · exact h e (List.mem_cons_of_mem _ he)
    · simp only [appendToBucket, if_neg hk, List.mem_cons] at he
      rcases he with rfl | he
      · exact h _ (List.mem_cons_self _ _)
      · exact ih (fun e he => h e (List.mem_cons_of_mem _ he)) e he

theorem pendingBuckets_nonempty (snap : Snapshot) : ∀ e ∈ pendingBuckets snap, e.2 ≠ [] := by
  unfold pendingBuckets
  have h : ∀ (pods : List PodInfo) (init : List (String × List podReason)),
      (∀ e ∈ init, e.2 ≠ []) →
      ∀ e ∈ pods.foldl
          (fun buckets pod =>
            if pod.Phase ≠ PodPending then buckets
            else
              let events := findPodEvents snap.Events pod.Namespace pod.Name
              let cat := classifySchedulingReason pod events
              appendToBucket cat { pod := pod, reason := cat, events := events } buckets)
          init, e.2 ≠ [] := by
    intro pods
    induction pods with
    | nil => intro init hinit; simpa using hinit
    | cons p pods ih =>
      intro init hinit
      simp only [List.foldl_cons]
      apply ih
      by_cases hp : p.Phase ≠ PodPending
      · rw [if_pos hp]; exact hinit
      · rw [if_neg hp]; exact appendToBucket_nonempty _ _ _ hinit
  exact h snap.Pods [] (by simp)

theorem pendingEvidence_ne_nil (cat : String) (pods : List podReason) (h : pods ≠ []) :
    pods.foldl (fun evidence pr => evidence ++ pendingPodEvidence cat pr) [] ≠ [] := by
  rw [foldl_append_eq_flatten]
  cases pods with
  | nil => exact absurd rfl h
  | cons p pods => simp [pendingPodEvidence]

theorem pendingFinding_wellFormed (rt : Runtime) (snap : Snapshot) (cat : String)
    (pods : List podReason) (h : pods ≠ []) : WellFormed (pendingFinding rt snap cat pods) := by
  refine ⟨by simp [pendingFinding], ?_, ?_, ?_, ?_⟩
  · exact pendingEvidence_ne_nil cat pods h
  · exact pendingSeverity_known _ _
  · exact (pendingConfidence_range _ _).1
  · exact (pendingConfidence_range _ _).2

theorem mem_pendingPods_evaluate (rt : Runtime) (snap : Snapshot) (f : Finding)
    (hf : f ∈ PendingPodsRule.Evaluate rt snap) :
    ∃ e ∈ pendingBuckets snap, f = pendingFinding rt snap e.1 e.2 := by
  unfold PendingPodsRule.Evaluate at hf
  by_cases h0 : (pendingBuckets snap).length = 0
  · simp [h0] at hf
  · simp only [h0, if_false] at hf
    rw [foldl_append_eq_flatten] at hf
    simp only [List.nil_append, List.mem_flatten, List.mem_map] at hf
    obtain ⟨l, ⟨e, he, rfl⟩, hfl⟩ := hf
    simp only [List.mem_singleton] at hfl
    exact ⟨e, (rt.rangeOrder_perm (pendingBuckets snap)).mem_iff.1 he, hfl⟩

theorem mem_nodePressure_evaluate (rt : Runtime) (snap : Snapshot) (f : Finding) :
    f ∈ NodePressureRule.Evaluate rt snap ↔
      ∃ node ∈ snap.Nodes, ∃ cond ∈ node.Conditions,
        isTruePressure cond ∧ f = pressureFinding rt snap node cond := by
  rw [nodePressure_evaluate_eq, List.mem_flatten]
  constructor
  · rintro ⟨l, hl, hfl⟩
    obtain ⟨node, hnode, rfl⟩ := List.mem_map.1 hl
    obtain ⟨c, hc, rfl⟩ := List.mem_map.1 hfl
    have hc' := List.mem_filter.1 hc
    exact ⟨node, hnode, c, hc'.1, of_decide_eq_true hc'.2, rfl⟩
  · rintro ⟨node, hnode, c, hc, hp, rfl⟩
    refine ⟨_, List.mem_map.2 ⟨node, hnode, rfl⟩, ?_⟩
    exact List.mem_map.2 ⟨c, List.mem_filter.2 ⟨hc, decide_eq_true hp⟩, rfl⟩

theorem pressureConfidence_values (cond : NodeCondition) (n : Nat) :
    pressureConfidence cond n =
      if n = 0 then 70 / 100 else if n ≤ 3 then 85 / 100 else 95 / 100 := by
  unfold pressureConfidence
  by_cases h0 : n = 0
  · subst h0
    norm_num
  · by_cases h3 : n ≤ 3
    · have h0' : (0 : Int) < (n : Int) := by omega
      have h3' : ¬ (3 : Int) < (n : Int) := by omega
      simp only [gt_iff_lt, h0', h3', if_true, if_false, h0, h3]
      norm_num
    · have h0' : (0 : Int) < (n : Int) := by omega
      have h3' : (3 : Int) < (n : Int) := by omega
      simp only [gt_iff_lt, h0', h3', if_true, if_false, h0, h3]
      norm_num

theorem toLower_append (a b : String) :
    strings.ToLower (a ++ b) = strings.ToLower a ++ strings.ToLower b := by
  unfold strings.ToLower
  apply String.ext
  simp [String.data_append]

theorem any_eq_true_iff_exists {α : Type} (l : List α) (p : α → Bool) :
    l.any p = true ↔ ∃ a ∈ l, p a = true := by
  simp [List.any_eq_true]

theorem isEvictionRelated_iff (r m : String) :
    isEvictionRelated r m = true ↔
      ∃ kw ∈ evictionReasons,
        strings.Contains (strings.ToLower r ++ " " ++ strings.ToLower m)
          (strings.ToLower kw) = true := by
  unfold isEvictionRelated
  simp only [any_eq_true_iff_exists, toLower_append]
  have : strings.ToLower " " = " " := by decide
  rw [this]

theorem ratio_gt_tenth_iff (n t : Int) (ht : 0 < t) :
    ((n : ℚ) / (t : ℚ) > 1 / 10) ↔ t < 10 * n := by
  have ht' : (0 : ℚ) < (t : ℚ) := by exact_mod_cast ht
  rw [gt_iff_lt, lt_div_iff₀ ht']
  constructor
  · intro h
    have : (t : ℚ) < 10 * (n : ℚ) := by linarith
    exact_mod_cast this
  · intro h
    have : (t : ℚ) < 10 * (n : ℚ) := by exact_mod_cast h
    linarith

theorem pendingConfidence_eq (n t : Int) (ht : 0 < t) :
    pendingConfidence n t =
      60 / 100 + (if 3 ≤ n then 15 / 100 else 0) + (if t < 10 * n then 15 / 100 else 0) := by
  unfold pendingConfidence
  have ht0 : ¬ t = 0 := by omega
  simp only [ht0, if_false, ratio_gt_tenth_iff n t ht, ge_iff_le]
  by_cases h3 : 3 ≤ n <;> by_cases hr : t < 10 * n <;>
    simp only [h3, hr, if_true, if_false] <;> norm_num

theorem pendingBuckets_pods_ne_nil (snap : Snapshot) (e : String × List podReason)
    (he : e ∈ pendingBuckets snap) : 0 < snap.Pods.length := by
  cases hp : snap.Pods with
  | nil => simp [pendingBuckets, hp] at he
  | cons p ps => simp

theorem slug_suffix_injective (a b s₁ s₂ : List Char)
    (h₁ : s₁ ∈ ["diskpressure".data, "memorypressure".data, "pidpressure".data])
    (h₂ : s₂ ∈ ["diskpressure".data, "memorypressure".data, "pidpressure".data])
    (h : a ++ ('-' :: s₁) = b ++ ('-' :: s₂)) : a = b ∧ s₁ = s₂ := by
  have hs1 : ('-' :: s₁) <:+ (b ++ ('-' :: s₂)) := ⟨a, h⟩
  have hs2 : ('-' :: s₂) <:+ (b ++ ('-' :: s₂)) := ⟨b, rfl⟩
  have hor := List.suffix_or_suffix_of_suffix hs1 hs2
  have heq : s₁ = s₂ := by
    simp only [List.mem_cons, List.mem_singleton, List.not_mem_nil, or_false] at h₁ h₂
    rcases h₁ with rfl | rfl | rfl <;> rcases h₂ with rfl | rfl | rfl <;>
      first
        | rfl
        | (exfalso; revert hor; decide)
  subst heq
  exact ⟨List.append_cancel_right h, rfl⟩

theorem conditionSlug_pressure (t : String) (ht : t ∈ pressureConditions) :
    (conditionSlug t).data ∈
      ["diskpressure".data, "memorypressure".data, "pidpressure".data] := by
  simp only [pressureConditions, List.mem_cons, List.mem_singleton, List.not_mem_nil,
    or_false] at ht
  rcases ht with rfl | rfl | rfl <;> decide

theorem conditionSlug_injective (t₁ t₂ : String) (h₁ : t₁ ∈ pressureConditions)
    (h₂ : t₂ ∈ pressureConditions) (h : conditionSlug t₁ = conditionSlug t₂) : t₁ = t₂ := by
  simp only [pressureConditions, List.mem_cons, List.mem_singleton, List.not_mem_nil,
    or_false] at h₁ h₂
  rcases h₁ with rfl | rfl | rfl <;> rcases h₂ with rfl | rfl | rfl <;>
    first
      | rfl
      | (exfalso; revert h; decide)

theorem pressureId_injective (n₁ n₂ t₁ t₂ : String) (h₁ : t₁ ∈ pressureConditions)
    (h₂ : t₂ ∈ pressureConditions)
    (h : "node-pressure-" ++ n₁ ++ "-" ++ conditionSlug t₁ =
      "node-pressure-" ++ n₂ ++ "-" ++ conditionSlug t₂) : n₁ = n₂ ∧ t₁ = t₂ := by
  have hd := congrArg String.data h
  simp only [String.data_append, List.append_assoc] at hd
  have hd' := List.append_cancel_left hd
  simp only [List.singleton_append] at hd'
  obtain ⟨ha, hs⟩ := slug_suffix_injective _ _ _ _ (conditionSlug_pressure t₁ h₁)
    (conditionSlug_pressure t₂ h₂) hd'
  exact ⟨String.ext ha, conditionSlug_injective t₁ t₂ h₁ h₂ (String.ext hs)⟩

theorem isTruePressure_mem (c : NodeCondition) (h : isTruePressure c) :
    c.Type_ ∈ pressureConditions := by
  obtain ⟨h1, _⟩ := h
  simp only [pressureConditions, NodeDiskPressure, NodeMemoryPressure, NodePIDPressure,
    List.mem_cons, List.mem_singleton, List.not_mem_nil, or_false]
  exact h1

theorem pressureFinding_id (rt : Runtime) (snap : Snapshot) (node : NodeInfo)
    (cond : NodeCondition) :
    (pressureFinding rt snap node cond).ID =
      "node-pressure-" ++ node.Name ++ "-" ++ conditionSlug cond.Type_ := rfl

theorem foldl_mem_preserved {σ α β : Type} (ev : σ → List β) (step : σ → α → σ)
    (hsub : ∀ s a, ∀ e ∈ ev s, e ∈ ev (step s a)) :
    ∀ (l : List α) (s : σ), ∀ e ∈ ev s, e ∈ ev (l.foldl step s) := by
  intro l
  induction l with
  | nil => intro s e h; exact h
  | cons a l ih => intro s e h; exact ih (step s a) e (hsub s a e h)

theorem foldl_mem_of_step {σ α β : Type} (ev : σ → List β) (step : σ → α → σ)
    (hsub : ∀ s a, ∀ e ∈ ev s, e ∈ ev (step s a)) (a : α) (P : β → Prop)
    (hadd : ∀ s, ∃ e ∈ ev (step s a), P e) :
    ∀ (l : List α) (s : σ), a ∈ l → ∃ e ∈ ev (l.foldl step s), P e := by
  intro l
  induction l with
  | nil => intro s h; simp at h
  | cons b l ih =>
    intro s h
    rcases List.mem_cons.1 h with rfl | h
    · obtain ⟨e, he, hP⟩ := hadd s
      exact ⟨e, foldl_mem_preserved ev step hsub l _ e he, hP⟩
    · exact ih _ h

theorem podInSlice_iff (pods : List PodInfo) (name ns : String) :
    podInSlice pods name ns = true ↔ (name, ns) ∈ pods.map podKey := by
  simp only [podInSlice, List.any_eq_true, Bool.and_eq_true, decide_eq_true_eq, List.mem_map,
    podKey, Prod.mk.injEq]

theorem findCoreDNSPods_eq (snap : Snapshot) :
    findCoreDNSPods snap =
      snap.Pods.foldl addGeneralDNSPod
        (snap.KubeSystem.Pods.filter fun p => isCoreDNSPod p.Name) := rfl

theorem addGeneralDNSPod_keys_nodup (pods : List PodInfo) (p : PodInfo)
    (h : (pods.map podKey).Nodup) : ((addGeneralDNSPod pods p).map podKey).Nodup := by
  unfold addGeneralDNSPod
  split_ifs with h1 h2
  · rw [List.map_append, List.nodup_append]
    refine ⟨h, by simp, ?_⟩
    intro k hk hk'
    simp only [List.map_cons, List.map_nil, List.mem_singleton] at hk'
    subst hk'
    have : podInSlice pods p.Name p.Namespace = true := (podInSlice_iff _ _ _).2 hk
    simp [this] at h2
  · exact h
  · exact h

theorem addGeneralDNSPod_subset (pods : List PodInfo) (p q : PodInfo) (h : q ∈ pods) :
    q ∈ addGeneralDNSPod pods p := by
  unfold addGeneralDNSPod
  split_ifs <;> simp [h]

theorem addGeneralDNSPod_mem (pods : List PodInfo) (p q : PodInfo)
    (h : q ∈ addGeneralDNSPod pods p) : q ∈ pods ∨ q = p := by
  unfold addGeneralDNSPod at h
  split_ifs at h
  · simpa using h
  · exact Or.inl h
  · exact Or.inl h

theorem addGeneralDNSPod_key (pods : List PodInfo) (p : PodInfo)
    (hns : p.Namespace = "kube-system") (hdns : isCoreDNSPod p.Name = true) :
    podKey p ∈ (addGeneralDNSPod pods p).map podKey := by
  unfold addGeneralDNSPod
  simp only [hns, hdns, decide_True, Bool.and_self, if_true]
  by_cases h : podInSlice pods p.Name "kube-system" = true
  · simp only [h, Bool.not_true, Bool.false_eq_true, if_false]
    have := (podInSlice_iff pods p.Name "kube-system").1 h
    simpa [podKey, hns] using this
  · simp only [Bool.not_eq_true] at h
    simp [h, podKey]

theorem foldl_addGeneral_keys_nodup (l : List PodInfo) :
    ∀ pods : List PodInfo, (pods.map podKey).Nodup →
      ((l.foldl addGeneralDNSPod pods).map podKey).Nodup := by
  induction l with
  | nil => intro pods h; simpa using h
  | cons p l ih => intro pods h; exact ih _ (addGeneralDNSPod_keys_nodup pods p h)

theorem foldl_addGeneral_subset (l : List PodInfo) :
    ∀ (pods : List PodInfo) (q : PodInfo), q ∈ pods → q ∈ l.foldl addGeneralDNSPod pods := by
  induction l with
  | nil => intro pods q h; simpa using h
  | cons p l ih => intro pods q h; exact ih _ q (addGeneralDNSPod_subset pods p q h)

theorem foldl_addGeneral_mem (l : List PodInfo) :
    ∀ (pods : List PodInfo) (q : PodInfo), q ∈ l.foldl addGeneralDNSPod pods →
      q ∈ pods ∨ q ∈ l := by
  induction l with
  | nil => intro pods q h; exact Or.inl (by simpa using h)
  | cons p l ih =>
    intro pods q h
    rcases ih _ q h with h1 | h1
    · rcases addGeneralDNSPod_mem pods p q h1 with h2 | h2
      · exact Or.inl h2
      · exact Or.inr (by simp [h2])
    · exact Or.inr (List.mem_cons_of_mem _ h1)

theorem foldl_addGeneral_key (l : List PodInfo) :
    ∀ (pods : List PodInfo) (p : PodInfo), p ∈ l → p.Namespace = "kube-system" →
      isCoreDNSPod p.Name = true → podKey p ∈ (l.foldl addGeneralDNSPod pods).map podKey := by
  induction l with
  | nil => intro pods p h; simp at h
  | cons a l ih =>
    intro pods p h hns hdns
    rcases List.mem_cons.1 h with rfl | h
    · simp only [List.foldl_cons]
      obtain ⟨q, hq, hkey⟩ := List.mem_map.1 (addGeneralDNSPod_key pods p hns hdns)
      exact List.mem_map.2 ⟨q, foldl_addGeneral_subset l _ q hq, hkey⟩
    · exact ih _ p h hns hdns

theorem scanContainer_evidence_sub (pod : PodInfo) (st : dnsScan) (c : ContainerInfo) :
    ∀ e ∈ st.evidence, e ∈ (scanContainer pod st c).evidence := by
  intro e he
  unfold scanContainer
  split_ifs <;> simp [he]

theorem scanContainer_evidence_add (pod : PodInfo) (c : ContainerInfo)
    (hc : restartThreshold ≤ c.RestartCount) (st : dnsScan) :
    ∃ e ∈ (scanContainer pod st c).evidence, isRestartEvidence pod c e := by
  unfold scanContainer
  split_ifs with h1
  · exact ⟨_, List.mem_append_right _ (List.mem_singleton_self _), rfl, rfl, rfl⟩
  · exact ⟨_, List.mem_append_right _ (List.mem_singleton_self _), rfl, rfl, rfl⟩

theorem scanPod_evidence_sub (st : dnsScan) (pod : PodInfo) :
    ∀ e ∈ st.evidence, e ∈ (scanPod st pod).evidence := by
  intro e he
  have h := foldl_mem_preserved (fun s : dnsScan => s.evidence) (scanContainer pod)
    (fun s a => scanContainer_evidence_sub pod s a) pod.Containers st e he
  unfold scanPod
  split_ifs
  · exact List.mem_append_left _ h
  · exact h

theorem scanPod_evidence_add (pod : PodInfo) (c : ContainerInfo) (hmem : c ∈ pod.Containers)
    (hc : restartThreshold ≤ c.RestartCount) (st : dnsScan) :
    ∃ e ∈ (scanPod st pod).evidence, isRestartEvidence pod c e := by
  obtain ⟨e, he, hP⟩ := foldl_mem_of_step (fun s : dnsScan => s.evidence) (scanContainer pod)
    (fun s a => scanContainer_evidence_sub pod s a) c (isRestartEvidence pod c)
    (fun s => scanContainer_evidence_add pod c hc s) pod.Containers st hmem
  refine ⟨e, ?_, hP⟩
  unfold scanPod
  split_ifs
  · exact List.mem_append_left _ he
  · exact he

theorem dns_evaluate_of_restarts (rt : Runtime) (snap : Snapshot) (q : PodInfo)
    (hq : q ∈ findCoreDNSPods snap) (c : ContainerInfo) (hmem : c ∈ q.Containers)
    (hc : restartThreshold ≤ c.RestartCount) :
    ∃ f, DNSRule.Evaluate rt snap = [f] ∧ f.ID = "dns-instability" ∧
      ∃ e ∈ f.Evidence, isRestartEvidence q c e := by
  have hlen : (findCoreDNSPods snap).length ≠ 0 := by
    intro h
    rw [List.length_eq_zero] at h
    rw [h] at hq
    simp at hq
  obtain ⟨e, he, hP⟩ := foldl_mem_of_step (fun s : dnsScan => s.evidence) scanPod
    scanPod_evidence_sub q (isRestartEvidence q c)
    (fun s => scanPod_evidence_add q c hmem hc s) (findCoreDNSPods snap)
    { evidence := [], crashlooping := 0, highRestarts := 0 } hq
  have hmemAll : e ∈ (List.foldl scanPod { evidence := [], crashlooping := 0, highRestarts := 0 }
      (findCoreDNSPods snap)).evidence ++
        (findDNSEvents snap.Events (findCoreDNSPods snap)).map dnsEventEvidence ++
        findDNSLogPatternEvidence snap.Events :=
    List.mem_append_left _ (List.mem_append_left _ he)
  have hlen2 : ((List.foldl scanPod { evidence := [], crashlooping := 0, highRestarts := 0 }
      (findCoreDNSPods snap)).evidence ++
        (findDNSEvents snap.Events (findCoreDNSPods snap)).map dnsEventEvidence ++
        findDNSLogPatternEvidence snap.Events).length ≠ 0 := by
    intro h
    rw [List.length_eq_zero] at h
    rw [h] at hmemAll
    simp at hmemAll
  simp only [DNSRule.Evaluate, if_neg hlen, if_neg hlen2]
  exact ⟨_, rfl, rfl, e, hmemAll, hP⟩

theorem find?_first {α : Type} (p : α → Bool) :
    ∀ (l : List α) (i : Nat) (hi : i < l.length), p (l.get ⟨i, hi⟩) = true →
      (∀ (j : Nat) (hj : j < l.length), j < i → p (l.get ⟨j, hj⟩) = false) →
      l.find? p = some (l.get ⟨i, hi⟩) := by
  intro l
  induction l with
  | nil => intro i hi; simp at hi
  | cons a l ih =>
    intro i hi hp hlt
    cases i with
    | zero =>
      simp only [List.get_eq_getElem, List.getElem_cons_zero] at hp ⊢
      simp [List.find?, hp]
    | succ i =>
      have ha : p a = false := by
        have := hlt 0 (Nat.succ_pos _) (Nat.succ_pos _)
        simpa using this
      have hi' : i < l.length := Nat.lt_of_succ_lt_succ hi
      have h := ih i hi' (by simpa using hp) (by
        intro j hj hji
        have := hlt (j + 1) (Nat.succ_lt_succ hj) (Nat.succ_lt_succ hji)
        simpa using this)
      simp only [List.find?, ha]
      simpa using h

theorem mem_collectMessages (pod : PodInfo) (events : List EventInfo) (s : String) :
    s ∈ collectMessages pod events ↔ s ∈ podTexts pod events ∧
      (s ≠ "" ∨ s ∈ (events.map fun ev => [ev.Message, ev.Reason]).flatten) := by
  have hstep : (fun (msgs : List String) (c : PodCondition) =>
        let msgs := if c.Message ≠ "" then msgs ++ [c.Message] else msgs
        if c.Reason ≠ "" then msgs ++ [c.Reason] else msgs) =
      fun msgs c => msgs ++ ((if c.Message ≠ "" then [c.Message] else []) ++
        (if c.Reason ≠ "" then [c.Reason] else [])) := by
    funext msgs c
    by_cases h1 : c.Message ≠ "" <;> by_cases h2 : c.Reason ≠ "" <;> simp [h1, h2]
  unfold collectMessages podTexts
  simp only [hstep]
  rw [foldl_append_eq_flatten, foldl_append_eq_flatten]
  simp only [List.nil_append, List.mem_append, List.mem_flatten, List.mem_map]
  constructor
  · rintro (⟨l, ⟨c, hc, rfl⟩, hs⟩ | ⟨l, ⟨ev, hev, rfl⟩, hs⟩)
    · have hne : s ≠ "" ∧ (s = c.Message ∨ s = c.Reason) := by
        rcases List.mem_append.1 hs with h | h
        · by_cases h1 : c.Message ≠ ""
          · rw [if_pos h1, List.mem_singleton] at h
            exact ⟨h ▸ h1, Or.inl h⟩
          · rw [if_neg h1] at h
            exact absurd h (List.not_mem_nil _)
        · by_cases h2 : c.Reason ≠ ""
          · rw [if_pos h2, List.mem_singleton] at h
            exact ⟨h ▸ h2, Or.inr h⟩
          · rw [if_neg h2] at h
            exact absurd h (List.not_mem_nil _)
      exact ⟨Or.inl ⟨_, ⟨c, hc, rfl⟩, by simpa using hne.2⟩, Or.inl hne.1⟩
    · exact ⟨Or.inr ⟨_, ⟨ev, hev, rfl⟩, hs⟩, Or.inr ⟨_, ⟨ev, hev, rfl⟩, hs⟩⟩
  · rintro ⟨(⟨l, ⟨c, hc, rfl⟩, hs⟩ | h), h2⟩
    · rcases h2 with hne | h2
      · left
        refine ⟨_, ⟨c, hc, rfl⟩, ?_⟩
        simp only [List.mem_cons, List.mem_singleton, List.not_mem_nil, or_false] at hs
        rcases hs with rfl | rfl
        · exact List.mem_append_left _ (by rw [if_pos hne]; exact List.mem_singleton_self _)
        · exact List.mem_append_right _ (by rw [if_pos hne]; exact List.mem_singleton_self _)
      · exact Or.inr h2
    · exact Or.inr h

theorem keyword_not_in_empty :
    ∀ sr ∈ schedulingReasons, ∀ kw ∈ sr.Keywords,
      strings.Contains (strings.ToLower "") (strings.ToLower kw) = false := by
  decide

theorem keywordMatches_iff (pod : PodInfo) (events : List EventInfo) (sr : schedulingReason)
    (hsr : sr ∈ schedulingReasons) :
    (sr.Keywords.any fun kw => (collectMessages pod events).any fun msg =>
        strings.Contains (strings.ToLower msg) (strings.ToLower kw)) = true ↔
      keywordMatches sr (podTexts pod events) := by
  unfold keywordMatches
  simp only [any_eq_true_iff_exists]
  constructor
  · rintro ⟨kw, hkw, msg, hmsg, h⟩
    exact ⟨kw, hkw, msg, ((mem_collectMessages pod events msg).1 hmsg).1, h⟩
  · rintro ⟨kw, hkw, msg, hmsg, h⟩
    refine ⟨kw, hkw, msg, (mem_collectMessages pod events msg).2 ⟨hmsg, ?_⟩, h⟩
    left
    rintro rfl
    rw [keyword_not_in_empty sr hsr kw hkw] at h
    exact Bool.false_ne_true h

theorem find?_congr_mem {α : Type} (p q : α → Bool) :
    ∀ l : List α, (∀ a ∈ l, p a = q a) → l.find? p = l.find? q := by
  intro l
  induction l with
  | nil => intro _; rfl
  | cons a l ih =>
    intro h
    simp only [List.find?, h a (List.mem_cons_self _ _)]
    rw [ih fun b hb => h b (List.mem_cons_of_mem _ hb)]

theorem category_ne_unknown : ∀ sr ∈ schedulingReasons, sr.Category ≠ "unknown" := by
  decide

/-- The order of the categories decides, not the order of the words in the text. -/
theorem classify_two_reasons :
    classifySchedulingReason exTwoReasons [] = "insufficient-cpu" := by
  decide

theorem appendToBucket_new (k : String) (pr : podReason) :
    ∀ buckets : List (String × List podReason), k ∉ buckets.map Prod.fst →
      appendToBucket k pr buckets = buckets ++ [(k, [pr])] := by
  intro buckets
  induction buckets with
  | nil => intro _; rfl
  | cons b buckets ih =>
    obtain ⟨x, prs⟩ := b
    intro h
    simp only [List.map_cons, List.mem_cons, not_or] at h
    have hx : ¬ x = k := fun e => h.1 e.symm
    simp only [appendToBucket, if_neg hx, ih h.2, List.cons_append]

theorem appendToBucket_old (k : String) (pr : podReason)
    (g : String → List podReason) :
    ∀ keys : List String, keys.Nodup → k ∈ keys →
      appendToBucket k pr (keys.map fun x => (x, g x)) =
        keys.map fun x => (x, if x = k then g x ++ [pr] else g x) := by
  intro keys
  induction keys with
  | nil => intro _ h; simp at h
  | cons x keys ih =>
    intro hnd h
    rw [List.nodup_cons] at hnd
    by_cases hx : x = k
    · subst hx
      simp only [List.map_cons, appendToBucket, if_true]
      congr 1
      apply List.map_congr_left
      intro y hy
      have hyx : ¬ y = x := fun e => hnd.1 (e ▸ hy)
      rw [if_neg hyx]
    · have hk : k ∈ keys := by
        rcases List.mem_cons.1 h with h | h
        · exact absurd h.symm hx
        · exact h
      simp only [List.map_cons, appendToBucket, if_neg hx, ih hnd.2 hk]

theorem bucketsOf_append (items : List (String × podReason)) (it : String × podReason) :
    bucketsOf (items ++ [it]) = appendToBucket it.1 it.2 (bucketsOf items) := by
  simp [bucketsOf, List.foldl_append]

theorem bucketsOf_eq (items : List (String × podReason)) :
    bucketsOf items =
      (firstKeys (items.map Prod.fst)).map fun k =>
        (k, (items.filter fun it => it.1 = k).map Prod.snd) := by
  induction items using List.reverseRecOn with
  | nil => rfl
  | append_singleton items it ih =>
    rw [bucketsOf_append, ih, List.map_append, List.map_singleton, firstKeys_append_singleton]
    by_cases hk : it.1 ∈ items.map Prod.fst
    · rw [if_pos hk]
      rw [appendToBucket_old it.1 it.2 (fun k => (items.filter fun it => it.1 = k).map Prod.snd)
        _ (nodup_firstKeys _) ((mem_firstKeys _ _).2 hk)]
      apply List.map_congr_left
      intro x _
      by_cases hx : x = it.1
      · subst hx
        simp [List.filter_append]
      · have hx' : ¬ it.1 = x := fun e => hx e.symm
        simp [List.filter_append, hx, hx']
    · rw [if_neg hk, appendToBucket_new]
      · rw [List.map_append, List.map_singleton]
        congr 1
        · apply List.map_congr_left
          intro x hx
          have hx' : ¬ it.1 = x := fun e => hk (e ▸ (mem_firstKeys _ _).1 hx)
          simp [List.filter_append, hx']
        · have hnil : (items.filter fun a => a.1 = it.1) = [] := by
            rw [List.filter_eq_nil_iff]
            intro a ha
            simp only [decide_eq_true_eq]
            intro e
            exact hk (List.mem_map.2 ⟨a, ha, e⟩)
          simp [List.filter_append, hnil]
      · rw [List.map_map]
        intro h
        have : it.1 ∈ firstKeys (items.map Prod.fst) := by
          simpa [Function.comp] using h
        exact hk ((mem_firstKeys _ _).1 this)

theorem pendingBuckets_eq_bucketsOf (snap : Snapshot) :
    pendingBuckets snap =
      bucketsOf ((pendingPodsOf snap).map fun p => (podCategory snap p, podEntry snap p)) := by
  unfold pendingBuckets bucketsOf pendingPodsOf
  generalize ([] : List (String × List podReason)) = init
  induction snap.Pods generalizing init with
  | nil => rfl
  | cons p pods ih =>
    by_cases hp : p.Phase = PodPending
    · have hp' : ¬ p.Phase ≠ PodPending := fun h => h hp
      simp only [List.foldl_cons, if_neg hp', List.filter_cons, hp, decide_True, if_true,
        List.map_cons]
      exact ih _
    · have hp' : p.Phase ≠ PodPending := hp
      simp only [List.foldl_cons, if_pos hp', List.filter_cons, hp, decide_False]
      exact ih _

theorem pendingBuckets_eq (snap : Snapshot) :
    pendingBuckets snap =
      (firstKeys ((pendingPodsOf snap).map (podCategory snap))).map fun k =>
        (k, (pendingGroup snap k).map (podEntry snap)) := by
  rw [pendingBuckets_eq_bucketsOf, bucketsOf_eq]
  simp only [List.map_map, pendingGroup]
  have hkeys : (Prod.fst ∘ fun p => (podCategory snap p, podEntry snap p)) = podCategory snap := by
    funext p; rfl
  rw [hkeys]
  apply List.map_congr_left
  intro k _
  congr 1
  rw [List.filter_map, List.map_map]
  rfl

theorem string_append_left_cancel (p a b : String) (h : p ++ a = p ++ b) : a = b := by
  have h' := congrArg String.data h
  simp only [String.data_append, List.append_cancel_left_eq] at h'
  exact String.ext h'

theorem sum_indicator (x : String) :
    ∀ ks : List String, ks.Nodup → x ∈ ks →
      (ks.map fun k => if x = k then 1 else 0).sum = 1 := by
  intro ks
  induction ks with
  | nil => intro _ h; simp at h
  | cons k ks ih =>
    intro hnd h
    rw [List.nodup_cons] at hnd
    by_cases hx : x = k
    · subst hx
      have hz : (ks.map fun k => if x = k then 1 else 0).sum = 0 := by
        apply List.sum_eq_zero
        intro n hn
        obtain ⟨y, hy, rfl⟩ := List.mem_map.1 hn
        have : ¬ x = y := fun e => hnd.1 (e ▸ hy)
        rw [if_neg this]
      simp [hz]
    · have hk : x ∈ ks := by
        rcases List.mem_cons.1 h with h | h
        · exact absurd h hx
        · exact h
      simp [hx, ih hnd.2 hk]

theorem sum_group_lengths {α : Type} (f : α → String) (ks : List String) (hnd : ks.Nodup) :
    ∀ l : List α, (∀ a ∈ l, f a ∈ ks) →
      (ks.map fun k => (l.filter fun a => f a = k).length).sum = l.length := by
  intro l
  induction l with
  | nil => intro _; simp
  | cons a l ih =>
    intro h
    have hstep : (fun k => ((a :: l).filter fun b => f b = k).length) =
        fun k => (l.filter fun b => f b = k).length + if f a = k then 1 else 0 := by
      funext k
      by_cases hk : f a = k <;> simp [List.filter_cons, hk]
    rw [hstep, List.sum_map_add, ih fun b hb => h b (List.mem_cons_of_mem _ hb),
      sum_indicator (f a) ks hnd (h a (List.mem_cons_self _ _)), List.length_cons]

theorem pendingPods_evaluate_eq (rt : Runtime) (snap : Snapshot) :
    PendingPodsRule.Evaluate rt snap =
      (rt.rangeOrder (pendingBuckets snap)).map fun e => pendingFinding rt snap e.1 e.2 := by
  unfold PendingPodsRule.Evaluate
  by_cases h0 : (pendingBuckets snap).length = 0
  · have hnil : pendingBuckets snap = [] := List.length_eq_zero.1 h0
    have hr : rt.rangeOrder (pendingBuckets snap) = [] := by
      have := rt.rangeOrder_perm (pendingBuckets snap)
      rw [hnil] at this
      rw [hnil]
      exact List.Perm.eq_nil this
    simp only [h0, if_true, hr, List.map_nil]
  · simp only [h0, if_false]
    rw [foldl_append_eq_flatten]
    simp only [List.nil_append]
    induction rt.rangeOrder (pendingBuckets snap) with
    | nil => rfl
    | cons e l ih => simp [ih]

theorem pendingPods_evaluate_perm (rt : Runtime) (snap : Snapshot) :
    (PendingPodsRule.Evaluate rt snap).Perm
      ((firstKeys ((pendingPodsOf snap).map (podCategory snap))).map fun k =>
        pendingFinding rt snap k ((pendingGroup snap k).map (podEntry snap))) := by
  rw [pendingPods_evaluate_eq]
  have h := (rt.rangeOrder_perm (pendingBuckets snap)).map
    fun e => pendingFinding rt snap e.1 e.2
  refine h.trans ?_
  rw [pendingBuckets_eq, List.map_map]
  exact List.Perm.refl _

theorem resourceEvidence_pendingFinding (rt : Runtime) (snap : Snapshot) (k : String)
    (l : List PodInfo) :
    resourceEvidence (pendingFinding rt snap k (l.map (podEntry snap))) =
      l.map (pendingResourceItem k) := by
  unfold resourceEvidence pendingFinding
  simp only
  rw [foldl_append_eq_flatten, List.nil_append]
  induction l with
  | nil => rfl
  | cons p l ih =>
    simp only [List.map_cons, List.flatten_cons, List.filter_append, ih]
    have hev : ((pendingPodEvidence k (podEntry snap p)).filter
        fun e => decide (e.Type_ = EvidenceResource)) = [pendingResourceItem k p] := by
      unfold pendingPodEvidence
      rw [List.filter_cons]
      have hnil : ((podEntry snap p).events.map fun ev =>
          ({ Type_ := EvidenceEvent, Ref := ev.InvolvedObject, Message := ev.Message,
             Data := [("reason", ev.Reason), ("count", toString ev.Count)] } : Evidence)).filter
            (fun e => decide (e.Type_ = EvidenceResource)) = [] := by
        rw [List.filter_eq_nil_iff]
        intro e he
        obtain ⟨ev, _, rfl⟩ := List.mem_map.1 he
        have hne : ¬ EvidenceEvent = EvidenceResource := by decide
        simpa using hne
      rw [hnil]
      simp [pendingResourceItem, podEntry]
    rw [hev]
    rfl

theorem foldl_nil_iff {σ α β : Type} (ev : σ → List β) (step : σ → α → σ) (good : α → Prop)
    (h : ∀ s a, ev (step s a) = [] ↔ ev s = [] ∧ good a) :
    ∀ (l : List α) (s : σ), ev (l.foldl step s) = [] ↔ ev s = [] ∧ ∀ a ∈ l, good a := by
  intro l
  induction l with
  | nil => intro s; simp
  | cons a l ih =>
    intro s
    rw [List.foldl_cons, ih, h]
    constructor
    · rintro ⟨⟨h1, h2⟩, h3⟩
      exact ⟨h1, fun b hb => by
        rcases List.mem_cons.1 hb with rfl | hb
        · exact h2
        · exact h3 b hb⟩
    · rintro ⟨h1, h2⟩
      exact ⟨⟨h1, h2 a (List.mem_cons_self _ _)⟩, fun b hb => h2 b (List.mem_cons_of_mem _ hb)⟩

theorem scanContainer_eq (pod : PodInfo) (st : dnsScan) (c : ContainerInfo) :
    scanContainer pod st c =
      if isCrashLooping c then
        { st with
          crashlooping := st.crashlooping + 1,
          evidence := st.evidence ++
            [{ Type_ := EvidenceResource, Ref := "pod/" ++ pod.Namespace ++ "/" ++ pod.Name,
               Message := "Container " ++ c.Name ++ " is in CrashLoopBackOff",
               Data := [("container", c.Name), ("restartCount", toString c.RestartCount)] }] }
      else if isHighRestart c then
        { st with
          highRestarts := st.highRestarts + 1,
          evidence := st.evidence ++
            [{ Type_ := EvidenceResource, Ref := "pod/" ++ pod.Namespace ++ "/" ++ pod.Name,
               Message := "Container " ++ c.Name ++ " has " ++ toString c.RestartCount ++
                 " restarts",
               Data := [("container", c.Name), ("restartCount", toString c.RestartCount)] }] }
      else st := by
  unfold scanContainer isHighRestart
  have hcrash : (match c.State.Waiting with
      | some w => decide (w.Reason = "CrashLoopBackOff")
      | none => false) = isCrashLooping c := rfl
  rw [hcrash]
  by_cases h1 : isCrashLooping c = true
  · simp only [h1, if_true]
  · simp only [h1, if_false, Bool.not_eq_true] at *
    by_cases h2 : restartThreshold ≤ c.RestartCount
    · simp [h1, h2]
    · simp [h1, h2]

theorem scanContainer_nil_iff (pod : PodInfo) (st : dnsScan) (c : ContainerInfo) :
    (scanContainer pod st c).evidence = [] ↔
      st.evidence = [] ∧ (isCrashLooping c = false ∧ c.RestartCount < restartThreshold) := by
  rw [scanContainer_eq]
  by_cases h1 : isCrashLooping c = true
  · simp [h1]
  · simp only [Bool.not_eq_true] at h1
    by_cases h2 : restartThreshold ≤ c.RestartCount
    · have : ¬ c.RestartCount < restartThreshold := not_lt.2 h2
      simp [isHighRestart, h1, h2, this]
    · have : c.RestartCount < restartThreshold := not_le.1 h2
      simp [isHighRestart, h1, h2, this]

theorem scanPod_nil_iff (st : dnsScan) (pod : PodInfo) :
    (scanPod st pod).evidence = [] ↔ st.evidence = [] ∧ dnsPodHealthy pod := by
  have h := foldl_nil_iff (fun s : dnsScan => s.evidence) (scanContainer pod)
    (fun c => isCrashLooping c = false ∧ c.RestartCount < restartThreshold)
    (fun s c => scanContainer_nil_iff pod s c) pod.Containers st
  unfold scanPod dnsPodHealthy
  by_cases hp : pod.Phase = PodRunning
  · have hp' : ¬ pod.Phase ≠ PodRunning := fun hne => hne hp
    rw [if_neg hp', h]
    simp only [hp, true_and]
  · have hp' : pod.Phase ≠ PodRunning := hp
    simp [if_pos hp', hp]

theorem scanPods_nil_iff (pods : List PodInfo) :
    (pods.foldl scanPod { evidence := [], crashlooping := 0, highRestarts := 0 }).evidence = [] ↔
      ∀ p ∈ pods, dnsPodHealthy p := by
  rw [foldl_nil_iff (fun s : dnsScan => s.evidence) scanPod dnsPodHealthy scanPod_nil_iff]
  simp

theorem scanContainers_counts (pod : PodInfo) (cs : List ContainerInfo) :
    ∀ st : dnsScan,
      (cs.foldl (scanContainer pod) st).crashlooping =
          st.crashlooping + (cs.countP isCrashLooping : Nat) ∧
        (cs.foldl (scanContainer pod) st).highRestarts =
          st.highRestarts + (cs.countP isHighRestart : Nat) := by
  induction cs with
  | nil => intro st; simp
  | cons c cs ih =>
    intro st
    rw [List.foldl_cons, (ih _).1, (ih _).2, scanContainer_eq, List.countP_cons,
      List.countP_cons]
    cases h1 : isCrashLooping c
    · cases h2 : isHighRestart c
      · simp
      · simp only [Bool.false_eq_true, if_false, if_true, Nat.cast_add, Nat.cast_one,
          Nat.cast_zero, add_zero]
        exact ⟨trivial, by ring⟩
    · have h2 : isHighRestart c = false := by simp [isHighRestart, h1]
      simp only [h2, Bool.false_eq_true, if_false, if_true, Nat.cast_add, Nat.cast_one,
        Nat.cast_zero, add_zero]
      exact ⟨by ring, trivial⟩

theorem scanPod_counts (st : dnsScan) (pod : PodInfo) :
    (scanPod st pod).crashlooping =
        st.crashlooping + (pod.Containers.countP isCrashLooping : Nat) ∧
      (scanPod st pod).highRestarts =
        st.highRestarts + (pod.Containers.countP isHighRestart : Nat) := by
  have h := scanContainers_counts pod pod.Containers st
  unfold scanPod
  split_ifs
  · exact h
  · exact h

theorem scanPods_counts (pods : List PodInfo) :
    ∀ st : dnsScan,
      (pods.foldl scanPod st).crashlooping = st.crashlooping + (crashCount pods : Nat) ∧
        (pods.foldl scanPod st).highRestarts =
          st.highRestarts + (highRestartCount pods : Nat) := by
  induction pods with
  | nil => intro st; simp [crashCount, highRestartCount]
  | cons p pods ih =>
    intro st
    rw [List.foldl_cons, (ih _).1, (ih _).2, (scanPod_counts st p).1, (scanPod_counts st p).2]
    simp only [crashCount, highRestartCount, List.map_cons, List.sum_cons] at *
    constructor <;> push_cast <;> ring

theorem dns_evaluate_nil (rt : Runtime) (snap : Snapshot)
    (h : findCoreDNSPods snap = [] ∨ dnsEvidence snap (findCoreDNSPods snap) = []) :
    DNSRule.Evaluate rt snap = [] := by
  by_cases hp : (findCoreDNSPods snap).length = 0
  · simp only [DNSRule.Evaluate, if_pos hp]
  · have he : dnsEvidence snap (findCoreDNSPods snap) = [] := by
      rcases h with h | h
      · rw [h] at hp
        exact absurd rfl hp
      · exact h
    have he' : ((List.foldl scanPod { evidence := [], crashlooping := 0, highRestarts := 0 }
        (findCoreDNSPods snap)).evidence ++
          (findDNSEvents snap.Events (findCoreDNSPods snap)).map dnsEventEvidence ++
          findDNSLogPatternEvidence snap.Events).length = 0 := by
      rw [List.length_eq_zero]
      exact he
    simp only [DNSRule.Evaluate, if_neg hp, if_pos he']

theorem dns_evaluate_single (rt : Runtime) (snap : Snapshot)
    (hp : findCoreDNSPods snap ≠ []) (he : dnsEvidence snap (findCoreDNSPods snap) ≠ []) :
    ∃ f, DNSRule.Evaluate rt snap = [f] ∧ f.ID = "dns-instability" ∧ f.Category = "dns" ∧
      f.Severity =
        dnsSeverity (crashCount (findCoreDNSPods snap)) (highRestartCount (findCoreDNSPods snap))
          (findCoreDNSPods snap).length ∧
      f.Confidence =
        dnsConfidence (crashCount (findCoreDNSPods snap))
          (highRestartCount (findCoreDNSPods snap))
          (findDNSEvents snap.Events (findCoreDNSPods snap)).length
          (findDNSLogPatternEvidence snap.Events).length ∧
      f.Evidence = dnsEvidence snap (findCoreDNSPods snap) := by
  have hp' : ¬ (findCoreDNSPods snap).length = 0 := fun h => hp (List.length_eq_zero.1 h)
  have he' : ¬ ((List.foldl scanPod { evidence := [], crashlooping := 0, highRestarts := 0 }
      (findCoreDNSPods snap)).evidence ++
        (findDNSEvents snap.Events (findCoreDNSPods snap)).map dnsEventEvidence ++
        findDNSLogPatternEvidence snap.Events).length = 0 :=
    fun h => he (List.length_eq_zero.1 h)
  have hc := scanPods_counts (findCoreDNSPods snap)
    { evidence := [], crashlooping := 0, highRestarts := 0 }
  simp only [zero_add] at hc
  simp only [DNSRule.Evaluate, if_neg hp', if_neg he']
  refine ⟨_, rfl, rfl, rfl, ?_, ?_, rfl⟩
  · simp only [hc.1, hc.2]
  · simp only [hc.1, hc.2]

theorem dnsEvidence_nil_iff (snap : Snapshot) (pods : List PodInfo) :
    dnsEvidence snap pods = [] ↔
      (∀ p ∈ pods, dnsPodHealthy p) ∧ findDNSEvents snap.Events pods = [] ∧
        findDNSLogPatternEvidence snap.Events = [] := by
  unfold dnsEvidence
  rw [List.append_eq_nil, List.append_eq_nil, scanPods_nil_iff, List.map_eq_nil_iff, and_assoc]

theorem length_le_sum_map {α : Type} (g : α → Nat) :
    ∀ l : List α, (∀ a ∈ l, 1 ≤ g a) → l.length ≤ (l.map g).sum := by
  intro l
  induction l with
  | nil => intro _; simp
  | cons a l ih =>
    intro h
    have h1 := h a (List.mem_cons_self _ _)
    have h2 := ih fun b hb => h b (List.mem_cons_of_mem _ hb)
    simp only [List.length_cons, List.map_cons, List.sum_cons]
    omega

theorem le_sum_map_of_mem {α : Type} (g : α → Nat) :
    ∀ (l : List α) (a : α), a ∈ l → g a ≤ (l.map g).sum := by
  intro l
  induction l with
  | nil => intro a h; simp at h
  | cons b l ih =>
    intro a h
    simp only [List.map_cons, List.sum_cons]
    rcases List.mem_cons.1 h with rfl | h
    · omega
    · have := ih a h
      omega

theorem crashCount_pos (pods : List PodInfo) (p : PodInfo) (c : ContainerInfo)
    (hp : p ∈ pods) (hc : c ∈ p.Containers) (h : isCrashLooping c = true) :
    0 < crashCount pods := by
  have h1 : 0 < p.Containers.countP isCrashLooping := List.countP_pos_iff.2 ⟨c, hc, h⟩
  have h2 := le_sum_map_of_mem (fun p : PodInfo => p.Containers.countP isCrashLooping) pods p hp
  exact lt_of_lt_of_le h1 h2

theorem highRestartCount_pos (pods : List PodInfo) (p : PodInfo) (c : ContainerInfo)
    (hp : p ∈ pods) (hc : c ∈ p.Containers) (h : isHighRestart c = true) :
    0 < highRestartCount pods := by
  have h1 : 0 < p.Containers.countP isHighRestart := List.countP_pos_iff.2 ⟨c, hc, h⟩
  have h2 := le_sum_map_of_mem (fun p : PodInfo => p.Containers.countP isHighRestart) pods p hp
  exact lt_of_lt_of_le h1 h2

theorem crashCount_eq_zero (pods : List PodInfo)
    (h : ∀ p ∈ pods, ∀ c ∈ p.Containers, isCrashLooping c = false) : crashCount pods = 0 := by
  unfold crashCount
  apply List.sum_eq_zero
  intro n hn
  obtain ⟨p, hp, rfl⟩ := List.mem_map.1 hn
  rw [List.countP_eq_zero]
  intro c hc
  rw [h p hp c hc]
  exact Bool.false_ne_true

theorem dnsSeverity_table (k h n : Nat) (hn : 1 ≤ n) :
    (n ≤ k → dnsSeverity k h n = "critical") ∧
      (0 < k → k < n → dnsSeverity k h n = "high") ∧
      (k = 0 → 0 < h → dnsSeverity k h n = "medium") ∧
      (k = 0 → h = 0 → dnsSeverity k h n = "low") := by
  unfold dnsSeverity
  refine ⟨fun h1 => ?_, fun h1 h2 => ?_, fun h1 h2 => ?_, fun h1 h2 => ?_⟩
  · have : (k : Int) > 0 ∧ (k : Int) ≥ (n : Int) := by constructor <;> omega
    rw [if_pos this]; rfl
  · have h3 : ¬ ((k : Int) > 0 ∧ (k : Int) ≥ (n : Int)) := by omega
    have h4 : (k : Int) > 0 := by omega
    rw [if_neg h3, if_pos h4]; rfl
  · have h3 : ¬ ((k : Int) > 0 ∧ (k : Int) ≥ (n : Int)) := by omega
    have h4 : ¬ (k : Int) > 0 := by omega
    have h5 : (h : Int) > 0 := by omega
    rw [if_neg h3, if_neg h4, if_pos h5]; rfl
  · have h3 : ¬ ((k : Int) > 0 ∧ (k : Int) ≥ (n : Int)) := by omega
    have h4 : ¬ (k : Int) > 0 := by omega
    have h5 : ¬ (h : Int) > 0 := by omega
    rw [if_neg h3, if_neg h4, if_neg h5]; rfl

theorem scanContainer_evidence_crash (pod : PodInfo) (c : ContainerInfo)
    (hc : isCrashLooping c = true) (st : dnsScan) :
    ∃ e ∈ (scanContainer pod st c).evidence, isRestartEvidence pod c e := by
  rw [scanContainer_eq, if_pos hc]
  exact ⟨_, List.mem_append_right _ (List.mem_singleton_self _), rfl, rfl, rfl⟩

theorem scanPod_evidence_crash (pod : PodInfo) (c : ContainerInfo) (hmem : c ∈ pod.Containers)
    (hc : isCrashLooping c = true) (st : dnsScan) :
    ∃ e ∈ (scanPod st pod).evidence, isRestartEvidence pod c e := by
  obtain ⟨e, he, hP⟩ := foldl_mem_of_step (fun s : dnsScan => s.evidence) (scanContainer pod)
    (fun s a => scanContainer_evidence_sub pod s a) c (isRestartEvidence pod c)
    (fun s => scanContainer_evidence_crash pod c hc s) pod.Containers st hmem
  refine ⟨e, ?_, hP⟩
  unfold scanPod
  split_ifs
  · exact List.mem_append_left _ he
  · exact he

theorem dnsEvidence_crash (snap : Snapshot) (pods : List PodInfo) (p : PodInfo)
    (c : ContainerInfo) (hp : p ∈ pods) (hmem : c ∈ p.Containers)
    (hc : isCrashLooping c = true) :
    ∃ e ∈ dnsEvidence snap pods, isRestartEvidence p c e := by
  obtain ⟨e, he, hP⟩ := foldl_mem_of_step (fun s : dnsScan => s.evidence) scanPod
    scanPod_evidence_sub p (isRestartEvidence p c)
    (fun s => scanPod_evidence_crash p c hmem hc s) pods
    { evidence := [], crashlooping := 0, highRestarts := 0 } hp
  exact ⟨e, List.mem_append_left _ (List.mem_append_left _ he), hP⟩

theorem mem_findDNSEvents (events : List EventInfo) (pods : List PodInfo) (ev : EventInfo) :
    ev ∈ findDNSEvents events pods ↔
      ev ∈ events ∧ (∃ p ∈ pods, ev.InvolvedObject = "Pod/" ++ p.Namespace ++ "/" ++ p.Name) ∧
        ∃ reason ∈ dnsEventReasons, strings.EqualFold ev.Reason reason = true := by
  unfold findDNSEvents
  simp only [List.mem_filter, Bool.and_eq_true, decide_eq_true_eq, List.mem_map,
    any_eq_true_iff_exists]
  constructor
  · rintro ⟨h1, ⟨p, hp, hobj⟩, h3⟩
    exact ⟨h1, ⟨p, hp, hobj.symm⟩, h3⟩
  · rintro ⟨h1, ⟨p, hp, hobj⟩, h3⟩
    exact ⟨h1, ⟨p, hp, hobj.symm⟩, h3⟩

theorem storageEventsLoop_eq (evs : List EventInfo) :
    ∀ (seen : List String) (matched : List EventInfo),
      storageEventsLoop seen matched evs =
        matched ++ freshItems storageEventKey seen (evs.filter isStorageEvent) := by
  induction evs with
  | nil => intro seen matched; simp [storageEventsLoop, freshItems]
  | cons ev evs ih =>
    intro seen matched
    have hkey : ev.Namespace ++ "/" ++ ev.Name = storageEventKey ev := rfl
    by_cases hs : isStorageEvent ev = true
    · by_cases hk : storageEventKey ev ∈ seen
      · simp only [storageEventsLoop, hkey, hk, if_true, ih, List.filter_cons, hs, freshItems]
      · simp only [storageEventsLoop, hkey, hk, if_false, hs, if_true, ih, List.filter_cons,
          freshItems, List.append_assoc, List.singleton_append]
    · by_cases hk : storageEventKey ev ∈ seen
      · simp only [storageEventsLoop, hkey, hk, if_true, ih, List.filter_cons, hs, if_false,
          Bool.false_eq_true]
      · simp only [storageEventsLoop, hkey, hk, if_false, hs, ih, List.filter_cons,
          Bool.false_eq_true]

theorem findStorageEvents_eq (events : List EventInfo) :
    findStorageEvents events = freshItems storageEventKey [] (events.filter isStorageEvent) := by
  unfold findStorageEvents
  rw [storageEventsLoop_eq, List.nil_append]

theorem scanPVCs_spec (pvcs : List PVCInfo) :
    ∀ st : storageScan,
      (pvcs.foldl scanPVC st).pendingPVCs =
          st.pendingPVCs + (pvcs.countP fun pvc => pvc.Phase = ClaimPending : Nat) ∧
        (pvcs.foldl scanPVC st).evidence.map evidenceTypeRef =
          st.evidence.map evidenceTypeRef ++
            (pvcs.filter fun pvc => pvc.Phase = ClaimPending).map fun pvc =>
              ("resource", "pvc/" ++ pvc.Namespace ++ "/" ++ pvc.Name) := by
  induction pvcs with
  | nil => intro st; simp
  | cons pvc pvcs ih =>
    intro st
    rw [List.foldl_cons, (ih _).1, (ih _).2]
    by_cases hp : pvc.Phase = ClaimPending
    · simp only [scanPVC, if_pos hp, List.countP_cons, hp, decide_True, if_true,
        List.filter_cons, List.map_append, List.map_cons, List.map_nil, List.append_assoc,
        List.singleton_append, Nat.cast_add, Nat.cast_one]
      exact ⟨by ring, rfl⟩
    · simp only [scanPVC, if_neg hp, List.countP_cons, hp, decide_False, Bool.false_eq_true,
        if_false, List.filter_cons, add_zero, and_self]

theorem scanPVs_spec (pvs : List PVInfo) :
    ∀ evidence : List Evidence,
      (pvs.foldl scanPV evidence).map evidenceTypeRef =
        evidence.map evidenceTypeRef ++
          (pvs.filter fun pv => pv.Phase = VolumeFailed).map fun pv =>
            ("resource", "pv/" ++ pv.Name) := by
  induction pvs with
  | nil => intro evidence; simp
  | cons pv pvs ih =>
    intro evidence
    rw [List.foldl_cons, ih]
    by_cases hp : pv.Phase = VolumeFailed
    · simp only [scanPV, if_pos hp, hp, decide_True, List.filter_cons, if_true,
        List.map_append, List.map_cons, List.map_nil, List.append_assoc, List.singleton_append]
      rfl
    · simp only [scanPV, if_neg hp, hp, decide_False, List.filter_cons, Bool.false_eq_true,
        if_false]

theorem storage_evaluate_cases (rt : Runtime) (snap : Snapshot) :
    (StorageRule.Evaluate rt snap = [] ∧
        (snap.PVCs.filter fun pvc => pvc.Phase = ClaimPending) = [] ∧ failedPVs snap = [] ∧
        findStorageEvents snap.Events = []) ∨
      ∃ f, StorageRule.Evaluate rt snap = [f] ∧ f.ID = "storage-issue" ∧
        f.Category = "storage" ∧
        f.Severity = storageSeverity (pendingPVCCount snap) (findStorageEvents snap.Events).length ∧
        f.Confidence =
          storageConfidence (pendingPVCCount snap) (findStorageEvents snap.Events).length ∧
        f.Evidence.map evidenceTypeRef =
          ((snap.PVCs.filter fun pvc => pvc.Phase = ClaimPending).map fun pvc =>
              ("resource", "pvc/" ++ pvc.Namespace ++ "/" ++ pvc.Name)) ++
            ((failedPVs snap).map fun pv => ("resource", "pv/" ++ pv.Name)) ++
            (findStorageEvents snap.Events).map fun ev => ("event", ev.InvolvedObject) := by
  have h1 := scanPVCs_spec snap.PVCs { evidence := [], pendingPVCs := 0 }
  have h2 := scanPVs_spec snap.PVs
    (snap.PVCs.foldl scanPVC { evidence := [], pendingPVCs := 0 }).evidence
  simp only [zero_add, List.map_nil, List.nil_append] at h1
  rw [h1.2] at h2
  have h3 : ((snap.PVs.foldl scanPV
        (snap.PVCs.foldl scanPVC { evidence := [], pendingPVCs := 0 }).evidence) ++
        (findStorageEvents snap.Events).map storageEventEvidence).map evidenceTypeRef =
      ((snap.PVCs.filter fun pvc => pvc.Phase = ClaimPending).map fun pvc =>
          ("resource", "pvc/" ++ pvc.Namespace ++ "/" ++ pvc.Name)) ++
        ((failedPVs snap).map fun pv => ("resource", "pv/" ++ pv.Name)) ++
        (findStorageEvents snap.Events).map fun ev => ("event", ev.InvolvedObject) := by
    rw [List.map_append, h2, List.map_map]
    rfl
  by_cases he : ((snap.PVs.foldl scanPV
        (snap.PVCs.foldl scanPVC { evidence := [], pendingPVCs := 0 }).evidence) ++
        (findStorageEvents snap.Events).map storageEventEvidence).length = 0
  · left
    refine ⟨by simp only [StorageRule.Evaluate, if_pos he], ?_⟩
    rw [List.length_eq_zero] at he
    rw [he] at h3
    have h4 := h3.symm
    simp only [List.map_nil, List.append_eq_nil, List.map_eq_nil_iff] at h4
    exact ⟨h4.1.1, h4.1.2, h4.2⟩
  · right
    simp only [StorageRule.Evaluate, if_neg he]
    refine ⟨_, rfl, rfl, rfl, ?_, ?_, h3⟩
    · simp only [h1.1, pendingPVCCount]
    · simp only [h1.1, pendingPVCCount]

theorem goBytes_length (s : String) : (goBytes s).length = s.utf8ByteSize := by
  obtain ⟨cs⟩ := s
  simp only [goBytes, String.utf8ByteSize_mk]
  induction cs with
  | nil => rfl
  | cons c cs ih =>
    simp only [List.flatMap_cons, List.length_append, String.length_utf8EncodeChar, ih,
      String.utf8Len_cons]
    omega

theorem goBytes_append (a b : String) : goBytes (a ++ b) = goBytes a ++ goBytes b := by
  simp [goBytes, String.data_append, List.flatMap_append]

theorem goBytes_dots : (goBytes "...").length = 3 := by
  rw [goBytes_length]
  rfl

theorem bytePrefix_bytes (cs : List Char) :
    ∀ n : Nat, goBytes (String.mk (bytePrefix n cs)) <+: (goBytes (String.mk cs)).take n := by
  induction cs with
  | nil => intro n; simp [bytePrefix, goBytes]
  | cons c cs ih =>
    intro n
    by_cases h : c.utf8Size ≤ n
    · have hlen : (String.utf8EncodeChar c).length ≤ n := by
        rw [String.length_utf8EncodeChar]; exact h
      simp only [bytePrefix, if_pos h, goBytes, List.flatMap_cons]
      rw [List.take_append_eq_append_take, List.take_of_length_le hlen,
        String.length_utf8EncodeChar]
      exact (List.prefix_append_right_inj _).2 (ih (n - c.utf8Size))
    · simp only [bytePrefix, if_neg h, goBytes, List.flatMap_nil]
      exact List.nil_prefix

theorem sliceTo_some (s : List UInt8) (n : Nat) (h : n ≤ s.length) :
    sliceTo s n = some (s.take n) := by
  unfold sliceTo
  have : (0 : Int) ≤ (n : Int) ∧ (n : Int) ≤ (s.length : Int) := ⟨by omega, by omega⟩
  rw [if_pos this]
  simp

theorem truncateBytes_eq (s : List UInt8) (max : Nat) (h3 : 3 ≤ max) :
    truncateBytes s max =
      some (if s.length ≤ max then s else s.take (max - 3) ++ goBytes "...") := by
  unfold truncateBytes
  by_cases h : s.length ≤ max
  · have h' : (s.length : Int) ≤ (max : Int) := by omega
    rw [if_pos h', if_pos h]
  · have h' : ¬ (s.length : Int) ≤ (max : Int) := by omega
    have hcast : ((max : Nat) : Int) - 3 = ((max - 3 : Nat) : Int) := by omega
    rw [if_neg h', if_neg h, hcast, sliceTo_some s (max - 3) (by omega)]
    rfl

theorem truncate_bytes (s : String) (max : Nat) (h3 : 3 ≤ max) :
    (s.utf8ByteSize ≤ max →
        truncate s max = s ∧ truncateBytes (goBytes s) max = some (goBytes s)) ∧
      (max < s.utf8ByteSize →
        truncateBytes (goBytes s) max =
            some ((goBytes s).take (max - 3) ++ goBytes "...") ∧
          ∃ t, goBytes (truncate s max) = t ++ goBytes "..." ∧
            t <+: (goBytes s).take (max - 3)) := by
  constructor
  · intro h
    have hl : (goBytes s).length ≤ max := by rw [goBytes_length]; exact h
    refine ⟨by simp only [truncate, if_pos h], ?_⟩
    rw [truncateBytes_eq _ _ h3, if_pos hl]
  · intro h
    have hl : ¬ (goBytes s).length ≤ max := by rw [goBytes_length]; omega
    have hs : ¬ s.utf8ByteSize ≤ max := by omega
    refine ⟨by rw [truncateBytes_eq _ _ h3, if_neg hl], ?_⟩
    refine ⟨goBytes (String.mk (bytePrefix (max - 3) s.data)), ?_, bytePrefix_bytes s.data _⟩
    simp only [truncate, if_neg hs, goBytes_append]

theorem truncate_size (s : String) (max : Nat) (h3 : 3 ≤ max) :
    (truncate s max).utf8ByteSize ≤ max := by
  by_cases h : s.utf8ByteSize ≤ max
  · simp only [truncate, if_pos h]; exact h
  · obtain ⟨_, t, ht, hpre⟩ := (truncate_bytes s max h3).2 (by omega)
    have h1 := congrArg List.length ht
    rw [goBytes_length, List.length_append, goBytes_dots] at h1
    have h2 := hpre.length_le
    rw [List.length_take] at h2
    omega

theorem truncateStorage_eq_truncate (s : String) (max : Nat) :
    truncateStorage s max = truncate s max := rfl

theorem truncateStorageBytes_eq_truncateBytes (s : List UInt8) (max : Int) :
    truncateStorageBytes s max = truncateBytes s max := rfl

theorem foldl_all_preserved {σ α β : Type} (ev : σ → List β) (step : σ → α → σ)
    (P : β → Prop) (h : ∀ s a, (∀ e ∈ ev s, P e) → ∀ e ∈ ev (step s a), P e) :
    ∀ (l : List α) (s : σ), (∀ e ∈ ev s, P e) → ∀ e ∈ ev (l.foldl step s), P e := by
  intro l
  induction l with
  | nil => intro s hs; exact hs
  | cons a l ih => intro s hs; exact ih (step s a) (h s a hs)

theorem scanContainer_resource (pod : PodInfo) (st : dnsScan) (c : ContainerInfo)
    (h : ∀ e ∈ st.evidence, e.Type_ = EvidenceResource) :
    ∀ e ∈ (scanContainer pod st c).evidence, e.Type_ = EvidenceResource := by
  intro e he
  rw [scanContainer_eq] at he
  split_ifs at he
  · rcases List.mem_append.1 he with h1 | h1
    · exact h e h1
    · rw [List.mem_singleton.1 h1]
  · rcases List.mem_append.1 he with h1 | h1
    · exact h e h1
    · rw [List.mem_singleton.1 h1]
  · exact h e he

theorem scanPod_resource (st : dnsScan) (pod : PodInfo)
    (h : ∀ e ∈ st.evidence, e.Type_ = EvidenceResource) :
    ∀ e ∈ (scanPod st pod).evidence, e.Type_ = EvidenceResource := by
  have h1 := foldl_all_preserved (fun s : dnsScan => s.evidence) (scanContainer pod)
    (fun e => e.Type_ = EvidenceResource) (fun s c => scanContainer_resource pod s c)
    pod.Containers st h
  intro e he
  unfold scanPod at he
  split_ifs at he
  · rcases List.mem_append.1 he with h2 | h2
    · exact h1 e h2
    · rw [List.mem_singleton.1 h2]
  · exact h1 e he

theorem dnsEvidence_source (snap : Snapshot) (pods : List PodInfo) :
    ∀ e ∈ dnsEvidence snap pods,
      e.Type_ = EvidenceResource ∨
        ∃ ev ∈ snap.Events, e.Message = truncate ev.Message maxLogLineLen := by
  intro e he
  unfold dnsEvidence at he
  rcases List.mem_append.1 he with h1 | h1
  · rcases List.mem_append.1 h1 with h2 | h2
    · left
      exact foldl_all_preserved (fun s : dnsScan => s.evidence) scanPod
        (fun e => e.Type_ = EvidenceResource) scanPod_resource pods
        { evidence := [], crashlooping := 0, highRestarts := 0 }
        (fun e he => absurd he (List.not_mem_nil _)) e h2
    · right
      obtain ⟨ev, hev, rfl⟩ := List.mem_map.1 h2
      exact ⟨ev, ((mem_findDNSEvents _ _ _).1 hev).1, rfl⟩
  · right
    unfold findDNSLogPatternEvidence at h1
    obtain ⟨ev, hev, hsome⟩ := List.mem_filterMap.1 h1
    refine ⟨ev, hev, ?_⟩
    split_ifs at hsome
    obtain ⟨pattern, _, hp⟩ := Option.map_eq_some'.1 hsome
    rw [← hp]

theorem storage_evidence_source (rt : Runtime) (snap : Snapshot) :
    ∀ f ∈ StorageRule.Evaluate rt snap, ∀ e ∈ f.Evidence,
      e.Type_ = EvidenceResource ∨
        ∃ ev ∈ snap.Events, e.Message = truncateStorage ev.Message maxLogLineLen := by
  intro f hf e he
  have h1 := scanPVCs_spec snap.PVCs { evidence := [], pendingPVCs := 0 }
  have h2 := scanPVs_spec snap.PVs
    (snap.PVCs.foldl scanPVC { evidence := [], pendingPVCs := 0 }).evidence
  simp only [List.map_nil, List.nil_append] at h1
  rw [h1.2] at h2
  simp only [StorageRule.Evaluate] at hf
  split_ifs at hf
  · exact absurd hf (List.not_mem_nil _)
  · rw [List.mem_singleton] at hf
    subst hf
    simp only at he
    rcases List.mem_append.1 he with h3 | h3
    · left
      have h4 : evidenceTypeRef e ∈ (snap.PVs.foldl scanPV
          (snap.PVCs.foldl scanPVC { evidence := [], pendingPVCs := 0 }).evidence).map
            evidenceTypeRef := List.mem_map.2 ⟨e, h3, rfl⟩
      rw [h2] at h4
      rcases List.mem_append.1 h4 with h5 | h5
      · obtain ⟨pvc, _, hpvc⟩ := List.mem_map.1 h5
        exact (congrArg Prod.fst hpvc).symm
      · obtain ⟨pv, _, hpv⟩ := List.mem_map.1 h5
        exact (congrArg Prod.fst hpv).symm
    · right
      obtain ⟨ev, hev, rfl⟩ := List.mem_map.1 h3
      rw [findStorageEvents_eq] at hev
      exact ⟨ev, (List.mem_filter.1 (mem_freshItems _ _ _ _ hev).1).1, rfl⟩

theorem round2_one : round2 1 = 1 := by
  unfold round2
  norm_num

theorem roundThenClamp_eq (x : ℚ) : roundThenClamp x = min 1 (round2 x) := by
  unfold roundThenClamp
  simp only [mathRound_div_eq_round2]
  by_cases h : round2 x > 1
  · rw [if_pos h, min_eq_left (le_of_lt h)]
  · rw [if_neg h, min_eq_right (not_lt.1 h)]

theorem clampThenRound_eq (x : ℚ) : clampThenRound x = round2 (min 1 x) := by
  unfold clampThenRound
  rw [mathRound_div_eq_round2]
  by_cases h : x > 1
  · rw [if_pos h, min_eq_left (le_of_lt h)]
  · rw [if_neg h, min_eq_right (not_lt.1 h)]

theorem round_clamp_commute (x : ℚ) : min 1 (round2 x) = round2 (min 1 x) := by
  by_cases h : 1 ≤ x
  · rw [min_eq_left h, round2_one, min_eq_left (round2_ge_one x h)]
  · have hx : x ≤ 1 := le_of_lt (not_le.1 h)
    have hr : round2 x ≤ 1 := by
      have := round2_mono hx
      rwa [round2_one] at this
    rw [min_eq_right hx, min_eq_right hr]

theorem mem_mergePair_evidence (p s : Finding) (e : Evidence)
    (h : e ∈ (mergePair p s).Evidence) : e ∈ p.Evidence ∨ e ∈ s.Evidence := by
  rw [mergePair_evidence] at h
  rcases List.mem_append.1 h with h | h
  · exact Or.inl h
  · exact Or.inr (mem_freshItems _ _ _ _ h).1

theorem mem_foldl_mergePair_evidence (extras : List Finding) :
    ∀ (p : Finding) (e : Evidence), e ∈ (extras.foldl mergePair p).Evidence →
      e ∈ p.Evidence ∨ ∃ s ∈ extras, e ∈ s.Evidence := by
  induction extras with
  | nil => intro p e h; exact Or.inl h
  | cons s extras ih =>
    intro p e h
    rcases ih (mergePair p s) e h with h1 | ⟨t, ht, he⟩
    · rcases mem_mergePair_evidence p s e h1 with h2 | h2
      · exact Or.inl h2
      · exact Or.inr ⟨s, List.mem_cons_self _ _, h2⟩
    · exact Or.inr ⟨t, List.mem_cons_of_mem _ ht, he⟩

theorem mergePair_key_of_refs_subset (p s : Finding)
    (h : ∀ r, r ∈ resourceRefs s → r ∈ resourceRefs p) :
    rootCauseKey (mergePair p s) = rootCauseKey p := by
  unfold rootCauseKey
  rw [(mergePair_frame p s).2.2.2.2.1]
  congr 2
  apply sortStrings_eq_of_same_members _ _ (nodup_collectRefs _ _) (nodup_collectRefs _ _)
  intro x
  simp only [mem_collectRefs, List.not_mem_nil, not_false_eq_true, true_and]
  constructor
  · rintro ⟨e, he, ht, hr⟩
    rcases mem_mergePair_evidence p s e he with h1 | h1
    · exact ⟨e, h1, ht, hr⟩
    · have hx : x ∈ resourceRefs p := h x (by
        simp only [resourceRefs, List.mem_map, List.mem_filter, decide_eq_true_eq]
        exact ⟨e, ⟨h1, ht⟩, hr⟩)
      simp only [resourceRefs, List.mem_map, List.mem_filter, decide_eq_true_eq] at hx
      obtain ⟨e', ⟨he', ht'⟩, hr'⟩ := hx
      exact ⟨e', he', ht', hr'⟩
  · rintro ⟨e, he, ht, hr⟩
    refine ⟨e, ?_, ht, hr⟩
    rw [mergePair_evidence]
    exact List.mem_append_left _ he

theorem collectRefs_pressureEvents (evs : List EventInfo) :
    ∀ seen : List String, collectRefs seen (evs.map pressureEventEvidence) = [] := by
  induction evs with
  | nil => intro seen; rfl
  | cons ev evs ih =>
    intro seen
    have hne : ¬ ((pressureEventEvidence ev).Type_ = EvidenceResource ∧
        (pressureEventEvidence ev).Ref ∉ seen) := by
      rintro ⟨h, _⟩
      have hne : ¬ EvidenceEvent = EvidenceResource := by decide
      exact hne h
    rw [List.map_cons, collectRefs, if_neg hne]
    exact ih seen

theorem pressureFinding_key (rt : Runtime) (snap : Snapshot) (node : NodeInfo)
    (cond : NodeCondition) :
    rootCauseKey (pressureFinding rt snap node cond) = "node-health|node/" ++ node.Name := by
  have hrefs : collectRefs [] (pressureFinding rt snap node cond).Evidence =
      ["node/" ++ node.Name] := by
    simp only [pressureFinding, List.singleton_append]
    rw [collectRefs, if_pos ⟨rfl, List.not_mem_nil _⟩, collectRefs_pressureEvents]
  unfold rootCauseKey
  rw [hrefs]
  have hsort : sortStrings ["node/" ++ node.Name] = ["node/" ++ node.Name] := by
    simp [sortStrings]
  rw [hsort]
  have hcat : (pressureFinding rt snap node cond).Category = "node-health" := rfl
  rw [hcat]
  simp only [String.intercalate, String.intercalate.go]
  have hpre : "node-health" ++ "|" ++ "node/" = "node-health|node/" := by decide
  rw [← String.append_assoc, hpre]

theorem pressureFinding_resourceRefs (rt : Runtime) (snap : Snapshot) (node : NodeInfo)
    (cond : NodeCondition) :
    resourceRefs (pressureFinding rt snap node cond) = ["node/" ++ node.Name] := by
  simp only [resourceRefs, pressureFinding, List.singleton_append, List.filter_cons]
  have hnil : ((findEvictionEvents snap.Events node.Name).map pressureEventEvidence).filter
      (fun e => decide (e.Type_ = EvidenceResource)) = [] := by
    rw [List.filter_eq_nil_iff]
    intro e he
    obtain ⟨ev, _, rfl⟩ := List.mem_map.1 he
    have hne : ¬ EvidenceEvent = EvidenceResource := by decide
    simpa [pressureEventEvidence] using hne
  rw [hnil]
  simp

theorem flatten_group_head {α β : Type} (g : α → List β) (a : α) (x : β) (tl : List β) :
    ∀ l : List α, a ∈ l → (∀ n ∈ l, (n = a → g n = x :: tl) ∧ (n ≠ a → g n = [])) →
      ∃ extras, (l.map g).flatten = x :: extras ∧ (∀ y ∈ tl, y ∈ extras) ∧
        ∀ y ∈ extras, y ∈ x :: tl := by
  intro l
  induction l with
  | nil => intro h; simp at h
  | cons n l ih =>
    intro ha hg
    have hall : ∀ y ∈ (l.map g).flatten, y ∈ x :: tl := by
      intro y hy
      obtain ⟨ys, hys, hy'⟩ := List.mem_flatten.1 hy
      obtain ⟨m, hm, rfl⟩ := List.mem_map.1 hys
      by_cases hma : m = a
      · rw [(hg m (List.mem_cons_of_mem _ hm)).1 hma] at hy'
        exact hy'
      · rw [(hg m (List.mem_cons_of_mem _ hm)).2 hma] at hy'
        exact absurd hy' (List.not_mem_nil _)
    by_cases hn : n = a
    · refine ⟨tl ++ (l.map g).flatten, ?_, fun y hy => List.mem_append_left _ hy, ?_⟩
      · rw [List.map_cons, List.flatten_cons, (hg n (List.mem_cons_self _ _)).1 hn]
        rfl
      · intro y hy
        rcases List.mem_append.1 hy with h | h
        · exact List.mem_cons_of_mem _ h
        · exact hall y h
    · have ha' : a ∈ l := by
        rcases List.mem_cons.1 ha with h | h
        · exact absurd h.symm hn
        · exact h
      obtain ⟨extras, h1, h2, h3⟩ := ih ha' fun m hm => hg m (List.mem_cons_of_mem _ hm)
      refine ⟨extras, ?_, h2, h3⟩
      rw [List.map_cons, List.flatten_cons, (hg n (List.mem_cons_self _ _)).2 hn, List.nil_append]
      exact h1

theorem filter_flatten_eq {α : Type} (p : α → Bool) :
    ∀ L : List (List α), L.flatten.filter p = (L.map (List.filter p)).flatten := by
  intro L
  induction L with
  | nil => rfl
  | cons l L ih => simp [List.filter_append, ih]

theorem nodePressure_group (rt : Runtime) (snap : Snapshot) (node : NodeInfo)
    (c₁ : NodeCondition) (rest : List NodeCondition)
    (hnode : node ∈ snap.Nodes)
    (hname : ∀ n ∈ snap.Nodes, n.Name = node.Name → n = node)
    (hconds : node.Conditions.filter (fun c => decide (isTruePressure c)) = c₁ :: rest) :
    ∃ extras,
      groupOf (NodePressureRule.Evaluate rt snap) ("node-health|node/" ++ node.Name) =
        pressureFinding rt snap node c₁ :: extras ∧
      (∀ c ∈ rest, pressureFinding rt snap node c ∈ extras) ∧
      ∀ g ∈ extras, ∃ c ∈ c₁ :: rest, g = pressureFinding rt snap node c := by
  have hg : ∀ n ∈ snap.Nodes,
      (n = node →
        ((n.Conditions.filter fun c => decide (isTruePressure c)).map
            (pressureFinding rt snap n)).filter
            (fun f => decide (rootCauseKey f = "node-health|node/" ++ node.Name)) =
          pressureFinding rt snap node c₁ :: rest.map (pressureFinding rt snap node)) ∧
      (n ≠ node →
        ((n.Conditions.filter fun c => decide (isTruePressure c)).map
            (pressureFinding rt snap n)).filter
            (fun f => decide (rootCauseKey f = "node-health|node/" ++ node.Name)) = []) := by
    intro n hn
    constructor
    · intro h
      subst h
      rw [hconds, List.filter_eq_self.2]
      · rfl
      · intro f hf
        obtain ⟨c, _, rfl⟩ := List.mem_map.1 hf
        exact decide_eq_true (pressureFinding_key rt snap n c)
    · intro h
      rw [List.filter_eq_nil_iff]
      intro f hf
      obtain ⟨c, _, rfl⟩ := List.mem_map.1 hf
      rw [decide_eq_true_eq, pressureFinding_key]
      intro heq
      exact h (hname n hn (string_append_left_cancel _ _ _ heq))
  obtain ⟨extras, h1, h2, h3⟩ := flatten_group_head
    (fun n : NodeInfo =>
      ((n.Conditions.filter fun c => decide (isTruePressure c)).map
          (pressureFinding rt snap n)).filter
        (fun f => decide (rootCauseKey f = "node-health|node/" ++ node.Name)))
    node (pressureFinding rt snap node c₁) (rest.map (pressureFinding rt snap node))
    snap.Nodes hnode hg
  refine ⟨extras, ?_, fun c hc => h2 _ (List.mem_map.2 ⟨c, hc, rfl⟩), fun g hg' => ?_⟩
  · rw [groupOf, nodePressure_evaluate_eq, filter_flatten_eq, List.map_map]
    exact h1
  · rcases List.mem_cons.1 (h3 g hg') with h | h
    · exact ⟨c₁, List.mem_cons_self _ _, h⟩
    · obtain ⟨c, hc, rfl⟩ := List.mem_map.1 h
      exact ⟨c, List.mem_cons_of_mem _ hc, rfl⟩

theorem boostConfidenceF64_eq (f : Finding) :
    boostConfidenceF64 f =
      boostF64 f.Confidence (typeCounts f.Evidence).length f.Evidence.length := rfl

theorem pow2_eq (e : Int) : pow2 e = (2 : ℚ) ^ e := by
  unfold pow2
  by_cases h : 0 ≤ e
  · rw [if_pos h]
    obtain ⟨n, rfl⟩ := Int.eq_ofNat_of_zero_le h
    simp
  · rw [if_neg h]
    obtain ⟨n, rfl⟩ := Int.exists_eq_neg_ofNat (le_of_lt (not_le.1 h))
    simp

theorem log2Fuel_spec :
    ∀ fuel n : Nat, 1 ≤ n → n ≤ fuel →
      2 ^ log2Fuel fuel n ≤ n ∧ n < 2 ^ (log2Fuel fuel n + 1) := by
  intro fuel
  induction fuel with
  | zero => intro n h1 h2; omega
  | succ fuel ih =>
    intro n h1 h2
    by_cases hn : n < 2
    · have : n = 1 := by omega
      subst this
      simp [log2Fuel]
    · have h3 := ih (n / 2) (by omega) (by omega)
      simp only [log2Fuel, if_neg hn]
      generalize log2Fuel fuel (n / 2) = l at h3
      have hp : 2 ^ (l + 1) = 2 * 2 ^ l := by rw [pow_succ]; ring
      have hp2 : 2 ^ (l + 1 + 1) = 2 * 2 ^ (l + 1) := by rw [pow_succ]; ring
      rw [hp] at h3
      rw [hp2, hp]
      generalize 2 ^ l = p at h3 ⊢
      omega

theorem natLog2_spec (n : Nat) (h : 1 ≤ n) :
    2 ^ natLog2 n ≤ n ∧ n < 2 ^ (natLog2 n + 1) :=
  log2Fuel_spec n n h (le_refl n)

theorem binade_le_self (y : ℚ) (hy : 0 < y) : (2 : ℚ) ^ binade y ≤ y := by
  unfold binade
  simp only
  by_cases h : pow2 ((natLog2 y.num.natAbs : Int) - (natLog2 y.den : Int)) ≤ y
  · rw [if_pos h]
    rw [pow2_eq] at h
    exact h
  · rw [if_neg h]
    have hnum : 0 < y.num := Rat.num_pos.2 hy
    have hN : 1 ≤ y.num.natAbs := by omega
    have hD : 1 ≤ y.den := y.den_pos
    have h1 := (natLog2_spec y.num.natAbs hN).1
    have h2 := (natLog2_spec y.den hD).2
    have hyq : y = (y.num.natAbs : ℚ) / (y.den : ℚ) := by
      have hcast : ((y.num.natAbs : ℕ) : ℚ) = ((y.num : ℤ) : ℚ) := by
        rw [Nat.cast_natAbs, abs_of_pos hnum]
      rw [hcast]
      exact (Rat.num_div_den y).symm
    have h1' : (2 : ℚ) ^ (natLog2 y.num.natAbs) ≤ (y.num.natAbs : ℚ) := by exact_mod_cast h1
    have h2' : (y.den : ℚ) ≤ (2 : ℚ) ^ (natLog2 y.den + 1) := by exact_mod_cast le_of_lt h2
    have hden : (0 : ℚ) < (y.den : ℚ) := by exact_mod_cast hD
    have hexp : (2 : ℚ) ^ ((natLog2 y.num.natAbs : Int) - (natLog2 y.den : Int) - 1) =
        (2 : ℚ) ^ (natLog2 y.num.natAbs) / (2 : ℚ) ^ (natLog2 y.den + 1) := by
      rw [show ((natLog2 y.num.natAbs : Int) - (natLog2 y.den : Int) - 1) =
        (natLog2 y.num.natAbs : Int) - ((natLog2 y.den + 1 : ℕ) : Int) by push_cast; ring]
      rw [zpow_sub₀ (by norm_num : (2 : ℚ) ≠ 0), zpow_natCast, zpow_natCast]
    rw [hexp]
    calc (2 : ℚ) ^ (natLog2 y.num.natAbs) / (2 : ℚ) ^ (natLog2 y.den + 1)
        ≤ (y.num.natAbs : ℚ) / (y.den : ℚ) := by
          apply div_le_div₀ _ h1' hden h2'
          exact le_trans (by positivity) h1'
      _ = y := hyq.symm

theorem binade_le (y : ℚ) (hy : 0 < y) (E : ℤ) (h : y < (2 : ℚ) ^ (E + 1)) : binade y ≤ E := by
  have h1 := lt_of_le_of_lt (binade_le_self y hy) h
  have h2 := (zpow_lt_zpow_iff_right₀ (by norm_num : (1 : ℚ) < 2)).1 h1
  omega

theorem roundHalfEven_err (m : ℚ) : |(roundHalfEven m : ℚ) - m| ≤ 1 / 2 := by
  have h0 : (⌊m⌋ : ℚ) ≤ m := Int.floor_le m
  have h1 : m < (⌊m⌋ : ℚ) + 1 := Int.lt_floor_add_one m
  unfold roundHalfEven
  simp only
  rw [abs_le]
  split_ifs with a b c
  · constructor <;> linarith
  · push_cast; constructor <;> linarith
  · have : m - ⌊m⌋ = 1 / 2 := le_antisymm (not_lt.1 b) (not_lt.1 a)
    constructor <;> linarith
  · have : m - ⌊m⌋ = 1 / 2 := le_antisymm (not_lt.1 b) (not_lt.1 a)
    push_cast; constructor <;> linarith

theorem toFloat64_err (x : ℚ) (h : |x| < 256) : |toFloat64 x - x| ≤ 1 / 2 ^ 46 := by
  unfold toFloat64
  by_cases hx : x = 0
  · rw [if_pos hx, hx]; norm_num
  · rw [if_neg hx]
    simp only
    have hpos : 0 < |x| := abs_pos.2 hx
    have hb : binade |x| ≤ 7 := binade_le |x| hpos 7 (by norm_num; exact h)
    have he : max (binade |x|) (-1022) ≤ 7 := max_le hb (by norm_num)
    generalize max (binade |x|) (-1022) = e at he
    rw [pow2_eq]
    have hu : (0 : ℚ) < (2 : ℚ) ^ (e - 52) := by positivity
    have hule : (2 : ℚ) ^ (e - 52) ≤ 1 / 2 ^ 45 := by
      have : (2 : ℚ) ^ (e - 52) ≤ (2 : ℚ) ^ (-45 : ℤ) :=
        (zpow_le_zpow_iff_right₀ (by norm_num : (1 : ℚ) < 2)).2 (by omega)
      refine le_trans this (le_of_eq ?_)
      rw [zpow_neg]
      norm_num
    have herr := roundHalfEven_err (x / (2 : ℚ) ^ (e - 52))
    have heq : (roundHalfEven (x / (2 : ℚ) ^ (e - 52)) : ℚ) * (2 : ℚ) ^ (e - 52) - x =
        ((roundHalfEven (x / (2 : ℚ) ^ (e - 52)) : ℚ) - x / (2 : ℚ) ^ (e - 52)) *
          (2 : ℚ) ^ (e - 52) := by
      field_simp
    rw [heq, abs_mul, abs_of_pos hu]
    calc |(roundHalfEven (x / (2 : ℚ) ^ (e - 52)) : ℚ) - x / (2 : ℚ) ^ (e - 52)| *
          (2 : ℚ) ^ (e - 52)
        ≤ 1 / 2 * (1 / 2 ^ 45) := mul_le_mul herr hule (le_of_lt hu) (by norm_num)
      _ = 1 / 2 ^ 46 := by norm_num

theorem mathRound_near (p : ℚ) (N : ℕ) (h : |p - N| < 1 / 2) : mathRound p = N := by
  rw [abs_lt] at h
  unfold mathRound
  by_cases hp : p < 0
  · rw [if_pos hp]
    have hN : N = 0 := by
      by_contra hne
      have : (1 : ℚ) ≤ (N : ℚ) := by exact_mod_cast Nat.one_le_iff_ne_zero.2 hne
      linarith [h.1]
    subst hN
    have : ⌊-p + 1 / 2⌋ = 0 := by
      rw [Int.floor_eq_iff]
      constructor <;> push_cast <;> linarith [h.1, h.2]
    rw [this]
    simp
  · rw [if_neg hp]
    have : ⌊p + 1 / 2⌋ = (N : ℤ) := by
      rw [Int.floor_eq_iff]
      constructor <;> push_cast <;> linarith [h.1, h.2]
    rw [this]
    simp

theorem toFloat64_one : toFloat64 1 = 1 := by decide!

theorem toFloat64_add_err (base : ℚ) (M aN n : ℕ) (hM : M ≤ 200) (haN : aN ≤ 100)
    (hn : n ≤ 10) (hbase : |base - (M : ℚ) / 100| ≤ n / 2 ^ 46) :
    |toFloat64 (base + toFloat64 ((aN : ℚ) / 100)) - ((M + aN : ℕ) : ℚ) / 100| ≤
      ((n + 2 : ℕ) : ℚ) / 2 ^ 46 := by
  have hM' : (M : ℚ) ≤ 200 := by exact_mod_cast hM
  have haN' : (aN : ℚ) ≤ 100 := by exact_mod_cast haN
  have hn' : (n : ℚ) ≤ 10 := by exact_mod_cast hn
  have hM0 : (0 : ℚ) ≤ (M : ℚ) := by positivity
  have haN0 : (0 : ℚ) ≤ (aN : ℚ) := by positivity
  have hn0 : (0 : ℚ) ≤ (n : ℚ) := by positivity
  have hd : (0 : ℚ) < 1 / 2 ^ 46 := by norm_num
  have hsmall : (1 : ℚ) / 2 ^ 46 ≤ 1 / 1000 := by norm_num
  have hA : |toFloat64 ((aN : ℚ) / 100) - (aN : ℚ) / 100| ≤ 1 / 2 ^ 46 := by
    apply toFloat64_err
    rw [abs_lt]
    constructor <;> linarith
  rw [abs_le] at hA hbase
  have hnd : (n : ℚ) / 2 ^ 46 = n * (1 / 2 ^ 46) := by ring
  rw [hnd] at hbase
  have hnb : (n : ℚ) * (1 / 2 ^ 46) ≤ 10 * (1 / 1000) :=
    mul_le_mul hn' hsmall (le_of_lt hd) (by norm_num)
  have hS : |toFloat64 (base + toFloat64 ((aN : ℚ) / 100)) -
      (base + toFloat64 ((aN : ℚ) / 100))| ≤ 1 / 2 ^ 46 := by
    apply toFloat64_err
    rw [abs_lt]
    constructor <;> linarith [hA.1, hA.2, hbase.1, hbase.2]
  rw [abs_le] at hS
  rw [abs_le]
  push_cast
  constructor <;> linarith [hA.1, hA.2, hbase.1, hbase.2, hS.1, hS.2]

theorem boostF64_tail (base : ℚ) (N : ℕ) (hN : N ≤ 120)
    (h : |base - (N : ℚ) / 100| ≤ ((5 : ℕ) : ℚ) / 2 ^ 46) :
    (if toFloat64 (mathRound (toFloat64 (base * 100)) / 100) > 1 then 1
      else toFloat64 (mathRound (toFloat64 (base * 100)) / 100)) =
      toFloat64 (min 1 ((N : ℚ) / 100)) := by
  have hN' : (N : ℚ) ≤ 120 := by exact_mod_cast hN
  have hN0 : (0 : ℚ) ≤ (N : ℚ) := by positivity
  rw [abs_le] at h
  have hp : |toFloat64 (base * 100) - base * 100| ≤ 1 / 2 ^ 46 := by
    apply toFloat64_err
    rw [abs_lt]
    constructor <;> norm_num at h ⊢ <;> linarith [h.1, h.2]
  rw [abs_le] at hp
  have hround : mathRound (toFloat64 (base * 100)) = N := by
    apply mathRound_near
    rw [abs_lt]
    constructor <;> norm_num at h hp ⊢ <;> linarith [h.1, h.2, hp.1, hp.2]
  rw [hround]
  have hr : |toFloat64 ((N : ℚ) / 100) - (N : ℚ) / 100| ≤ 1 / 2 ^ 46 := by
    apply toFloat64_err
    rw [abs_lt]
    constructor <;> linarith
  rw [abs_le] at hr
  rcases Nat.lt_trichotomy N 100 with hlt | heq | hgt
  · have h99 : (N : ℚ) ≤ 99 := by exact_mod_cast Nat.lt_succ_iff.1 hlt
    have hle : ¬ toFloat64 ((N : ℚ) / 100) > 1 := by
      norm_num at hr ⊢
      linarith [hr.2]
    rw [if_neg hle, min_eq_right (by linarith)]
  · subst heq
    have h1 : ((100 : ℕ) : ℚ) / 100 = 1 := by norm_num
    rw [h1, toFloat64_one, if_neg (by norm_num), min_self, toFloat64_one]
  · have h101 : (101 : ℚ) ≤ (N : ℚ) := by exact_mod_cast hgt
    have hgt' : toFloat64 ((N : ℚ) / 100) > 1 := by
      norm_num at hr ⊢
      linarith [hr.1]
    rw [if_pos hgt', min_eq_left (by linarith), toFloat64_one]

theorem boostF64_formula (k T E : Nat) (hk : k ≤ 100) :
    boostF64 (toFloat64 ((k : ℚ) / 100)) T E =
        toFloat64 (min 1 (round2 ((k : ℚ) / 100 + typeBoost T + sizeBoost E))) ∧
      round2 ((k : ℚ) / 100 + typeBoost T + sizeBoost E) =
        (k : ℚ) / 100 + typeBoost T + sizeBoost E := by
  have hk' : (k : ℚ) ≤ 100 := by exact_mod_cast hk
  have hk0 : (0 : ℚ) ≤ (k : ℚ) := by positivity
  have hc : |toFloat64 ((k : ℚ) / 100) - (k : ℚ) / 100| ≤ ((1 : ℕ) : ℚ) / 2 ^ 46 := by
    have := toFloat64_err ((k : ℚ) / 100) (by rw [abs_lt]; constructor <;> linarith)
    simpa using this
  obtain ⟨aN, haN, hta, hbase1⟩ : ∃ aN : ℕ, aN ≤ 15 ∧ typeBoost T = (aN : ℚ) / 100 ∧
      |(if T ≥ 3 then toFloat64 (toFloat64 ((k : ℚ) / 100) + toFloat64 (15 / 100))
        else if T ≥ 2 then toFloat64 (toFloat64 ((k : ℚ) / 100) + toFloat64 (10 / 100))
        else toFloat64 ((k : ℚ) / 100)) - ((k + aN : ℕ) : ℚ) / 100| ≤ ((3 : ℕ) : ℚ) / 2 ^ 46 := by
    by_cases h3 : T ≥ 3
    · refine ⟨15, by norm_num, by simp [typeBoost, h3], ?_⟩
      rw [if_pos h3]
      have := toFloat64_add_err (toFloat64 ((k : ℚ) / 100)) k 15 1 (by omega) (by norm_num)
        (by norm_num) hc
      simpa using this
    · by_cases h2 : T ≥ 2
      · have hT : T = 2 := by omega
        refine ⟨10, by norm_num, by simp [typeBoost, hT], ?_⟩
        rw [if_neg h3, if_pos h2]
        have := toFloat64_add_err (toFloat64 ((k : ℚ) / 100)) k 10 1 (by omega) (by norm_num)
          (by norm_num) hc
        simpa using this
      · have hT : ¬ T = 2 := by omega
        refine ⟨0, by norm_num, by simp [typeBoost, h3, hT], ?_⟩
        rw [if_neg h3, if_neg h2]
        refine le_trans ?_ (by norm_num : ((1 : ℕ) : ℚ) / 2 ^ 46 ≤ ((3 : ℕ) : ℚ) / 2 ^ 46)
        simpa using hc
  simp only [boostF64]
  generalize (if T ≥ 3 then toFloat64 (toFloat64 ((k : ℚ) / 100) + toFloat64 (15 / 100))
      else if T ≥ 2 then toFloat64 (toFloat64 ((k : ℚ) / 100) + toFloat64 (10 / 100))
      else toFloat64 ((k : ℚ) / 100)) = base1 at hbase1 ⊢
  obtain ⟨bN, hbN, htb, hbase2⟩ : ∃ bN : ℕ, bN ≤ 5 ∧ sizeBoost E = (bN : ℚ) / 100 ∧
      |(if E ≥ 5 then toFloat64 (base1 + toFloat64 (5 / 100)) else base1) -
        ((k + aN + bN : ℕ) : ℚ) / 100| ≤ ((5 : ℕ) : ℚ) / 2 ^ 46 := by
    by_cases h5 : E ≥ 5
    · refine ⟨5, by norm_num, by simp [sizeBoost, h5], ?_⟩
      rw [if_pos h5]
      have := toFloat64_add_err base1 (k + aN) 5 3 (by omega) (by norm_num) (by norm_num) hbase1
      simpa using this
    · refine ⟨0, by norm_num, by simp [sizeBoost, h5], ?_⟩
      rw [if_neg h5]
      refine le_trans ?_ (by norm_num : ((3 : ℕ) : ℚ) / 2 ^ 46 ≤ ((5 : ℕ) : ℚ) / 2 ^ 46)
      simpa using hbase1
  generalize (if E ≥ 5 then toFloat64 (base1 + toFloat64 (5 / 100)) else base1) = base2
    at hbase2 ⊢
  have hsum : (k : ℚ) / 100 + typeBoost T + sizeBoost E = (((k + aN + bN : ℕ) : ℤ) : ℚ) / 100 := by
    rw [hta, htb]
    push_cast
    ring
  have hr2 : round2 ((k : ℚ) / 100 + typeBoost T + sizeBoost E) =
      (k : ℚ) / 100 + typeBoost T + sizeBoost E := by
    rw [hsum]
    exact round2_hundredth _
  refine ⟨?_, hr2⟩
  rw [hr2, hsum, boostF64_tail base2 (k + aN + bN) (by omega) hbase2]
  simp

/-! ## Properties of the correlator -/

/-- C1: `Correlate` returns exactly one finding per distinct merge key of the
input, namely the merged and rescored group of that key; hence the output is as
long as the number of distinct keys, at most as long as the input, and empty on
the empty input. -/
theorem correlate_one_finding_per_key (fs : List Finding) :
    ((Correlate fs).map some).Perm
        ((firstKeys (fs.map rootCauseKey)).map fun k =>
          (mergeGroup (groupOf fs k)).map rescore) ∧
      (Correlate fs).length = ((fs.map rootCauseKey).dedup).length ∧
      (Correlate fs).length ≤ fs.length ∧
      Correlate [] = [] := by
  have hlen : (Correlate fs).length = ((fs.map rootCauseKey).dedup).length := by
    rw [(correlate_perm fs).length_eq, List.length_map, length_mergeFindings]
  refine ⟨?_, hlen, ?_, ?_⟩
  · have h1 := ((correlate_perm fs).map some)
    have h2 : ((mergeFindings fs).map rescore).map some =
        ((mergeFindings fs).map some).map (Option.map rescore) := by
      simp [List.map_map, Function.comp_def]
    rw [h2, mergeFindings_map_some, List.map_map] at h1
    exact h1
  · rw [hlen]
    have := (List.dedup_sublist (fs.map rootCauseKey)).length_le
    simpa using this
  · rfl

/-- C2: the list returned by `Correlate` is ordered: of two findings, the
earlier one has the higher severity rank, or the same rank and the higher
confidence, or the same rank and confidence and an ID that is not greater. -/
theorem correlate_sorted (fs : List Finding) :
    (Correlate fs).Pairwise fun a b =>
      severityRank a.Severity > severityRank b.Severity ∨
      (severityRank a.Severity = severityRank b.Severity ∧ a.Confidence > b.Confidence) ∨
      (severityRank a.Severity = severityRank b.Severity ∧ a.Confidence = b.Confidence ∧
        a.ID ≤ b.ID) := by
  unfold Correlate
  exact (sortFindings_sorted _).imp fun h => (not_sortLess_iff _ _).1 h


/-- C3: two findings with the same category and the same set of resource-type
evidence refs have the same merge key; in any input that contains both they lie
in one group, and that group yields one finding of the output. -/
theorem same_category_and_refs_merged (f g : Finding) (hcat : f.Category = g.Category)
    (hrefs : ∀ r, r ∈ resourceRefs f ↔ r ∈ resourceRefs g) :
    rootCauseKey f = rootCauseKey g ∧
      ∀ fs, f ∈ fs → g ∈ fs →
        ∃ p extras, groupOf fs (rootCauseKey f) = p :: extras ∧
          f ∈ p :: extras ∧ g ∈ p :: extras ∧
          rescore (extras.foldl mergePair p) ∈ Correlate fs := by
  have hkey : rootCauseKey f = rootCauseKey g := by
    unfold rootCauseKey
    rw [hcat]
    congr 2
    apply sortStrings_eq_of_same_members _ _ (nodup_collectRefs _ _) (nodup_collectRefs _ _)
    intro x
    have hx := hrefs x
    simp only [resourceRefs, List.mem_map, List.mem_filter, decide_eq_true_eq] at hx
    simp only [mem_collectRefs, List.not_mem_nil, not_false_eq_true, true_and]
    constructor
    · rintro ⟨e, he, ht, hr⟩
      obtain ⟨e', ⟨he', ht'⟩, hr'⟩ := hx.1 ⟨e, ⟨he, ht⟩, hr⟩
      exact ⟨e', he', ht', hr'⟩
    · rintro ⟨e, he, ht, hr⟩
      obtain ⟨e', ⟨he', ht'⟩, hr'⟩ := hx.2 ⟨e, ⟨he, ht⟩, hr⟩
      exact ⟨e', he', ht', hr'⟩
  refine ⟨hkey, fun fs hf hg => ?_⟩
  have hfmem : f ∈ groupOf fs (rootCauseKey f) := (mem_groupOf _ _ _).2 ⟨hf, rfl⟩
  have hgmem : g ∈ groupOf fs (rootCauseKey f) := (mem_groupOf _ _ _).2 ⟨hg, hkey.symm⟩
  cases hgrp : groupOf fs (rootCauseKey f) with
  | nil => rw [hgrp] at hfmem; exact absurd hfmem (List.not_mem_nil _)
  | cons p extras =>
    rw [hgrp] at hfmem hgmem
    exact ⟨p, extras, rfl, hfmem, hgmem,
      (mem_correlate_iff fs _).2 ⟨rootCauseKey f, p, extras, hgrp, rfl⟩⟩

/-- Witness of C3 on the two findings of `TestCorrelator_MergesDuplicates`. -/
theorem same_category_and_refs_merged_witness :
    exPressure1.Category = exPressure2.Category ∧
      (∀ r, r ∈ resourceRefs exPressure1 ↔ r ∈ resourceRefs exPressure2) ∧
      rootCauseKey exPressure1 = rootCauseKey exPressure2 ∧
      ∀ fs, exPressure1 ∈ fs → exPressure2 ∈ fs →
        ∃ p extras, groupOf fs (rootCauseKey exPressure1) = p :: extras ∧
          exPressure1 ∈ p :: extras ∧ exPressure2 ∈ p :: extras ∧
          rescore (extras.foldl mergePair p) ∈ Correlate fs :=
  ⟨rfl, fun _ => Iff.rfl,
    same_category_and_refs_merged exPressure1 exPressure2 rfl (fun _ => Iff.rfl)⟩

/-- C4 at the failing input: the categories `a|b` and `a` differ, the merge keys
are both `a|b`, and `Correlate` returns one finding for the two. -/
theorem rootCauseKey_separator_collision :
    exPipeA.Category ≠ exPipeB.Category ∧
      rootCauseKey exPipeA = "a|b" ∧ rootCauseKey exPipeB = "a|b" ∧
      (Correlate [exPipeA, exPipeB]).map (fun m => (m.ID, m.Category)) = [("x", "a|b")] := by
  decide

/-- C5: merging keeps the higher severity rank and, on a tie, the severity of
the primary; every finding of `mergeFindings` comes from a group whose highest
severity rank is its own, its severity being that of a member of the group. -/
theorem merged_severity_is_group_maximum :
    (∀ p s : Finding,
        severityRank (mergePair p s).Severity =
            max (severityRank p.Severity) (severityRank s.Severity) ∧
          (severityRank s.Severity ≤ severityRank p.Severity →
            (mergePair p s).Severity = p.Severity)) ∧
      ∀ (fs : List Finding) (k : String) (p : Finding) (extras : List Finding),
        groupOf fs k = p :: extras →
          extras.foldl mergePair p ∈ mergeFindings fs ∧
          (∀ g ∈ p :: extras,
            severityRank g.Severity ≤ severityRank (extras.foldl mergePair p).Severity) ∧
          ∃ g ∈ p :: extras, (extras.foldl mergePair p).Severity = g.Severity := by
  refine ⟨fun p s => ⟨mergePair_rank p s, fun h => ?_⟩, fun fs k p extras hg => ⟨?_, ?_, ?_⟩⟩
  · rw [mergePair_severity, if_neg (not_lt.2 h)]
  · exact (mem_mergeFindings_iff fs _).2 ⟨k, p, extras, hg, rfl⟩
  · exact foldl_mergePair_rank_ge extras p
  · exact foldl_mergePair_severity_mem extras p

/-- Witness of C5: the group of `TestCorrelator_MergesDuplicates` merges to
severity `critical`. -/
theorem merged_severity_is_group_maximum_witness :
    groupOf [exPressure1, exPressure2] "node-health|node/worker-1" =
        [exPressure1, exPressure2] ∧
      ([exPressure2].foldl mergePair exPressure1).Severity = SeverityCritical ∧
      [exPressure2].foldl mergePair exPressure1 ∈ mergeFindings [exPressure1, exPressure2] :=
  ⟨rfl, by decide!,
    (merged_severity_is_group_maximum.2 [exPressure1, exPressure2]
      "node-health|node/worker-1" exPressure1 [exPressure2] rfl).1⟩

/-- C6 at the failing input: the evidence item of the secondary finding has a
(type, ref, message) triple that no item of the primary has, yet its key
`event:pod/x:Failed:timeout` is that of the primary's item, and `mergePair`
drops it. -/
theorem mergePair_evidence_key_collision :
    (∀ e ∈ exColonS.Evidence, ∀ e' ∈ exColonP.Evidence,
        (e.Type_, e.Ref, e.Message) ≠ (e'.Type_, e'.Ref, e'.Message)) ∧
      exColonS.Evidence.map evidenceKey = exColonP.Evidence.map evidenceKey ∧
      (mergePair exColonP exColonS).Evidence = exColonP.Evidence := by
  decide

/-- C7: the nextSteps of `mergePair p s` are those of `p` followed by the kept
strings of `s`; they contain exactly the strings of `p` and of `s`, and they
have no duplicate when those of `p` have none. -/
theorem mergePair_nextSteps_union (p s : Finding) :
    (mergePair p s).NextSteps = p.NextSteps ++ keptNew p.NextSteps s.NextSteps ∧
      (∀ x, x ∈ (mergePair p s).NextSteps ↔ x ∈ p.NextSteps ∨ x ∈ s.NextSteps) ∧
      (p.NextSteps.Nodup → (mergePair p s).NextSteps.Nodup) := by
  rw [mergePair_nextSteps, keptNew_eq]
  refine ⟨rfl, fun x => ?_, fun hnd => ?_⟩
  · rw [List.mem_append]
    constructor
    · rintro (h | h)
      · exact Or.inl h
      · exact Or.inr (mem_freshItems _ _ _ _ h).1
    · rintro (h | h)
      · exact Or.inl h
      · rcases key_mem_of_mem (fun x => x) s.NextSteps p.NextSteps x h with h1 | h1
        · exact Or.inl h1
        · exact Or.inr (by simpa using h1)
  · rw [List.nodup_append]
    refine ⟨hnd, ?_, ?_⟩
    · simpa using nodup_freshItems (fun x => x) s.NextSteps p.NextSteps
    · intro a ha hb
      exact (mem_freshItems _ _ _ _ hb).2 ha

/-- Witness of C7 on the two findings of `TestCorrelator_MergesDuplicates`. -/
theorem mergePair_nextSteps_union_witness :
    exPressure1.NextSteps.Nodup ∧
      (mergePair exPressure1 exPressure2).NextSteps = ["Check disk usage", "Clean images"] ∧
      (mergePair exPressure1 exPressure2).NextSteps.Nodup :=
  ⟨by decide, by decide!,
    (mergePair_nextSteps_union exPressure1 exPressure2).2.2 (by decide)⟩

/-- C8: the finding that `Correlate` returns for a group has the ID, Title,
Summary, Timestamp, Category and SchemaVersion of the first finding of the
group in input order. -/
theorem correlate_keeps_primary_identity (fs : List Finding) (k : String) (p : Finding)
    (extras : List Finding) (hg : groupOf fs k = p :: extras) :
    fs.find? (fun f => rootCauseKey f = k) = some p ∧
      rescore (extras.foldl mergePair p) ∈ Correlate fs ∧
      (rescore (extras.foldl mergePair p)).ID = p.ID ∧
      (rescore (extras.foldl mergePair p)).Title = p.Title ∧
      (rescore (extras.foldl mergePair p)).Summary = p.Summary ∧
      (rescore (extras.foldl mergePair p)).Timestamp = p.Timestamp ∧
      (rescore (extras.foldl mergePair p)).Category = p.Category ∧
      (rescore (extras.foldl mergePair p)).SchemaVersion = p.SchemaVersion := by
  obtain ⟨h1, h2, h3, h4, h5, h6⟩ := foldl_mergePair_frame extras p
  obtain ⟨r1, r2, r3, r4, r5, r6, _⟩ := rescore_frame (extras.foldl mergePair p)
  refine ⟨?_, (mem_correlate_iff fs _).2 ⟨k, p, extras, hg, rfl⟩,
    r1.trans h1, r2.trans h2, r3.trans h3, r4.trans h4, r5.trans h5, r6.trans h6⟩
  have := List.filter_head? (fun f => decide (rootCauseKey f = k)) fs
  unfold groupOf at hg
  rw [hg] at this
  simpa using this.symm

/-- Witness of C8: `TestCorrelator_MergePreservesID` on the findings of
`TestCorrelator_MergesDuplicates`. -/
theorem correlate_keeps_primary_identity_witness :
    groupOf [exPressure1, exPressure2] "node-health|node/worker-1" =
        [exPressure1, exPressure2] ∧
      (rescore ([exPressure2].foldl mergePair exPressure1)).ID = "pressure-1" ∧
      rescore ([exPressure2].foldl mergePair exPressure1) ∈
        Correlate [exPressure1, exPressure2] :=
  ⟨rfl, (correlate_keeps_primary_identity [exPressure1, exPressure2]
      "node-health|node/worker-1" exPressure1 [exPressure2] rfl).2.2.1,
    (correlate_keeps_primary_identity [exPressure1, exPressure2]
      "node-health|node/worker-1" exPressure1 [exPressure2] rfl).2.1⟩

/-- In exact arithmetic `boostConfidence f` is `min 1 (round2 (c + a + b))`, with
`a` the boost for the number of distinct evidence types and `b` the boost for
the number of evidence items; `round2` gives the nearest multiple of `0.01`, a
half going away from zero; the confidences returned by `Correlate` are those of
`boostConfidence` on the merged findings, one each. -/
theorem boostConfidence_formula :
    (∀ f : Finding,
        boostConfidence f =
          min 1 (round2 (f.Confidence + typeBoost (distinctTypes f) +
            sizeBoost f.Evidence.length))) ∧
      (∀ x : ℚ, ∃ n : ℤ, round2 x = (n : ℚ) / 100 ∧ |round2 x - x| ≤ 1 / 200 ∧
        (|round2 x - x| = 1 / 200 → |x| < |round2 x|)) ∧
      ∀ fs : List Finding,
        ((Correlate fs).map fun m => m.Confidence).Perm
          ((mergeFindings fs).map boostConfidence) := by
  refine ⟨boostConfidence_eq, round2_spec, fun fs => ?_⟩
  have h := (correlate_perm fs).map fun m => m.Confidence
  simpa [List.map_map, Function.comp_def, rescore] using h

/-- C9 fails in float64 arithmetic next to a rounding tie. The float64 `0.015`
lies below `0.015`, so the formula gives `0.01` for it, but its product with
`100` rounds to `1.5` and `boostConfidence` returns `0.02`. The float64 `0.145`
has a product with `100` below `14.5`, and `boostConfidence` returns `0.14`
where `round2 0.145` is `0.15`. -/
theorem boostConfidence_float_counterexample :
    boostConfidenceF64 exNearTieUp = toFloat64 (2 / 100) ∧
      min 1 (round2 (exNearTieUp.Confidence + typeBoost (distinctTypes exNearTieUp) +
        sizeBoost exNearTieUp.Evidence.length)) = 1 / 100 ∧
      toFloat64 (2 / 100) ≠ toFloat64 (1 / 100) ∧
      boostConfidenceF64 exNearTieDown = toFloat64 (14 / 100) ∧
      min 1 (round2 (145 / 1000 + typeBoost (distinctTypes exNearTieDown) +
        sizeBoost exNearTieDown.Evidence.length)) = 15 / 100 ∧
      toFloat64 (14 / 100) ≠ toFloat64 (15 / 100) := by
  decide!

/-- C9 as amended: for a finding whose confidence is the float64 of a whole
multiple `k/100` of `0.01` in `[0, 1]`, `boostConfidence` in float64 arithmetic
returns the float64 of `min 1 (round2 (c + a + b))`, with `c = k/100`, `a` the
boost for the number of distinct evidence types and `b` the boost for the number
of evidence items; this sum is a multiple of `0.01`, which `round2` leaves as it
is, and the result is the float64 of what the exact arithmetic of
`boostConfidence` gives at `c`. The confidences returned by `Correlate` are
those of `boostConfidence` on the merged findings, one each. -/
theorem boostConfidence_float_formula (f : Finding) (k : Nat) (hk : k ≤ 100)
    (hc : f.Confidence = toFloat64 ((k : ℚ) / 100)) :
    boostConfidenceF64 f =
        toFloat64 (min 1 (round2 ((k : ℚ) / 100 + typeBoost (distinctTypes f) +
          sizeBoost f.Evidence.length))) ∧
      round2 ((k : ℚ) / 100 + typeBoost (distinctTypes f) + sizeBoost f.Evidence.length) =
        (k : ℚ) / 100 + typeBoost (distinctTypes f) + sizeBoost f.Evidence.length ∧
      boostConfidenceF64 f =
        toFloat64 (boostConfidence { f with Confidence := (k : ℚ) / 100 }) ∧
      ∀ fs : List Finding,
        ((Correlate fs).map fun m => m.Confidence).Perm
          ((mergeFindings fs).map boostConfidence) := by
  have h := boostF64_formula k (distinctTypes f) f.Evidence.length hk
  have h1 : boostConfidenceF64 f =
      toFloat64 (min 1 (round2 ((k : ℚ) / 100 + typeBoost (distinctTypes f) +
        sizeBoost f.Evidence.length))) := by
    rw [boostConfidenceF64_eq, hc, length_typeCounts]
    exact h.1
  refine ⟨h1, h.2, ?_, fun fs => ?_⟩
  · rw [h1, boostConfidence_eq]
    rfl
  · have hp := (correlate_perm fs).map fun m => m.Confidence
    simpa [List.map_map, Function.comp_def, rescore] using hp

/-- Witness of C9 as amended: `TestCorrelator_BoostMultipleEvidenceTypes`,
confidence `0.5` with three evidence types becomes `0.65`. -/
theorem boostConfidence_float_formula_witness :
    boostConfidenceF64 exBoostThreeTypes = toFloat64 (65 / 100) := by
  have h := (boostConfidence_float_formula exBoostThreeTypes 50 (by decide) (by decide!)).1
  rw [h]
  decide!

/-- C10: when every input confidence lies in `[0, 1]`, every finding returned
by `Correlate` has a confidence in `[0, 1]` that is a whole multiple of `0.01`. -/
theorem correlate_confidence_range (fs : List Finding)
    (h : ∀ f ∈ fs, 0 ≤ f.Confidence ∧ f.Confidence ≤ 1) :
    ∀ m ∈ Correlate fs,
      0 ≤ m.Confidence ∧ m.Confidence ≤ 1 ∧ ∃ n : ℤ, m.Confidence = (n : ℚ) / 100 := by
  intro m hm
  obtain ⟨k, p, extras, hg, rfl⟩ := (mem_correlate_iff fs m).1 hm
  have hconf : (rescore (extras.foldl mergePair p)).Confidence =
      boostConfidence (extras.foldl mergePair p) := by simp [rescore]
  rw [hconf]
  have hp : p ∈ fs := by
    have : p ∈ groupOf fs k := by rw [hg]; exact List.mem_cons_self _ _
    exact ((mem_groupOf fs k p).1 this).1
  have h0 : 0 ≤ (extras.foldl mergePair p).Confidence :=
    le_trans (h p hp).1 (foldl_mergePair_confidence_ge extras p p (List.mem_cons_self _ _))
  exact ⟨boostConfidence_nonneg _ h0, boostConfidence_le_one _, boostConfidence_hundredth _⟩

/-- Witness of C10 on the two findings of `TestCorrelator_MergesDuplicates`. -/
theorem correlate_confidence_range_witness :
    (∀ f ∈ [exPressure1, exPressure2], 0 ≤ f.Confidence ∧ f.Confidence ≤ 1) ∧
      (Correlate [exPressure1, exPressure2]).map (fun m => m.Confidence) = [95 / 100] ∧
      ∀ m ∈ Correlate [exPressure1, exPressure2],
        0 ≤ m.Confidence ∧ m.Confidence ≤ 1 ∧ ∃ n : ℤ, m.Confidence = (n : ℚ) / 100 :=
  ⟨by decide!, by decide!,
    correlate_confidence_range [exPressure1, exPressure2] (by decide!)⟩

/-- C11 fails at a finding of confidence `0` with one evidence item: nothing is
added, rounding keeps `0`, and `Correlate` returns confidence `0`. -/
theorem correlate_zero_confidence_counterexample :
    (Correlate [exZeroConfidence]).map (fun m => m.Confidence) = [0] ∧
      ¬ ∀ m ∈ Correlate [exZeroConfidence], 0 < m.Confidence := by
  decide!

/-- C11 as amended: when every input confidence is at least `0.005`, every
finding returned by `Correlate` has a confidence above zero, at least `0.01`. -/
theorem correlate_confidence_positive (fs : List Finding)
    (h : ∀ f ∈ fs, 1 / 200 ≤ f.Confidence) :
    ∀ m ∈ Correlate fs, 0 < m.Confidence ∧ 1 / 100 ≤ m.Confidence := by
  intro m hm
  obtain ⟨k, p, extras, hg, rfl⟩ := (mem_correlate_iff fs m).1 hm
  have hp : p ∈ fs := by
    have : p ∈ groupOf fs k := by rw [hg]; exact List.mem_cons_self _ _
    exact ((mem_groupOf fs k p).1 this).1
  have h0 : 1 / 200 ≤ (extras.foldl mergePair p).Confidence :=
    le_trans (h p hp) (foldl_mergePair_confidence_ge extras p p (List.mem_cons_self _ _))
  have hconf : (rescore (extras.foldl mergePair p)).Confidence =
      boostConfidence (extras.foldl mergePair p) := by simp [rescore]
  rw [hconf, boostConfidence_eq]
  have h1 := typeBoost_nonneg (distinctTypes (extras.foldl mergePair p))
  have h2 := sizeBoost_nonneg (extras.foldl mergePair p).Evidence.length
  have h3 := round2_ge_hundredth
    ((extras.foldl mergePair p).Confidence + typeBoost (distinctTypes (extras.foldl mergePair p)) +
      sizeBoost (extras.foldl mergePair p).Evidence.length) (by linarith)
  have h4 : (1 : ℚ) / 100 ≤ min 1 (round2
      ((extras.foldl mergePair p).Confidence +
        typeBoost (distinctTypes (extras.foldl mergePair p)) +
        sizeBoost (extras.foldl mergePair p).Evidence.length)) := le_min (by norm_num) h3
  exact ⟨by linarith, h4⟩

/-- Witness of C11 as amended on the findings of `TestCorrelator_MergesDuplicates`. -/
theorem correlate_confidence_positive_witness :
    (∀ f ∈ [exPressure1, exPressure2], 1 / 200 ≤ f.Confidence) ∧
      ∀ m ∈ Correlate [exPressure1, exPressure2], 0 < m.Confidence ∧ 1 / 100 ≤ m.Confidence :=
  ⟨by decide!, correlate_confidence_positive [exPressure1, exPressure2] (by decide!)⟩

/-- C12: a finding with 4 distinct evidence types, at least 5 evidence items and
a confidence between `0.8` and `1.0` is boosted to exactly `1.0`, which is what
`Correlate` reports for it, alone or as the merged finding of a group; no
finding returned by `Correlate` has a confidence above `1.0`. -/
theorem boost_ceiling (f : Finding) (hT : distinctTypes f = 4) (hE : 5 ≤ f.Evidence.length)
    (hlo : 8 / 10 ≤ f.Confidence) (_hhi : f.Confidence ≤ 1) :
    boostConfidence f = 1 ∧
      (Correlate [f]).map (fun m => m.Confidence) = [1] ∧
      (∀ fs : List Finding, f ∈ mergeFindings fs →
        ∃ m ∈ Correlate fs, m.ID = f.ID ∧ m.Evidence = f.Evidence ∧ m.Confidence = 1) ∧
      ∀ fs : List Finding, ∀ m ∈ Correlate fs, m.Confidence ≤ 1 := by
  have hb : boostConfidence f = 1 := by
    rw [boostConfidence_eq]
    have ht : typeBoost (distinctTypes f) = 15 / 100 := by simp [typeBoost, hT]
    have hs : sizeBoost f.Evidence.length = 5 / 100 := by simp [sizeBoost, hE]
    rw [ht, hs]
    exact min_eq_left (round2_ge_one _ (by linarith))
  refine ⟨hb, ?_, ?_, ?_⟩
  · rw [correlate_singleton]
    simp [rescore, hb]
  · intro fs hf
    refine ⟨rescore f, ?_, by simp [rescore], by simp [rescore], by simp [rescore, hb]⟩
    rw [(correlate_perm fs).mem_iff]
    exact List.mem_map_of_mem _ hf
  · intro fs m hm
    obtain ⟨k, p, extras, _, rfl⟩ := (mem_correlate_iff fs m).1 hm
    have hconf : (rescore (extras.foldl mergePair p)).Confidence =
        boostConfidence (extras.foldl mergePair p) := by simp [rescore]
    rw [hconf]
    exact boostConfidence_le_one _

/-- Witness of C12: `TestCorrelator_ConfidenceCappedAt1`. -/
theorem boost_ceiling_witness :
    distinctTypes exCapped = 4 ∧ 5 ≤ exCapped.Evidence.length ∧
      (Correlate [exCapped]).map (fun m => m.Confidence) = [1] :=
  ⟨by decide, by decide,
    (boost_ceiling exCapped (by decide) (by decide) (by decide!) (by decide!)).2.1⟩

/-- C13 fails at a finding of confidence `0.123` with one evidence item: nothing
is added and rounding to two decimals returns `0.12`. -/
theorem correlate_lowers_confidence_counterexample :
    (∀ f ∈ [exThirdDecimal], 0 ≤ f.Confidence ∧ f.Confidence ≤ 1) ∧
      (Correlate [exThirdDecimal]).map (fun m => m.Confidence) = [12 / 100] ∧
      ¬ ∀ m ∈ Correlate [exThirdDecimal], exThirdDecimal.Confidence ≤ m.Confidence := by
  decide!

/-- C13 as amended: with input confidences in `[0, 1]`, the finding returned for
a group has a confidence at least that of every finding of the group less
`0.005`, and at least that of every finding of the group whose confidence is a
whole multiple of `0.01`. -/
theorem correlate_confidence_lower_bound (fs : List Finding)
    (h : ∀ f ∈ fs, 0 ≤ f.Confidence ∧ f.Confidence ≤ 1)
    (k : String) (p : Finding) (extras : List Finding) (hg : groupOf fs k = p :: extras) :
    rescore (extras.foldl mergePair p) ∈ Correlate fs ∧
      ∀ g ∈ p :: extras,
        g.Confidence - 1 / 200 ≤ (rescore (extras.foldl mergePair p)).Confidence ∧
        ((∃ n : ℤ, g.Confidence = (n : ℚ) / 100) →
          g.Confidence ≤ (rescore (extras.foldl mergePair p)).Confidence) := by
  refine ⟨(mem_correlate_iff fs _).2 ⟨k, p, extras, hg, rfl⟩, fun g hgm => ?_⟩
  have hgfs : g ∈ fs := by
    have : g ∈ groupOf fs k := by rw [hg]; exact hgm
    exact ((mem_groupOf fs k g).1 this).1
  have hle := foldl_mergePair_confidence_ge extras p g hgm
  have hconf : (rescore (extras.foldl mergePair p)).Confidence =
      boostConfidence (extras.foldl mergePair p) := by simp [rescore]
  rw [hconf, boostConfidence_eq]
  have h1 := typeBoost_nonneg (distinctTypes (extras.foldl mergePair p))
  have h2 := sizeBoost_nonneg (extras.foldl mergePair p).Evidence.length
  have hsum : g.Confidence ≤ (extras.foldl mergePair p).Confidence +
      typeBoost (distinctTypes (extras.foldl mergePair p)) +
      sizeBoost (extras.foldl mergePair p).Evidence.length := by linarith
  constructor
  · apply le_min
    · have := (h g hgfs).2
      linarith
    · have := round2_ge_sub ((extras.foldl mergePair p).Confidence +
        typeBoost (distinctTypes (extras.foldl mergePair p)) +
        sizeBoost (extras.foldl mergePair p).Evidence.length)
      linarith
  · rintro ⟨n, hn⟩
    apply le_min (h g hgfs).2
    have := round2_mono hsum
    rw [hn, round2_hundredth] at this
    rw [hn]
    exact this

/-- Witness of C13 as amended on the findings of `TestCorrelator_MergesDuplicates`:
the returned confidence `0.95` is at least the larger input confidence `0.85`. -/
theorem correlate_confidence_lower_bound_witness :
    (∀ f ∈ [exPressure1, exPressure2], 0 ≤ f.Confidence ∧ f.Confidence ≤ 1) ∧
      groupOf [exPressure1, exPressure2] "node-health|node/worker-1" =
        [exPressure1, exPressure2] ∧
      exPressure2.Confidence ≤
        (rescore ([exPressure2].foldl mergePair exPressure1)).Confidence :=
  ⟨by decide!, rfl,
    ((correlate_confidence_lower_bound [exPressure1, exPressure2] (by decide!)
      "node-health|node/worker-1" exPressure1 [exPressure2] rfl).2
        exPressure2 (by simp)).2 ⟨85, by norm_num [exPressure2]⟩⟩

/-- C15 fails at a single finding that carries the same evidence item twice:
the evidence of a primary finding is never deduplicated and `Correlate` returns
both entries. -/
theorem correlate_repeated_evidence_counterexample :
    (Correlate [exRepeatedEvidence]).map (fun m => m.Evidence.map evidenceTriple) =
        [[("event", "pod/x", "BackOff"), ("event", "pod/x", "BackOff")]] ∧
      ¬ ∀ m ∈ Correlate [exRepeatedEvidence], (m.Evidence.map evidenceTriple).Nodup := by
  decide!

/-- C15 as amended: when no input finding has two evidence entries with the
same (type, ref, message) triple, no finding returned by `Correlate` has. -/
theorem correlate_evidence_triples_nodup (fs : List Finding)
    (h : ∀ f ∈ fs, (f.Evidence.map evidenceTriple).Nodup) :
    ∀ m ∈ Correlate fs, (m.Evidence.map evidenceTriple).Nodup := by
  intro m hm
  obtain ⟨k, p, extras, hg, rfl⟩ := (mem_correlate_iff fs m).1 hm
  have hp : p ∈ fs := by
    have : p ∈ groupOf fs k := by rw [hg]; exact List.mem_cons_self _ _
    exact ((mem_groupOf fs k p).1 this).1
  have hev : (rescore (extras.foldl mergePair p)).Evidence =
      (extras.foldl mergePair p).Evidence := by simp [rescore]
  rw [hev]
  exact foldl_mergePair_triples_nodup extras p (h p hp)

/-- Witness of C15 as amended on the findings of `TestCorrelator_MergesDuplicates`. -/
theorem correlate_evidence_triples_nodup_witness :
    (∀ f ∈ [exPressure1, exPressure2], (f.Evidence.map evidenceTriple).Nodup) ∧
      ∀ m ∈ Correlate [exPressure1, exPressure2], (m.Evidence.map evidenceTriple).Nodup :=
  ⟨by decide, correlate_evidence_triples_nodup [exPressure1, exPressure2] (by decide)⟩

/-- C17: the final sort of `Correlate` only reorders the merged and rescored
findings, which stand in the order in which their groups were first met; the
findings that agree with a given one on severity rank, confidence and ID come
out in the order in which they went in. -/
theorem correlate_sort_stable (fs : List Finding) :
    (Correlate fs).Perm ((mergeFindings fs).map rescore) ∧
      ((mergeFindings fs).map rescore).map some =
        ((firstKeys (fs.map rootCauseKey)).map fun k =>
          (mergeGroup (groupOf fs k)).map rescore) ∧
      ∀ a : Finding,
        (Correlate fs).filter (fun b => decide (sameSortKey a b)) =
          ((mergeFindings fs).map rescore).filter (fun b => decide (sameSortKey a b)) := by
  refine ⟨correlate_perm fs, ?_, fun a => ?_⟩
  · have h2 : ((mergeFindings fs).map rescore).map some =
        ((mergeFindings fs).map some).map (Option.map rescore) := by
      simp [List.map_map, Function.comp_def]
    rw [h2, mergeFindings_map_some, List.map_map]
    rfl
  · unfold Correlate
    apply filter_sortFindings
    intro x y hx hy
    have hx' : sameSortKey a x := of_decide_eq_true hx
    have hy' : sameSortKey a y := of_decide_eq_true hy
    apply not_sortLess_of_sameSortKey
    obtain ⟨x1, x2, x3⟩ := hx'
    obtain ⟨y1, y2, y3⟩ := hy'
    exact ⟨x1.symm.trans y1, x2.symm.trans y2, x3.symm.trans y3⟩

/-- C16: `buildReasoning f` joins with `"; "` the clause `confidence=<p>%`, then
for each of resource, event, log, metric that occurs in the evidence the clause
`<count> <type> source(s)`, then `strong cross-signal agreement` for three or
more distinct evidence types and `cross-signal agreement` for exactly two; `p` is
the whole number `n` when the confidence is `n/100`; every finding returned by
`Correlate` carries the reasoning built from its own, boosted, confidence. -/
theorem buildReasoning_spec :
    (∀ f : Finding,
        buildReasoning f =
          String.intercalate "; "
            (["confidence=" ++ formatFixed0 (f.Confidence * 100) ++ "%"] ++
              (([EvidenceResource, EvidenceEvent, EvidenceLog, EvidenceMetric].filter
                  fun t => 0 < countType f t).map
                fun t => toString (countType f t) ++ " " ++ t ++ " source(s)") ++
              (if 3 ≤ distinctTypes f then ["strong cross-signal agreement"]
                else if distinctTypes f = 2 then ["cross-signal agreement"] else []))) ∧
      (∀ (f : Finding) (n : Nat), f.Confidence = (n : ℚ) / 100 →
        formatFixed0 (f.Confidence * 100) = toString n) ∧
      ∀ (fs : List Finding), ∀ m ∈ Correlate fs,
        m.Reasoning = buildReasoning m ∧
          ∃ m0 ∈ mergeFindings fs, m.Confidence = boostConfidence m0 := by
  refine ⟨fun f => ?_, fun f n h => ?_, fun fs m hm => ?_⟩
  · unfold buildReasoning
    simp only [length_typeCounts, lookupCount_typeCounts]
    have hfm := filterMap_counts (countType f)
      (fun t n => toString n ++ " " ++ t ++ " source(s)")
      [EvidenceResource, EvidenceEvent, EvidenceLog, EvidenceMetric]
    unfold countType at hfm ⊢
    rw [hfm]
    by_cases h3 : 3 ≤ distinctTypes f
    · simp [h3]
    · by_cases h2 : distinctTypes f = 2
      · simp [h2]
      · have h2' : ¬ 2 ≤ distinctTypes f := by omega
        simp [h3, h2, h2']
  · have : f.Confidence * 100 = (n : ℚ) := by rw [h]; ring
    rw [this, formatFixed0_nat]
  · rw [(correlate_perm fs).mem_iff, List.mem_map] at hm
    obtain ⟨m0, hm0, rfl⟩ := hm
    exact ⟨buildReasoning_rescore m0, m0, hm0, by simp [rescore]⟩

/-- Witness of C16: the reasoning that `Correlate` builds in
`TestCorrelator_ReasoningContainsSourceCounts`. -/
theorem buildReasoning_spec_witness :
    exReasoning.Confidence = ((60 : Nat) : ℚ) / 100 ∧
      formatFixed0 (exReasoning.Confidence * 100) = "60" ∧
      (Correlate [exReasoning]).map (fun m => m.Reasoning) =
        ["confidence=70%; 2 resource source(s); 1 event source(s); cross-signal agreement"] :=
  ⟨by norm_num [exReasoning],
    buildReasoning_spec.2.1 exReasoning 60 (by norm_num [exReasoning]), by decide!⟩

/-- C14 at the failing input: the findings of categories `a|b` (no evidence)
and `a` (resource ref `b`) share the key `a|b` and merge into a finding whose
own key is `a|b|b`, the key of the third finding; `Correlate` of the result
merges the two, so the (merge key, severity) pairs change. -/
theorem correlate_twice_key_collision :
    (Correlate [exPipeA, exPipeB, exPipeC]).map (fun m => (rootCauseKey m, m.Severity)) =
        [("a|b|b", "high"), ("a|b|b", "low")] ∧
      (Correlate (Correlate [exPipeA, exPipeB, exPipeC])).map
          (fun m => (rootCauseKey m, m.Severity)) =
        [("a|b|b|b", "high")] := by
  decide!

/-! ## Properties of the engine and of the rules -/

/-- C18: `Analyze` returns a report of schema version `v1` whose findings are the
results of the registered rules, concatenated in registration order and
otherwise untouched; `Register` appends a rule at the end; `DefaultEngine`
registers node-pressure, pending-pods, dns-instability and storage-issues in
that order. -/
theorem analyze_concatenates_rules :
    (∀ (e : Engine) (snap : Snapshot),
        e.Analyze snap =
          { SchemaVersion := "v1", Findings := (e.rules.map fun r => r.Evaluate snap).flatten }) ∧
      (∀ rules : List Rule, (NewEngine rules).rules = rules) ∧
      (∀ (e : Engine) (r : Rule), (e.Register r).rules = e.rules ++ [r]) ∧
      (∀ rt : Runtime,
        (DefaultEngine rt).rules.map (fun r => r.Name) =
          ["node-pressure", "pending-pods", "dns-instability", "storage-issues"]) ∧
      ∀ (rt : Runtime) (snap : Snapshot),
        ((DefaultEngine rt).Analyze snap).Findings =
          NodePressureRule.Evaluate rt snap ++ PendingPodsRule.Evaluate rt snap ++
            DNSRule.Evaluate rt snap ++ StorageRule.Evaluate rt snap := by
  have h : ∀ (e : Engine) (snap : Snapshot),
      e.Analyze snap =
        { SchemaVersion := "v1", Findings := (e.rules.map fun r => r.Evaluate snap).flatten } := by
    intro e snap
    unfold Engine.Analyze NewReport
    rw [foldl_append_eq_flatten]
    simp [SchemaVersion]
  refine ⟨h, fun _ => rfl, fun _ _ => rfl, fun _ => rfl, fun rt snap => ?_⟩
  rw [h]
  simp [DefaultEngine, NewEngine, NodePressureRule.toRule, PendingPodsRule.toRule,
    DNSRule.toRule, StorageRule.toRule]

/-- C20: `NodePressureRule.Evaluate` returns, node by node and condition by
condition, one finding for each condition entry of type DiskPressure,
MemoryPressure or PIDPressure with status True, and nothing else; without such
an entry it returns nothing. -/
theorem nodePressure_one_finding_per_condition (rt : Runtime) (snap : Snapshot) :
    NodePressureRule.Evaluate rt snap =
        (snap.Nodes.map fun node =>
          (node.Conditions.filter fun c => decide (isTruePressure c)).map
            (pressureFinding rt snap node)).flatten ∧
      ((∀ node ∈ snap.Nodes, ∀ c ∈ node.Conditions, ¬ isTruePressure c) →
        NodePressureRule.Evaluate rt snap = []) := by
  refine ⟨nodePressure_evaluate_eq rt snap, fun h => ?_⟩
  rw [nodePressure_evaluate_eq]
  apply List.flatten_eq_nil_iff.2
  intro l hl
  rcases List.mem_map.1 hl with ⟨node, hnode, rfl⟩
  have : (node.Conditions.filter fun c => decide (isTruePressure c)) = [] := by
    apply List.filter_eq_nil_iff.2
    intro c hc
    simpa using h node hnode c hc
  rw [this]
  rfl

/-- Witness of C20: `TestNodePressureRule_NoFindings` and
`TestNodePressureRule_MultiplePressures`. -/
theorem nodePressure_one_finding_per_condition_witness :
    (∀ node ∈ exNoPressure.Nodes, ∀ c ∈ node.Conditions, ¬ isTruePressure c) ∧
      NodePressureRule.Evaluate exRuntime exNoPressure = [] ∧
      (NodePressureRule.Evaluate exRuntime exTwoPressures).map (fun f => f.ID) =
        ["node-pressure-worker-3-diskpressure", "node-pressure-worker-3-pidpressure"] :=
  ⟨by decide,
    (nodePressure_one_finding_per_condition exRuntime exNoPressure).2 (by decide),
    by decide⟩

/-- C19: every finding returned by one of the four rules is well formed: its
category is not empty, it has an evidence item, its severity is low, medium,
high or critical, and its confidence lies in `[0, 1]`. -/
theorem rule_findings_wellFormed (rt : Runtime) (snap : Snapshot) :
    (∀ f ∈ NodePressureRule.Evaluate rt snap, WellFormed f) ∧
      (∀ f ∈ PendingPodsRule.Evaluate rt snap, WellFormed f) ∧
      (∀ f ∈ DNSRule.Evaluate rt snap, WellFormed f) ∧
      (∀ f ∈ StorageRule.Evaluate rt snap, WellFormed f) := by
  refine ⟨fun f hf => ?_, fun f hf => ?_, fun f hf => ?_, fun f hf => ?_⟩
  · rw [nodePressure_evaluate_eq] at hf
    simp only [List.mem_flatten, List.mem_map] at hf
    obtain ⟨l, ⟨node, _, rfl⟩, hfl⟩ := hf
    obtain ⟨c, _, rfl⟩ := List.mem_map.1 hfl
    exact pressureFinding_wellFormed rt snap node c
  · obtain ⟨e, he, rfl⟩ := mem_pendingPods_evaluate rt snap f hf
    exact pendingFinding_wellFormed rt snap e.1 e.2 (pendingBuckets_nonempty snap e he)
  · simp only [DNSRule.Evaluate] at hf
    split_ifs at hf with h0 h1
    · simp at hf
    · simp at hf
    · simp only [List.mem_singleton] at hf
      subst hf
      refine ⟨by simp, ?_, dnsSeverity_known _ _ _, (dnsConfidence_range _ _ _ _).1,
        (dnsConfidence_range _ _ _ _).2⟩
      intro hnil
      apply h1
      simp only at hnil
      rw [hnil]
      rfl
  · simp only [StorageRule.Evaluate] at hf
    split_ifs at hf with h1
    · simp at hf
    · simp only [List.mem_singleton] at hf
      subst hf
      refine ⟨by simp, ?_, storageSeverity_known _ _, (storageConfidence_range _ _).1,
        (storageConfidence_range _ _).2⟩
      intro hnil
      apply h1
      simp only at hnil
      rw [hnil]
      rfl

/-- Witness of C19: the four rules on a snapshot on which each of them reports. -/
theorem rule_findings_wellFormed_witness :
    ((DefaultEngine exRuntime).Analyze exBusy).Findings.map (fun f => f.ID) =
        ["node-pressure-worker-1-diskpressure", "pending-pods-insufficient-cpu",
         "pending-pods-insufficient-memory", "dns-instability", "storage-issue"] ∧
      ∀ f ∈ DNSRule.Evaluate exRuntime exBusy, WellFormed f :=
  ⟨by decide, (rule_findings_wellFormed exRuntime exBusy).2.2.1⟩

/-- C21: a node-pressure finding is critical when an eviction event was
correlated to its node; otherwise it is high for MemoryPressure and
DiskPressure and medium for PIDPressure, and `pressureSeverity` gives medium
for every other condition type. -/
theorem nodePressure_severity (rt : Runtime) (snap : Snapshot) :
    (∀ f ∈ NodePressureRule.Evaluate rt snap,
        ∃ node ∈ snap.Nodes, ∃ cond ∈ node.Conditions,
          isTruePressure cond ∧ f = pressureFinding rt snap node cond) ∧
      (∀ (node : NodeInfo) (cond : NodeCondition),
        (findEvictionEvents snap.Events node.Name ≠ [] →
          (pressureFinding rt snap node cond).Severity = "critical") ∧
        (findEvictionEvents snap.Events node.Name = [] →
          (cond.Type_ = "MemoryPressure" ∨ cond.Type_ = "DiskPressure" →
            (pressureFinding rt snap node cond).Severity = "high") ∧
          (cond.Type_ = "PIDPressure" →
            (pressureFinding rt snap node cond).Severity = "medium"))) ∧
      ∀ (ct : String) (n : Int), n ≤ 0 → ct ≠ "MemoryPressure" → ct ≠ "DiskPressure" →
        pressureSeverity ct n = "medium" := by
  refine ⟨fun f hf => (mem_nodePressure_evaluate rt snap f).1 hf, fun node cond => ⟨?_, ?_⟩,
    fun ct n hn h1 h2 => ?_⟩
  · intro h
    have hpos : (0 : Int) < ((findEvictionEvents snap.Events node.Name).length : Int) := by
      have := List.length_pos.2 h
      omega
    simp [pressureFinding, pressureSeverity, hpos, SeverityCritical]
  · intro h
    constructor
    · intro ht
      simp [pressureFinding, pressureSeverity, h, NodeMemoryPressure, NodeDiskPressure, ht,
        SeverityHigh]
    · intro ht
      simp [pressureFinding, pressureSeverity, h, NodeMemoryPressure, NodeDiskPressure, ht,
        SeverityMedium]
  · have hn' : ¬ n > 0 := by omega
    simp [pressureSeverity, hn', NodeMemoryPressure, NodeDiskPressure, h1, h2, SeverityMedium]

/-- Witness of C21: `TestNodePressureRule_DiskPressure`, a disk pressure without
eviction events is high. -/
theorem nodePressure_severity_witness :
    findEvictionEvents exTwoPressures.Events "worker-3" = [] ∧
      (NodePressureRule.Evaluate exRuntime exTwoPressures).map (fun f => f.Severity) =
        ["high", "medium"] ∧
      (pressureFinding exRuntime exTwoPressures { Name := "worker-3" }
        { Type_ := "PIDPressure" }).Severity = "medium" :=
  ⟨rfl, by decide,
    (((nodePressure_severity exRuntime exTwoPressures).2.1 { Name := "worker-3" }
      { Type_ := "PIDPressure" }).2 rfl).2 rfl⟩

/-- C22: for a single node whose only true pressure condition is DiskPressure,
with at least one correlated eviction event, `NodePressureRule.Evaluate` returns
one finding with id `node-pressure-N-diskpressure`, severity critical and
confidence at least `0.85`; the confidence of a node-pressure finding is `0.70`
without correlated event, `0.85` with 1 to 3 and `0.95` with more, and its
evidence is a resource item with ref `node/N` followed by an event item per
correlated event. -/
theorem nodePressure_disk_scenario (rt : Runtime) (snap : Snapshot) (node : NodeInfo)
    (cond : NodeCondition) (h1 : snap.Nodes = [node])
    (h2 : node.Conditions.filter (fun c => decide (isTruePressure c)) = [cond])
    (h3 : cond.Type_ = "DiskPressure")
    (h4 : findEvictionEvents snap.Events node.Name ≠ []) :
    (∃ f, NodePressureRule.Evaluate rt snap = [f] ∧
        f.ID = "node-pressure-" ++ node.Name ++ "-diskpressure" ∧
        f.Severity = "critical" ∧ 85 / 100 ≤ f.Confidence) ∧
      ∀ (node' : NodeInfo) (cond' : NodeCondition),
        (pressureFinding rt snap node' cond').Confidence =
            (if (findEvictionEvents snap.Events node'.Name).length = 0 then 70 / 100
              else if (findEvictionEvents snap.Events node'.Name).length ≤ 3 then 85 / 100
              else 95 / 100) ∧
          (pressureFinding rt snap node' cond').Evidence.map (fun e => (e.Type_, e.Ref)) =
            ("resource", "node/" ++ node'.Name) ::
              (findEvictionEvents snap.Events node'.Name).map
                fun ev => ("event", ev.InvolvedObject) := by
  have hconf : ∀ (node' : NodeInfo) (cond' : NodeCondition),
      (pressureFinding rt snap node' cond').Confidence =
        (if (findEvictionEvents snap.Events node'.Name).length = 0 then 70 / 100
          else if (findEvictionEvents snap.Events node'.Name).length ≤ 3 then 85 / 100
          else 95 / 100) := by
    intro node' cond'
    have := pressureConfidence_values cond' (findEvictionEvents snap.Events node'.Name).length
    simpa [pressureFinding] using this
  constructor
  · refine ⟨pressureFinding rt snap node cond, ?_, ?_, ?_, ?_⟩
    · rw [nodePressure_evaluate_eq, h1]
      simp [h2]
    · simp only [pressureFinding, h3]
      have : conditionSlug "DiskPressure" = "diskpressure" := by decide
      rw [this, String.append_assoc _ "-" "diskpressure"]
      rfl
    · exact ((nodePressure_severity rt snap).2.1 node cond).1 h4
    · rw [hconf]
      have hlen : (findEvictionEvents snap.Events node.Name).length ≠ 0 := by
        intro h
        exact h4 (List.length_eq_zero.1 h)
      rw [if_neg hlen]
      split_ifs <;> norm_num
  · intro node' cond'
    refine ⟨hconf node' cond', ?_⟩
    simp [pressureFinding, pressureEventEvidence, EvidenceResource, EvidenceEvent,
      Function.comp_def]

/-- Witness of C22: the scenario of the specification. -/
theorem nodePressure_disk_scenario_witness :
    exDiskEviction.Nodes.length = 1 ∧
      findEvictionEvents exDiskEviction.Events "worker-1" ≠ [] ∧
      ∃ f, NodePressureRule.Evaluate exRuntime exDiskEviction = [f] ∧
        f.ID = "node-pressure-" ++ "worker-1" ++ "-diskpressure" ∧
        f.Severity = "critical" ∧ 85 / 100 ≤ f.Confidence :=
  ⟨rfl, by decide,
    (nodePressure_disk_scenario exRuntime exDiskEviction
      { Name := "worker-1",
        Conditions := [{ Type_ := "Ready", Status := "True" },
                       { Type_ := NodeDiskPressure, Status := ConditionTrue,
                         Reason := "KubeletHasDiskPressure",
                         Message := "kubelet has disk pressure" }] }
      { Type_ := NodeDiskPressure, Status := ConditionTrue,
        Reason := "KubeletHasDiskPressure", Message := "kubelet has disk pressure" }
      rfl (by decide) rfl (by decide)).1⟩

/-- C24 fails at an event of reason `evicted` and message `oomkilling on
worker-1`: both sides of the keyword match are lower-cased, so the event counts
as eviction-related and becomes evidence of the finding, which is critical. -/
theorem eviction_lowercase_counterexample :
    isEvictionRelated "evicted" "" = true ∧ isEvictionRelated "" "oomkilling" = true ∧
      (NodePressureRule.Evaluate exRuntime exLowercaseEviction).map
          (fun f => (f.Severity, f.Evidence.map fun e => (e.Type_, e.Message))) =
        [("critical", [("resource", "Condition DiskPressure is True: kubelet has disk pressure"),
                       ("event", "oomkilling on worker-1")])] := by
  decide

/-- C24 as amended: the eviction keywords are matched without regard to letter
case: whether an event is eviction-related depends only on its lower-cased
reason and message, namely on whether a lower-cased keyword occurs in them; such
an event is correlated to a node when its involved object or its message
contains the node name as it is spelled. -/
theorem eviction_keywords_case_insensitive :
    (∀ r m r' m' : String, strings.ToLower r = strings.ToLower r' →
        strings.ToLower m = strings.ToLower m' →
        isEvictionRelated r m = isEvictionRelated r' m') ∧
      (∀ r m : String, isEvictionRelated r m = true ↔
        ∃ kw ∈ evictionReasons,
          strings.Contains (strings.ToLower r ++ " " ++ strings.ToLower m)
            (strings.ToLower kw) = true) ∧
      ∀ (events : List EventInfo) (nodeName : String) (ev : EventInfo),
        ev ∈ findEvictionEvents events nodeName ↔
          ev ∈ events ∧ isEvictionRelated ev.Reason ev.Message = true ∧
            (strings.Contains ev.InvolvedObject nodeName = true ∨
              strings.Contains ev.Message nodeName = true) := by
  refine ⟨fun r m r' m' hr hm => ?_, isEvictionRelated_iff, fun events nodeName ev => ?_⟩
  · have h1 := isEvictionRelated_iff r m
    have h2 := isEvictionRelated_iff r' m'
    rw [hr, hm] at h1
    cases hb : isEvictionRelated r m with
    | true =>
      exact (h2.2 (h1.1 hb)).symm
    | false =>
      cases hb' : isEvictionRelated r' m' with
      | false => rfl
      | true =>
        have := h1.2 (h2.1 hb')
        rw [hb] at this
        exact absurd this (by simp)
  · simp [findEvictionEvents, List.mem_filter]

/-- Witness of C24 as amended: `Evicted` and `evicted` are treated alike. -/
theorem eviction_keywords_case_insensitive_witness :
    strings.ToLower "Evicted" = strings.ToLower "evicted" ∧
      isEvictionRelated "Evicted" "x" = isEvictionRelated "evicted" "x" ∧
      isEvictionRelated "evicted" "x" = true :=
  ⟨by decide, eviction_keywords_case_insensitive.1 "Evicted" "x" "evicted" "x" (by decide) rfl,
    by decide⟩

/-- C27: for a group of `n ≥ 1` pods of category `c` the pending-pods severity
is critical for `n ≥ 5`; below that it is high for insufficient-cpu and
insufficient-memory with `n ≥ 2` and medium with `n = 1`, medium for taint and
affinity, and low for every other category; the finding of a group carries that
severity. -/
theorem pendingSeverity_table (n : Int) (c : String) (hn : 1 ≤ n) :
    (5 ≤ n → pendingSeverity n c = "critical") ∧
      (n < 5 → (c = "insufficient-cpu" ∨ c = "insufficient-memory") →
        (2 ≤ n → pendingSeverity n c = "high") ∧ (n = 1 → pendingSeverity n c = "medium")) ∧
      (n < 5 → (c = "taint" ∨ c = "affinity") → pendingSeverity n c = "medium") ∧
      (n < 5 → c ≠ "insufficient-cpu" → c ≠ "insufficient-memory" → c ≠ "taint" →
        c ≠ "affinity" → pendingSeverity n c = "low") ∧
      ∀ (rt : Runtime) (snap : Snapshot), ∀ f ∈ PendingPodsRule.Evaluate rt snap,
        ∃ e ∈ pendingBuckets snap, f.ID = "pending-pods-" ++ e.1 ∧
          1 ≤ (e.2.length : Int) ∧ f.Severity = pendingSeverity e.2.length e.1 := by
  refine ⟨fun h5 => ?_, fun h5 hc => ⟨fun h2 => ?_, fun h1 => ?_⟩, fun h5 hc => ?_,
    fun h5 h1 h2 h3 h4 => ?_, fun rt snap f hf => ?_⟩
  · simp [pendingSeverity, h5, SeverityCritical]
  · have : ¬ n ≥ 5 := by omega
    simp [pendingSeverity, this, hc, h2, SeverityHigh]
  · have : ¬ n ≥ 5 := by omega
    have h2 : ¬ n ≥ 2 := by omega
    simp [pendingSeverity, this, hc, h2, SeverityMedium]
  · have : ¬ n ≥ 5 := by omega
    rcases hc with rfl | rfl <;> simp [pendingSeverity, this, SeverityMedium]
  · have : ¬ n ≥ 5 := by omega
    simp [pendingSeverity, this, h1, h2, h3, h4, SeverityLow]
  · obtain ⟨e, he, rfl⟩ := mem_pendingPods_evaluate rt snap f hf
    refine ⟨e, he, rfl, ?_, rfl⟩
    have := List.length_pos.2 (pendingBuckets_nonempty snap e he)
    omega

/-- Witness of C27: `TestPendingPodsRule_HighCountCritical`, six
insufficient-memory pods are critical. -/
theorem pendingSeverity_table_witness :
    pendingSeverity 6 "insufficient-memory" = "critical" ∧
      (PendingPodsRule.Evaluate exRuntime exSixPending).map (fun f => (f.ID, f.Severity)) =
        [("pending-pods-insufficient-memory", "critical")] :=
  ⟨(pendingSeverity_table 6 "insufficient-memory" (by decide)).1 (by decide), by decide⟩

/-- C28: with `t > 0` pods in the snapshot the confidence of a group of `n`
pending pods is `0.60`, plus `0.15` for `n ≥ 3`, plus `0.15` for `10 n > t`, and
at most `1.0`; `pendingConfidence` gives `0.5` exactly for `t = 0`, which no
finding of `Evaluate` meets, as the snapshot of a group has a pod. -/
theorem pendingConfidence_formula :
    (∀ n t : Int, 0 < t →
        pendingConfidence n t =
            60 / 100 + (if 3 ≤ n then 15 / 100 else 0) +
              (if t < 10 * n then 15 / 100 else 0) ∧
          pendingConfidence n t ≤ 1) ∧
      (∀ n t : Int, 0 ≤ t → (pendingConfidence n t = 5 / 10 ↔ t = 0)) ∧
      ∀ (rt : Runtime) (snap : Snapshot), ∀ f ∈ PendingPodsRule.Evaluate rt snap,
        ∃ e ∈ pendingBuckets snap, f.ID = "pending-pods-" ++ e.1 ∧
          0 < snap.Pods.length ∧
          f.Confidence = pendingConfidence e.2.length snap.Pods.length := by
  refine ⟨fun n t ht => ⟨pendingConfidence_eq n t ht, (pendingConfidence_range n t).2⟩,
    fun n t ht => ⟨fun h => ?_, fun h => ?_⟩, fun rt snap f hf => ?_⟩
  · by_contra h0
    have hpos : 0 < t := by omega
    rw [pendingConfidence_eq n t hpos] at h
    by_cases h3 : 3 ≤ n <;> by_cases hr : t < 10 * n <;>
      simp only [h3, hr, if_true, if_false] at h <;> norm_num at h
  · subst h
    simp [pendingConfidence]
  · obtain ⟨e, he, rfl⟩ := mem_pendingPods_evaluate rt snap f hf
    exact ⟨e, he, rfl, pendingBuckets_pods_ne_nil snap e he, rfl⟩

/-- Witness of C28: `TestPendingPodsRule_HighCountCritical`, six pending pods
out of six have confidence `0.9`. -/
theorem pendingConfidence_formula_witness :
    pendingConfidence 6 6 = 90 / 100 ∧
      (PendingPodsRule.Evaluate exRuntime exSixPending).map (fun f => f.Confidence) =
        [90 / 100] :=
  ⟨by rw [(pendingConfidence_formula.1 6 6 (by decide)).1]; norm_num, by decide!⟩

/-- C23 fails at a node that lists DiskPressure twice as true: `Evaluate`
returns a finding for each entry, both with the id
`node-pressure-worker-1-diskpressure`. -/
theorem nodePressure_repeated_id_counterexample :
    (NodePressureRule.Evaluate exRuntime exRepeatedCondition).map (fun f => f.ID) =
        ["node-pressure-worker-1-diskpressure", "node-pressure-worker-1-diskpressure"] ∧
      ¬ ((NodePressureRule.Evaluate exRuntime exRepeatedCondition).map fun f => f.ID).Nodup := by
  decide

/-- C23 as amended: when the nodes of the snapshot have pairwise distinct names
and no node lists a pressure condition type twice as true,
`NodePressureRule.Evaluate` never returns two findings with the same id. -/
theorem nodePressure_ids_nodup (rt : Runtime) (snap : Snapshot)
    (hnames : (snap.Nodes.map fun n => n.Name).Nodup)
    (hconds : ∀ node ∈ snap.Nodes,
      ((node.Conditions.filter fun c => decide (isTruePressure c)).map fun c => c.Type_).Nodup) :
    ((NodePressureRule.Evaluate rt snap).map fun f => f.ID).Nodup := by
  rw [nodePressure_evaluate_eq, List.map_flatten, List.nodup_flatten]
  constructor
  · intro l hl
    simp only [List.mem_map] at hl
    obtain ⟨l', ⟨node, hnode, rfl⟩, rfl⟩ := hl
    rw [List.map_map]
    have hnd := hconds node hnode
    have hnd' : (node.Conditions.filter fun c => decide (isTruePressure c)).Nodup :=
      List.Nodup.of_map _ hnd
    apply List.Nodup.map_on _ hnd'
    intro x hx y hy hxy
    have hxp := isTruePressure_mem x (of_decide_eq_true (List.mem_filter.1 hx).2)
    have hyp := isTruePressure_mem y (of_decide_eq_true (List.mem_filter.1 hy).2)
    simp only [Function.comp, pressureFinding_id] at hxy
    have ht := (pressureId_injective _ _ _ _ hxp hyp hxy).2
    exact List.inj_on_of_nodup_map hnd hx hy ht
  · rw [List.map_map, List.pairwise_map]
    rw [List.Nodup, List.pairwise_map] at hnames
    refine hnames.imp ?_
    intro n₁ n₂ hne
    rw [Function.comp, Function.comp, List.disjoint_left]
    intro id h1 h2
    simp only [List.mem_map] at h1 h2
    obtain ⟨f₁, ⟨c₁, hc₁, rfl⟩, rfl⟩ := h1
    obtain ⟨f₂, ⟨c₂, hc₂, rfl⟩, hid⟩ := h2
    have hp₁ := isTruePressure_mem c₁ (of_decide_eq_true (List.mem_filter.1 hc₁).2)
    have hp₂ := isTruePressure_mem c₂ (of_decide_eq_true (List.mem_filter.1 hc₂).2)
    rw [pressureFinding_id, pressureFinding_id] at hid
    exact hne (pressureId_injective _ _ _ _ hp₂ hp₁ hid).1.symm

/-- Witness of C23 as amended: `TestNodePressureRule_MultiplePressures`. -/
theorem nodePressure_ids_nodup_witness :
    (exTwoPressures.Nodes.map fun n => n.Name).Nodup ∧
      ((NodePressureRule.Evaluate exRuntime exTwoPressures).map fun f => f.ID).Nodup :=
  ⟨by decide, nodePressure_ids_nodup exRuntime exTwoPressures (by decide) (by decide)⟩

/-- C29 fails at a kube-system health view that lists the pod `coredns-abc`
twice: both entries are taken over. -/
theorem findCoreDNSPods_repeated_counterexample :
    (findCoreDNSPods exRepeatedDNSPod).map podKey =
        [("coredns-abc", "kube-system"), ("coredns-abc", "kube-system")] ∧
      ¬ ((findCoreDNSPods exRepeatedDNSPod).map podKey).Nodup := by
  decide

/-- C29 as amended: when the DNS pods of the kube-system health view have
pairwise distinct (name, namespace) pairs, the pods returned by
`findCoreDNSPods` have; every pod added from the general pod list is new in name
or namespace. -/
theorem findCoreDNSPods_keys_nodup (snap : Snapshot)
    (h : ((snap.KubeSystem.Pods.filter fun p => isCoreDNSPod p.Name).map podKey).Nodup) :
    ((findCoreDNSPods snap).map podKey).Nodup := by
  rw [findCoreDNSPods_eq]
  exact foldl_addGeneral_keys_nodup snap.Pods _ h

/-- Witness of C29 as amended: a general pod list that holds the same DNS pod
twice. -/
theorem findCoreDNSPods_keys_nodup_witness :
    (findCoreDNSPods { exDNSPodGeneral with Pods := exDNSPodGeneral.Pods ++ exDNSPodGeneral.Pods
        }).map podKey = [("coredns-xyz", "kube-system")] ∧
      ((findCoreDNSPods { exDNSPodGeneral with Pods := exDNSPodGeneral.Pods ++ exDNSPodGeneral.Pods
        }).map podKey).Nodup :=
  ⟨by decide, findCoreDNSPods_keys_nodup _ (by decide)⟩

/-- C30 fails for the pod `coredns-xyz` with 7 restarts in the namespace
`default`: it is in the general pod list and its name contains "coredns", yet it
is not taken as a DNS pod and the rule returns nothing, while the same pod in
`kube-system` gives the finding. -/
theorem dns_general_pod_counterexample :
    (∃ p ∈ exDNSPodElsewhere.Pods, isCoreDNSPod p.Name = true ∧
        ∃ c ∈ p.Containers, restartThreshold ≤ c.RestartCount) ∧
      findCoreDNSPods exDNSPodElsewhere = [] ∧
      DNSRule.Evaluate exRuntime exDNSPodElsewhere = [] ∧
      (DNSRule.Evaluate exRuntime exDNSPodGeneral).map (fun f => f.ID) = ["dns-instability"] := by
  refine ⟨⟨_, List.mem_singleton_self _, by decide, _, List.mem_singleton_self _, by decide⟩,
    by decide, by decide, by decide⟩

/-- C30 as amended: a pod of the general pod list that is in the namespace
`kube-system` and whose name contains "coredns" or "kube-dns"
(case-insensitively) is represented among the inspected DNS pods by a pod of the
same name and namespace, which is the pod itself when no other pod of the health
view or of the general list has its name and namespace; and every inspected pod
with a container of restart count at least 3 gives the finding `dns-instability`
with a resource evidence item for that container. -/
theorem dns_general_pod_inspected (rt : Runtime) (snap : Snapshot) (p : PodInfo)
    (hp : p ∈ snap.Pods) (hns : p.Namespace = "kube-system")
    (hdns : isCoreDNSPod p.Name = true) :
    (∃ q ∈ findCoreDNSPods snap, q.Name = p.Name ∧ q.Namespace = p.Namespace) ∧
      ((∀ q ∈ snap.KubeSystem.Pods ++ snap.Pods,
          q.Name = p.Name → q.Namespace = p.Namespace → q = p) → p ∈ findCoreDNSPods snap) ∧
      (∀ q ∈ findCoreDNSPods snap, ∀ c ∈ q.Containers, restartThreshold ≤ c.RestartCount →
        ∃ f, DNSRule.Evaluate rt snap = [f] ∧ f.ID = "dns-instability" ∧
          ∃ e ∈ f.Evidence, isRestartEvidence q c e) := by
  have h1 : ∃ q ∈ findCoreDNSPods snap, q.Name = p.Name ∧ q.Namespace = p.Namespace := by
    have h := foldl_addGeneral_key snap.Pods
      (snap.KubeSystem.Pods.filter fun p => isCoreDNSPod p.Name) p hp hns hdns
    rw [← findCoreDNSPods_eq] at h
    obtain ⟨q, hq, hkey⟩ := List.mem_map.1 h
    simp only [podKey, Prod.mk.injEq] at hkey
    exact ⟨q, hq, hkey⟩
  refine ⟨h1, ?_, ?_⟩
  · intro huniq
    obtain ⟨q, hq, hn, hs⟩ := h1
    have hq' := hq
    rw [findCoreDNSPods_eq] at hq'
    have hsrc : q ∈ snap.KubeSystem.Pods ++ snap.Pods := by
      rcases foldl_addGeneral_mem snap.Pods _ q hq' with h | h
      · exact List.mem_append_left _ (List.mem_filter.1 h).1
      · exact List.mem_append_right _ h
    rw [← huniq q hsrc hn hs]
    exact hq
  · intro q hq c hmem hc
    exact dns_evaluate_of_restarts rt snap q hq c hmem hc

/-- Witness of C30 as amended: the snapshot of `TestDNSRule_PodFromMainPodList`. -/
theorem dns_general_pod_inspected_witness :
    (∃ q ∈ findCoreDNSPods exDNSPodGeneral,
        q.Name = "coredns-xyz" ∧ q.Namespace = "kube-system") ∧
      (∃ f, DNSRule.Evaluate exRuntime exDNSPodGeneral = [f] ∧ f.ID = "dns-instability") := by
  have h := dns_general_pod_inspected exRuntime exDNSPodGeneral
    { Name := "coredns-xyz", Namespace := "kube-system", Phase := PodRunning,
      Containers := [{ Name := "coredns", Ready := true, RestartCount := 7 }] }
    (List.mem_singleton_self _) rfl (by decide)
  refine ⟨h.1, ?_⟩
  obtain ⟨f, hf, hid, _⟩ := h.2.2 _ (h.2.1 (by
    intro q hq _ _
    simpa [exDNSPodGeneral] using hq)) _ (List.mem_singleton_self _) (by decide)
  exact ⟨f, hf, hid⟩

/-- C26: the categories are tried in the order insufficient-cpu,
insufficient-memory, taint, affinity, unschedulable; `classifySchedulingReason`
returns the category of the first scheduling reason one of whose keywords is a
substring, letter case apart, of a condition message, condition reason, event
message or event reason of the pod; it returns "unknown" exactly when no
scheduling reason matches; and the result is the same for every pod and events
with the same set of texts, so in particular for every order of them. -/
theorem classifySchedulingReason_first_match (pod : PodInfo) (events : List EventInfo) :
    schedulingReasons.map (fun sr => sr.Category) =
        ["insufficient-cpu", "insufficient-memory", "taint", "affinity", "unschedulable"] ∧
      (∀ (i : Nat) (hi : i < schedulingReasons.length),
        keywordMatches (schedulingReasons.get ⟨i, hi⟩) (podTexts pod events) →
        (∀ (j : Nat) (hj : j < schedulingReasons.length), j < i →
          ¬ keywordMatches (schedulingReasons.get ⟨j, hj⟩) (podTexts pod events)) →
        classifySchedulingReason pod events = (schedulingReasons.get ⟨i, hi⟩).Category) ∧
      (classifySchedulingReason pod events = "unknown" ↔
        ∀ sr ∈ schedulingReasons, ¬ keywordMatches sr (podTexts pod events)) ∧
      (∀ (pod' : PodInfo) (events' : List EventInfo),
        (∀ s, s ∈ podTexts pod' events' ↔ s ∈ podTexts pod events) →
        classifySchedulingReason pod' events' = classifySchedulingReason pod events) := by
  refine ⟨rfl, ?_, ?_, ?_⟩
  · intro i hi hm hlt
    have h := find?_first
      (fun sr : schedulingReason => sr.Keywords.any fun kw =>
        (collectMessages pod events).any fun msg =>
          strings.Contains (strings.ToLower msg) (strings.ToLower kw))
      schedulingReasons i hi
      ((keywordMatches_iff pod events _ (List.get_mem _ _ _)).2 hm)
      (by
        intro j hj hji
        rw [← Bool.not_eq_true]
        intro hp
        exact hlt j hj hji ((keywordMatches_iff pod events _ (List.get_mem _ _ _)).1 hp))
    simp only [classifySchedulingReason, h]
  · unfold classifySchedulingReason
    cases hfind : schedulingReasons.find? (fun sr : schedulingReason =>
        sr.Keywords.any fun kw => (collectMessages pod events).any fun msg =>
          strings.Contains (strings.ToLower msg) (strings.ToLower kw)) with
    | none =>
      simp only [hfind, true_iff]
      intro sr hsr hm
      have := List.find?_eq_none.1 hfind sr hsr
      exact this ((keywordMatches_iff pod events sr hsr).2 hm)
    | some sr =>
      have hmem : sr ∈ schedulingReasons := List.mem_of_find?_eq_some hfind
      have hp := List.find?_some hfind
      simp only [hfind]
      constructor
      · intro h
        exact absurd h (category_ne_unknown sr hmem)
      · intro h
        exact absurd ((keywordMatches_iff pod events sr hmem).1 hp) (h sr hmem)
  · intro pod' events' hiff
    unfold classifySchedulingReason
    simp only
    rw [find?_congr_mem _
      (fun sr : schedulingReason => sr.Keywords.any fun kw =>
        (collectMessages pod events).any fun msg =>
          strings.Contains (strings.ToLower msg) (strings.ToLower kw)) schedulingReasons]
    intro sr hsr
    rw [Bool.eq_iff_iff, keywordMatches_iff pod' events' sr hsr,
      keywordMatches_iff pod events sr hsr]
    unfold keywordMatches
    constructor
    · rintro ⟨kw, hkw, msg, hmsg, h⟩
      exact ⟨kw, hkw, msg, (hiff msg).1 hmsg, h⟩
    · rintro ⟨kw, hkw, msg, hmsg, h⟩
      exact ⟨kw, hkw, msg, (hiff msg).2 hmsg, h⟩

/-- C25: `PendingPodsRule.Evaluate` returns, in whatever order the runtime
ranges over the buckets, one finding per category of a pending pod: the ids
returned are exactly the strings "pending-pods-" + c with c the category of some
pod in phase Pending, no id occurs twice, every finding has category
"scheduling" and its resource evidence items are, one for one, those of the
pending pods of its category, the numbers of these items add up to the number of
pending pods, and nothing is returned exactly when no pod is pending. -/
theorem pendingPods_one_finding_per_category (rt : Runtime) (snap : Snapshot) :
    (∀ id, id ∈ (PendingPodsRule.Evaluate rt snap).map (fun f => f.ID) ↔
        ∃ p ∈ snap.Pods, p.Phase = PodPending ∧ id = "pending-pods-" ++ podCategory snap p) ∧
      ((PendingPodsRule.Evaluate rt snap).map fun f => f.ID).Nodup ∧
      (∀ f ∈ PendingPodsRule.Evaluate rt snap, f.Category = "scheduling" ∧
        ∃ c, f.ID = "pending-pods-" ++ c ∧ pendingGroup snap c ≠ [] ∧
          resourceEvidence f = (pendingGroup snap c).map (pendingResourceItem c)) ∧
      ((PendingPodsRule.Evaluate rt snap).map fun f => (resourceEvidence f).length).sum =
        (pendingPodsOf snap).length ∧
      (PendingPodsRule.Evaluate rt snap = [] ↔ pendingPodsOf snap = []) := by
  have hperm := pendingPods_evaluate_perm rt snap
  have hkeys : ∀ k, k ∈ firstKeys ((pendingPodsOf snap).map (podCategory snap)) ↔
      ∃ p ∈ snap.Pods, p.Phase = PodPending ∧ podCategory snap p = k := by
    intro k
    rw [mem_firstKeys, List.mem_map]
    constructor
    · rintro ⟨p, hp, rfl⟩
      have := List.mem_filter.1 hp
      exact ⟨p, this.1, of_decide_eq_true this.2, rfl⟩
    · rintro ⟨p, hp, hph, rfl⟩
      exact ⟨p, List.mem_filter.2 ⟨hp, decide_eq_true hph⟩, rfl⟩
  refine ⟨?_, ?_, ?_, ?_, ?_⟩
  · intro id
    rw [(hperm.map fun f => f.ID).mem_iff, List.map_map, List.mem_map]
    constructor
    · rintro ⟨k, hk, rfl⟩
      obtain ⟨p, hp, hph, rfl⟩ := (hkeys k).1 hk
      exact ⟨p, hp, hph, rfl⟩
    · rintro ⟨p, hp, hph, rfl⟩
      exact ⟨podCategory snap p, (hkeys _).2 ⟨p, hp, hph, rfl⟩, rfl⟩
  · rw [(hperm.map fun f => f.ID).nodup_iff, List.map_map]
    apply List.Nodup.map _ (nodup_firstKeys _)
    intro a b hab
    exact string_append_left_cancel "pending-pods-" a b hab
  · intro f hf
    obtain ⟨k, hk, rfl⟩ := List.mem_map.1 (hperm.mem_iff.1 hf)
    refine ⟨rfl, k, rfl, ?_, resourceEvidence_pendingFinding rt snap k _⟩
    obtain ⟨p, hp, hph, hcat⟩ := (hkeys k).1 hk
    intro hnil
    have hmem : p ∈ pendingGroup snap k :=
      List.mem_filter.2 ⟨List.mem_filter.2 ⟨hp, decide_eq_true hph⟩, decide_eq_true hcat⟩
    rw [hnil] at hmem
    exact List.not_mem_nil _ hmem
  · rw [(hperm.map fun f => (resourceEvidence f).length).sum_eq, List.map_map]
    have hfun : ((fun f => (resourceEvidence f).length) ∘ fun k =>
          pendingFinding rt snap k ((pendingGroup snap k).map (podEntry snap))) =
        fun k => ((pendingPodsOf snap).filter fun p => podCategory snap p = k).length := by
      funext k
      simp only [Function.comp, resourceEvidence_pendingFinding, List.length_map, pendingGroup]
    rw [hfun]
    exact sum_group_lengths (podCategory snap) _ (nodup_firstKeys _) (pendingPodsOf snap)
      (fun p hp => (mem_firstKeys _ _).2 (List.mem_map.2 ⟨p, hp, rfl⟩))
  · rw [← List.length_eq_zero, hperm.length_eq, List.length_map, List.length_eq_zero]
    constructor
    · intro h
      cases hp : pendingPodsOf snap with
      | nil => rfl
      | cons p ps =>
        have : podCategory snap p ∈ firstKeys ((pendingPodsOf snap).map (podCategory snap)) :=
          (mem_firstKeys _ _).2 (List.mem_map.2 ⟨p, by rw [hp]; exact List.mem_cons_self _ _, rfl⟩)
        rw [h] at this
        exact absurd this (List.not_mem_nil _)
    · intro h
      rw [h]
      rfl

/-- The findings of the snapshot of `TestPendingPodsRule_MixedReasons`: the running
pod is in no group. -/
theorem pendingPods_mixed_example :
    (PendingPodsRule.Evaluate exRuntime exMixedPending).map
        (fun f => (f.ID, (resourceEvidence f).map fun e => e.Ref)) =
      [("pending-pods-insufficient-cpu", ["pod/default/cpu-pod", "pod/default/cpu-pod-2"]),
       ("pending-pods-taint", ["pod/default/taint-pod"])] := by
  decide

/-- C31: `DNSRule.Evaluate` returns the empty list exactly when no DNS pod is
found, or every DNS pod is Running with no container in CrashLoopBackOff and
every restart count below 3 while no event gives event or log evidence; in every
other case it returns one finding, with id "dns-instability" and category
"dns". -/
theorem dns_no_finding_iff (rt : Runtime) (snap : Snapshot) :
    (DNSRule.Evaluate rt snap = [] ↔
        findCoreDNSPods snap = [] ∨
          ((∀ p ∈ findCoreDNSPods snap, p.Phase = PodRunning ∧
              ∀ c ∈ p.Containers, isCrashLooping c = false ∧ c.RestartCount < 3) ∧
            findDNSEvents snap.Events (findCoreDNSPods snap) = [] ∧
            findDNSLogPatternEvidence snap.Events = [])) ∧
      (DNSRule.Evaluate rt snap ≠ [] →
        ∃ f, DNSRule.Evaluate rt snap = [f] ∧ f.ID = "dns-instability" ∧ f.Category = "dns") := by
  have hiff := dnsEvidence_nil_iff snap (findCoreDNSPods snap)
  by_cases hp : findCoreDNSPods snap = []
  · have hnil := dns_evaluate_nil rt snap (Or.inl hp)
    exact ⟨⟨fun _ => Or.inl hp, fun _ => hnil⟩, fun h => absurd hnil h⟩
  · by_cases he : dnsEvidence snap (findCoreDNSPods snap) = []
    · have hnil := dns_evaluate_nil rt snap (Or.inr he)
      exact ⟨⟨fun _ => Or.inr (hiff.1 he), fun _ => hnil⟩, fun h => absurd hnil h⟩
    · obtain ⟨f, hf, hid, hcat, _⟩ := dns_evaluate_single rt snap hp he
      refine ⟨⟨fun h => ?_, fun h => ?_⟩, fun _ => ⟨f, hf, hid, hcat⟩⟩
      · rw [hf] at h
        exact absurd h (List.cons_ne_nil _ _)
      · rcases h with h | h
        · exact absurd h hp
        · exact absurd (hiff.2 h) he

/-- The two tests named by C31: no DNS pod, and healthy DNS pods. -/
theorem dns_no_finding_examples :
    DNSRule.Evaluate exRuntime
        { KubeSystem := { Pods := [{ Name := "kube-proxy-abc", Namespace := "kube-system",
                                     Phase := PodRunning }] } } = [] ∧
      DNSRule.Evaluate exRuntime exDNSHealthy = [] := by
  decide

/-- C32 fails when the crashlooping pod is the only DNS pod: the snapshot of
`TestDNSRule_CrashLooping` without its healthy second pod gives severity
critical, not high. -/
theorem dns_crashloop_critical_counterexample :
    (∃ p ∈ findCoreDNSPods exDNSOnlyCrashLooping, ∃ c ∈ p.Containers,
        isCrashLooping c = true ∧
        ∃ ev ∈ exDNSOnlyCrashLooping.Events, ev.Reason = "BackOff" ∧
          ev.InvolvedObject = "Pod/" ++ p.Namespace ++ "/" ++ p.Name) ∧
      (DNSRule.Evaluate exRuntime exDNSOnlyCrashLooping).map (fun f => (f.ID, f.Severity)) =
        [("dns-instability", "critical")] := by
  refine ⟨⟨_, List.mem_singleton_self _, _, List.mem_singleton_self _, by decide, _,
    List.mem_singleton_self _, by decide, by decide⟩, by decide⟩

/-- C32 as amended: when an inspected DNS pod has a container in
CrashLoopBackOff and an event of reason BackOff refers to that pod,
`DNSRule.Evaluate` returns one finding, with id "dns-instability", confidence at
least `0.85`, a resource evidence item for the pod and an event evidence item
for the event; its severity is high when fewer containers are in
CrashLoopBackOff than DNS pods are inspected, and critical otherwise. -/
theorem dns_crashloop_scenario (rt : Runtime) (snap : Snapshot) (p : PodInfo)
    (c : ContainerInfo) (ev : EventInfo)
    (hp : p ∈ findCoreDNSPods snap) (hc : c ∈ p.Containers)
    (hcrash : isCrashLooping c = true) (hev : ev ∈ snap.Events)
    (hreason : ev.Reason = "BackOff")
    (hobj : ev.InvolvedObject = "Pod/" ++ p.Namespace ++ "/" ++ p.Name) :
    ∃ f, DNSRule.Evaluate rt snap = [f] ∧ f.ID = "dns-instability" ∧
      f.Severity =
        (if crashCount (findCoreDNSPods snap) < (findCoreDNSPods snap).length then "high"
          else "critical") ∧
      85 / 100 ≤ f.Confidence ∧
      (∃ e ∈ f.Evidence, e.Type_ = "resource" ∧
        e.Ref = "pod/" ++ p.Namespace ++ "/" ++ p.Name) ∧
      (∃ e ∈ f.Evidence, e.Type_ = "event" ∧ e.Ref = ev.InvolvedObject) := by
  have hpods : findCoreDNSPods snap ≠ [] := List.ne_nil_of_mem hp
  obtain ⟨e, he, hres⟩ := dnsEvidence_crash snap (findCoreDNSPods snap) p c hp hc hcrash
  have hevd : dnsEvidence snap (findCoreDNSPods snap) ≠ [] := List.ne_nil_of_mem he
  have hdns : ev ∈ findDNSEvents snap.Events (findCoreDNSPods snap) :=
    (mem_findDNSEvents _ _ _).2 ⟨hev, ⟨p, hp, hobj⟩, "BackOff", by decide, by
      rw [hreason]; decide⟩
  have hk : 0 < crashCount (findCoreDNSPods snap) := crashCount_pos _ p c hp hc hcrash
  have hn : 1 ≤ (findCoreDNSPods snap).length := List.length_pos.2 hpods
  have hm : 0 < (findDNSEvents snap.Events (findCoreDNSPods snap)).length :=
    List.length_pos.2 (List.ne_nil_of_mem hdns)
  obtain ⟨f, hf, hid, _, hsev, hconf, hevid⟩ := dns_evaluate_single rt snap hpods hevd
  refine ⟨f, hf, hid, ?_, ?_, ⟨e, hevid ▸ he, hres.1, hres.2.1⟩,
    ⟨dnsEventEvidence ev, ?_, rfl, rfl⟩⟩
  · rw [hsev]
    have ht := dnsSeverity_table (crashCount (findCoreDNSPods snap))
      (highRestartCount (findCoreDNSPods snap)) _ hn
    by_cases hlt : crashCount (findCoreDNSPods snap) < (findCoreDNSPods snap).length
    · rw [if_pos hlt]; exact ht.2.1 hk hlt
    · rw [if_neg hlt]; exact ht.1 (not_lt.1 hlt)
  · rw [hconf]
    unfold dnsConfidence
    have hk' : ((crashCount (findCoreDNSPods snap) : Nat) : Int) > 0 := by exact_mod_cast hk
    have hm' : (((findDNSEvents snap.Events (findCoreDNSPods snap)).length : Nat) : Int) > 0 := by
      exact_mod_cast hm
    simp only [hk', hm', if_true]
    split_ifs <;> norm_num
  · rw [hevid]
    exact List.mem_append_left _ (List.mem_append_right _ (List.mem_map.2 ⟨ev, hdns, rfl⟩))

/-- Witness of C32 as amended: `TestDNSRule_CrashLooping`, one of two DNS pods
crashlooping, severity high. -/
theorem dns_crashloop_scenario_witness :
    ∃ f, DNSRule.Evaluate exRuntime exDNSCrashLooping = [f] ∧ f.ID = "dns-instability" ∧
      f.Severity = "high" ∧ 85 / 100 ≤ f.Confidence := by
  obtain ⟨f, hf, hid, hsev, hconf, _⟩ := dns_crashloop_scenario exRuntime exDNSCrashLooping
    { Name := "coredns-abc123", Namespace := "kube-system", Phase := PodRunning,
      Containers := [{ Name := "coredns", Ready := false, RestartCount := 15,
                       State := { Waiting := some { Reason := "CrashLoopBackOff" } } }] }
    { Name := "coredns", Ready := false, RestartCount := 15,
      State := { Waiting := some { Reason := "CrashLoopBackOff" } } }
    { Namespace := "kube-system", Name := "coredns-abc123.backoff",
      Reason := "BackOff", Message := "Back-off restarting failed container",
      Type_ := "Warning", InvolvedObject := "Pod/kube-system/coredns-abc123", Count := 10 }
    (by decide) (by decide) (by decide) (by decide) rfl (by decide)
  refine ⟨f, hf, hid, ?_, hconf⟩
  rw [hsev]
  decide

/-- C33: a finding of `DNSRule.Evaluate` has the severity that `dnsSeverity`
gives for the number `k` of containers in CrashLoopBackOff, the number `h` of
high-restart containers and the number `n ≥ 1` of DNS pods inspected: critical
for `k ≥ n`, high for `0 < k < n`, medium for `k = 0 < h`, low for `k = h = 0`;
so it is critical when every inspected pod has a container in CrashLoopBackOff,
and medium when no container is in CrashLoopBackOff and one has at least 3
restarts. -/
theorem dns_finding_severity (rt : Runtime) (snap : Snapshot) :
    (∀ f ∈ DNSRule.Evaluate rt snap,
        1 ≤ (findCoreDNSPods snap).length ∧
        f.Severity =
          dnsSeverity (crashCount (findCoreDNSPods snap))
            (highRestartCount (findCoreDNSPods snap)) (findCoreDNSPods snap).length) ∧
      (∀ k h n : Nat, 1 ≤ n →
        (n ≤ k → dnsSeverity k h n = "critical") ∧
        (0 < k → k < n → dnsSeverity k h n = "high") ∧
        (k = 0 → 0 < h → dnsSeverity k h n = "medium") ∧
        (k = 0 → h = 0 → dnsSeverity k h n = "low")) ∧
      ((∀ p ∈ findCoreDNSPods snap, ∃ c ∈ p.Containers, isCrashLooping c = true) →
        ∀ f ∈ DNSRule.Evaluate rt snap, f.Severity = "critical") ∧
      ((∀ p ∈ findCoreDNSPods snap, ∀ c ∈ p.Containers, isCrashLooping c = false) →
        (∃ p ∈ findCoreDNSPods snap, ∃ c ∈ p.Containers, 3 ≤ c.RestartCount) →
        ∀ f ∈ DNSRule.Evaluate rt snap, f.Severity = "medium") := by
  have hmain : ∀ f ∈ DNSRule.Evaluate rt snap,
      1 ≤ (findCoreDNSPods snap).length ∧
      f.Severity =
        dnsSeverity (crashCount (findCoreDNSPods snap))
          (highRestartCount (findCoreDNSPods snap)) (findCoreDNSPods snap).length := by
    intro f hf
    by_cases hp : findCoreDNSPods snap = []
    · rw [dns_evaluate_nil rt snap (Or.inl hp)] at hf
      exact absurd hf (List.not_mem_nil _)
    · by_cases he : dnsEvidence snap (findCoreDNSPods snap) = []
      · rw [dns_evaluate_nil rt snap (Or.inr he)] at hf
        exact absurd hf (List.not_mem_nil _)
      · obtain ⟨g, hg, _, _, hsev, _⟩ := dns_evaluate_single rt snap hp he
        rw [hg, List.mem_singleton] at hf
        subst hf
        exact ⟨List.length_pos.2 hp, hsev⟩
  refine ⟨hmain, fun k h n hn => dnsSeverity_table k h n hn, fun hall f hf => ?_,
    fun hnone hsome f hf => ?_⟩
  · obtain ⟨hn, hsev⟩ := hmain f hf
    rw [hsev]
    apply (dnsSeverity_table _ _ _ hn).1
    unfold crashCount
    apply length_le_sum_map
    intro p hp
    obtain ⟨c, hc, hcrash⟩ := hall p hp
    exact List.countP_pos_iff.2 ⟨c, hc, hcrash⟩
  · obtain ⟨hn, hsev⟩ := hmain f hf
    rw [hsev]
    obtain ⟨p, hp, c, hc, h3⟩ := hsome
    apply (dnsSeverity_table _ _ _ hn).2.2.1 (crashCount_eq_zero _ hnone)
    apply highRestartCount_pos _ p c hp hc
    simp only [isHighRestart, hnone p hp c hc, Bool.not_false, Bool.true_and, decide_eq_true_eq]
    exact h3

/-- Witness of C33: `TestDNSRule_AllCrashLoopingCritical` and
`TestDNSRule_HighRestarts`. -/
theorem dns_finding_severity_witness :
    (∀ f ∈ DNSRule.Evaluate exRuntime exDNSAllCrashLooping, f.Severity = "critical") ∧
      (DNSRule.Evaluate exRuntime exDNSAllCrashLooping).length = 1 ∧
      (DNSRule.Evaluate exRuntime exDNSHighRestarts).map (fun f => f.Severity) = ["medium"] :=
  ⟨(dns_finding_severity exRuntime exDNSAllCrashLooping).2.2.1 (by decide), by decide, by decide⟩

/-- C35: for `p ≥ 0` pending claims and `e ≥ 0` storage events `storageSeverity`
is critical when `p ≥ 3` or `e ≥ 5`; otherwise high when both are positive;
otherwise medium when `p > 0` or `e > 2`; otherwise low. One pending claim alone
is medium, with one event high, one or two events alone are low; and this is the
severity of every finding of `StorageRule.Evaluate`, for the number of pending
claims and of storage events of the snapshot. -/
theorem storageSeverity_table :
    (∀ p e : Int, 0 ≤ p → 0 ≤ e →
        (3 ≤ p ∨ 5 ≤ e → storageSeverity p e = "critical") ∧
        (p < 3 → e < 5 → 0 < p → 0 < e → storageSeverity p e = "high") ∧
        (p < 3 → e < 5 → p = 0 ∨ e = 0 → 0 < p ∨ 2 < e → storageSeverity p e = "medium") ∧
        (p = 0 → e ≤ 2 → storageSeverity p e = "low")) ∧
      storageSeverity 1 0 = "medium" ∧ storageSeverity 1 1 = "high" ∧
      storageSeverity 0 1 = "low" ∧ storageSeverity 0 2 = "low" ∧
      ∀ (rt : Runtime) (snap : Snapshot), ∀ f ∈ StorageRule.Evaluate rt snap,
        f.Severity =
          storageSeverity (pendingPVCCount snap) (findStorageEvents snap.Events).length := by
  refine ⟨fun p e hp he => ⟨fun h => ?_, fun h1 h2 h3 h4 => ?_, fun h1 h2 h3 h4 => ?_,
    fun h1 h2 => ?_⟩, by decide, by decide, by decide, by decide, fun rt snap f hf => ?_⟩
  · unfold storageSeverity
    rw [if_pos h]; rfl
  · unfold storageSeverity
    have hc : ¬ (p ≥ 3 ∨ e ≥ 5) := by omega
    rw [if_neg hc, if_pos ⟨h3, h4⟩]; rfl
  · unfold storageSeverity
    have hc : ¬ (p ≥ 3 ∨ e ≥ 5) := by omega
    have hh : ¬ (p > 0 ∧ e > 0) := by omega
    have hm : p > 0 ∨ e > 2 := h4
    rw [if_neg hc, if_neg hh, if_pos hm]; rfl
  · unfold storageSeverity
    have hc : ¬ (p ≥ 3 ∨ e ≥ 5) := by omega
    have hh : ¬ (p > 0 ∧ e > 0) := by omega
    have hm : ¬ (p > 0 ∨ e > 2) := by omega
    rw [if_neg hc, if_neg hh, if_neg hm]; rfl
  · rcases storage_evaluate_cases rt snap with ⟨hnil, _⟩ | ⟨g, hg, _, _, hsev, _⟩
    · rw [hnil] at hf
      exact absurd hf (List.not_mem_nil _)
    · rw [hg, List.mem_singleton] at hf
      rw [hf, hsev]

/-- Witness of C35: `TestStorageRule_ManyPendingCritical`, three pending claims
and no event. -/
theorem storageSeverity_table_witness : storageSeverity 3 0 = "critical" :=
  (storageSeverity_table.1 3 0 (by decide) (by decide)).1 (Or.inl (by decide))

/-- C36 fails at two storage events whose (namespace, name) pairs `(a/b, c)`
and `(a, b/c)` differ: both have the key `a/b/c`, and `findStorageEvents` keeps
the first only. -/
theorem findStorageEvents_key_collision :
    isStorageEvent exSlashA = true ∧ isStorageEvent exSlashB = true ∧
      (exSlashA.Namespace, exSlashA.Name) ≠ (exSlashB.Namespace, exSlashB.Name) ∧
      findStorageEvents [exSlashA, exSlashB] = [exSlashA] ∧
      findStorageEvents [exSlashB, exSlashA] = [exSlashB] := by
  decide

/-- C40: when no claim is Pending, no event is storage-relevant and some volume
is in phase Failed, `StorageRule.Evaluate` returns one finding, of severity low
and confidence `0.5`, whose evidence is one resource item with ref `pv/<name>`
per failed volume, in the order of the snapshot. -/
theorem storage_failed_pv_only (rt : Runtime) (snap : Snapshot)
    (hpvc : ∀ pvc ∈ snap.PVCs, pvc.Phase ≠ ClaimPending)
    (hev : ∀ ev ∈ snap.Events, isStorageEvent ev = false)
    (hpv : ∃ pv ∈ snap.PVs, pv.Phase = VolumeFailed) :
    ∃ f, StorageRule.Evaluate rt snap = [f] ∧ f.ID = "storage-issue" ∧
      f.Severity = "low" ∧ f.Confidence = 5 / 10 ∧
      f.Evidence.map (fun e => (e.Type_, e.Ref)) =
        (failedPVs snap).map (fun pv => ("resource", "pv/" ++ pv.Name)) ∧
      f.Evidence.length = (failedPVs snap).length := by
  have hp0 : (snap.PVCs.filter fun pvc => pvc.Phase = ClaimPending) = [] := by
    rw [List.filter_eq_nil_iff]
    intro pvc h
    simpa using hpvc pvc h
  have hc0 : pendingPVCCount snap = 0 := by
    unfold pendingPVCCount
    rw [List.countP_eq_length_filter, hp0]
    rfl
  have he0 : findStorageEvents snap.Events = [] := by
    have : snap.Events.filter isStorageEvent = [] := by
      rw [List.filter_eq_nil_iff]
      intro ev h
      rw [hev ev h]
      exact Bool.false_ne_true
    rw [findStorageEvents_eq, this]
    rfl
  have hf0 : failedPVs snap ≠ [] := by
    obtain ⟨pv, hmem, hph⟩ := hpv
    exact List.ne_nil_of_mem (List.mem_filter.2 ⟨hmem, decide_eq_true hph⟩)
  rcases storage_evaluate_cases rt snap with ⟨_, _, hnil, _⟩ | ⟨f, hf, hid, _, hsev, hconf, hevid⟩
  · exact absurd hnil hf0
  · rw [hc0, he0] at hsev hconf
    rw [hp0, he0] at hevid
    simp only [List.map_nil, List.nil_append, List.append_nil] at hevid
    refine ⟨f, hf, hid, ?_, ?_, hevid, ?_⟩
    · rw [hsev]; decide
    · rw [hconf]
      simp only [List.length_nil, storageConfidence]
      norm_num
    · have := congrArg List.length hevid
      simpa using this

/-- Witness of C40: two failed volumes and a bound one. -/
theorem storage_failed_pv_only_witness :
    ∃ f, StorageRule.Evaluate exRuntime exFailedPVs = [f] ∧ f.Severity = "low" ∧
      f.Confidence = 5 / 10 ∧
      f.Evidence.map (fun e => (e.Type_, e.Ref)) =
        [("resource", "pv/pv-broken"), ("resource", "pv/pv-broken-2")] := by
  obtain ⟨f, hf, _, hsev, hconf, hevid, _⟩ := storage_failed_pv_only exRuntime exFailedPVs
    (by decide) (by decide) (by decide)
  exact ⟨f, hf, hsev, hconf, hevid⟩

/-- C34: on the bytes of any string, `truncate(s, 256)` and
`truncateStorage(s, 256)` never panic; they return `s` when it has at most 256
bytes and otherwise its first 253 bytes followed by "...", 256 bytes in all. On
texts the model `truncate` agrees with this up to a character cut in two by the
byte offset 253, whose leading bytes it leaves out. Hence every event-type and
log-type evidence message of a finding of the DNS rule or of the storage rule is
the truncation of a message of an event of the snapshot and has at most 256
bytes. -/
theorem truncate_256 :
    (∀ s : List UInt8,
        truncateBytes s 256 =
            some (if s.length ≤ 256 then s else s.take 253 ++ goBytes "...") ∧
          truncateStorageBytes s 256 = truncateBytes s 256 ∧
          (256 < s.length → (s.take 253 ++ goBytes "...").length = 256)) ∧
      (∀ s : String,
        truncateStorage s 256 = truncate s 256 ∧ (truncate s 256).utf8ByteSize ≤ 256 ∧
          (s.utf8ByteSize ≤ 256 →
            truncate s 256 = s ∧ truncateBytes (goBytes s) 256 = some (goBytes s)) ∧
          (256 < s.utf8ByteSize →
            ∃ t, goBytes (truncate s 256) = t ++ goBytes "..." ∧
              t <+: (goBytes s).take 253)) ∧
      (∀ (rt : Runtime) (snap : Snapshot), ∀ f ∈ DNSRule.Evaluate rt snap, ∀ e ∈ f.Evidence,
        e.Type_ = "event" ∨ e.Type_ = "log" →
          (∃ ev ∈ snap.Events, e.Message = truncate ev.Message 256) ∧
            e.Message.utf8ByteSize ≤ 256) ∧
      (∀ (rt : Runtime) (snap : Snapshot), ∀ f ∈ StorageRule.Evaluate rt snap,
        ∀ e ∈ f.Evidence, e.Type_ = "event" ∨ e.Type_ = "log" →
          (∃ ev ∈ snap.Events, e.Message = truncateStorage ev.Message 256) ∧
            e.Message.utf8ByteSize ≤ 256) := by
  refine ⟨fun s => ⟨truncateBytes_eq s 256 (by decide), rfl, fun h => ?_⟩,
    fun s => ⟨rfl, truncate_size s 256 (by decide), (truncate_bytes s 256 (by decide)).1,
      fun h => ((truncate_bytes s 256 (by decide)).2 h).2⟩,
    fun rt snap f hf e he ht => ?_, fun rt snap f hf e he ht => ?_⟩
  · rw [List.length_append, List.length_take, goBytes_dots]
    omega
  · have hsrc : e.Type_ = EvidenceResource ∨
        ∃ ev ∈ snap.Events, e.Message = truncate ev.Message maxLogLineLen := by
      by_cases hp : findCoreDNSPods snap = []
      · rw [dns_evaluate_nil rt snap (Or.inl hp)] at hf
        exact absurd hf (List.not_mem_nil _)
      · by_cases hev : dnsEvidence snap (findCoreDNSPods snap) = []
        · rw [dns_evaluate_nil rt snap (Or.inr hev)] at hf
          exact absurd hf (List.not_mem_nil _)
        · obtain ⟨g, hg, _, _, _, _, hevid⟩ := dns_evaluate_single rt snap hp hev
          rw [hg, List.mem_singleton] at hf
          subst hf
          rw [hevid] at he
          exact dnsEvidence_source snap _ e he
    rcases hsrc with hres | ⟨ev, hev, hmsg⟩
    · rcases ht with ht | ht <;> rw [hres] at ht <;> exact absurd ht (by decide)
    · exact ⟨⟨ev, hev, hmsg⟩, hmsg ▸ truncate_size ev.Message 256 (by decide)⟩
  · rcases storage_evidence_source rt snap f hf e he with hres | ⟨ev, hev, hmsg⟩
    · rcases ht with ht | ht <;> rw [hres] at ht <;> exact absurd ht (by decide)
    · exact ⟨⟨ev, hev, hmsg⟩, hmsg ▸ truncate_size ev.Message 256 (by decide)⟩

set_option maxRecDepth 100000 in
/-- Witness of C34: a message of 300 bytes is cut to 256 bytes, the last three
of them dots. -/
theorem truncate_256_witness :
    (goBytes exLongEvent.Message).length = 300 ∧
      ((goBytes exLongEvent.Message).take 253 ++ goBytes "...").length = 256 ∧
      truncate exLongEvent.Message 256 = String.mk (List.replicate 253 'x') ++ "..." :=
  ⟨by rw [goBytes_length]; rfl,
    (truncate_256.1 (goBytes exLongEvent.Message)).2.2 (by rw [goBytes_length]; decide),
    by decide⟩

/-- C37: rounding a sum to two decimals and then clamping it to at most `1.0`,
as `boostConfidence` does, gives the same value as clamping first and rounding
then; `boostConfidence` is either order applied once to the confidence plus its
boosts. -/
theorem round_then_clamp_eq_clamp_then_round :
    (∀ x : ℚ, roundThenClamp x = clampThenRound x) ∧
      ∀ f : Finding, boostConfidence f = roundThenClamp (boostedSum f) ∧
        boostConfidence f = clampThenRound (boostedSum f) := by
  have h : ∀ x : ℚ, roundThenClamp x = clampThenRound x := fun x => by
    rw [roundThenClamp_eq, clampThenRound_eq, round_clamp_commute]
  refine ⟨h, fun f => ?_⟩
  have hb : boostConfidence f = roundThenClamp (boostedSum f) := by
    rw [boostConfidence_eq, roundThenClamp_eq]
    rfl
  exact ⟨hb, hb.trans (h _)⟩

/-- The two orders on a sum above one and on a tie below one. -/
theorem round_clamp_examples :
    roundThenClamp (1004 / 1000) = 1 ∧ clampThenRound (1004 / 1000) = 1 ∧
      roundThenClamp (995 / 1000) = 1 ∧ clampThenRound (995 / 1000) = 1 := by
  simp only [roundThenClamp_eq, clampThenRound_eq]
  unfold round2
  norm_num

/-- C38 fails at the findings `x` of category `a|b` without evidence and `y` of
category `a` with the resource ref `b`: both have the merge key `a|b`, and their
merge has the key `a|b|b`. With `z` of category `a|b|b`, `mergeFindings` returns
two findings of that same key, which a second pass merges into one. -/
theorem mergePair_changes_key :
    rootCauseKey exPipeA = rootCauseKey exPipeB ∧
      rootCauseKey (mergePair exPipeA exPipeB) = "a|b|b" ∧
      rootCauseKey (mergePair exPipeA exPipeB) ≠ rootCauseKey exPipeA ∧
      (mergeFindings [exPipeA, exPipeB, exPipeC]).map rootCauseKey = ["a|b|b", "a|b|b"] ∧
      (mergeFindings (mergeFindings [exPipeA, exPipeB, exPipeC])).map (fun m => m.ID) = ["x"] := by
  decide

/-- C39 fails when another node of the same name comes first: with the nodes
`w` (PID pressure) and `w` (disk and memory pressure) the second node has two
pressure conditions true, yet the three findings share the key
`node-health|node/w` and the one finding that `Correlate` returns has the id and
title of the PID pressure of the first node, not of the disk pressure that is
the first condition of the second. -/
theorem nodePressure_same_name_counterexample :
    (∃ node ∈ exSameNameNodes.Nodes,
        (node.Conditions.filter fun c => decide (isTruePressure c)).map (fun c => c.Type_) =
          ["DiskPressure", "MemoryPressure"]) ∧
      (NodePressureRule.Evaluate exRuntime exSameNameNodes).map (fun f => f.ID) =
        ["node-pressure-w-pidpressure", "node-pressure-w-diskpressure",
         "node-pressure-w-memorypressure"] ∧
      (NodePressureRule.Evaluate exRuntime exSameNameNodes).map rootCauseKey =
        ["node-health|node/w", "node-health|node/w", "node-health|node/w"] ∧
      (Correlate (NodePressureRule.Evaluate exRuntime exSameNameNodes)).map
          (fun f => (f.ID, f.Title)) =
        [("node-pressure-w-pidpressure", "Node w has PIDPressure")] := by
  refine ⟨⟨_, List.mem_cons_of_mem _ (List.mem_singleton_self _), by decide⟩, by decide,
    by decide, by decide!⟩

/-- C39 as amended: when a node, the only one of its name, has the true pressure
conditions `c₁, c₂, …`, `NodePressureRule.Evaluate` emits a finding for each of
them; each has category "node-health", the sole resource ref `node/<name>` and
so the merge key `node-health|node/<name>`. `Correlate` merges the findings of
that key into one finding, the only one it returns with the resource ref
`node/<name>`, and this finding keeps the id, title and summary of the finding
of `c₁`. -/
theorem nodePressure_conditions_merged (rt : Runtime) (snap : Snapshot) (node : NodeInfo)
    (c₁ c₂ : NodeCondition) (rest : List NodeCondition)
    (hnode : node ∈ snap.Nodes)
    (hname : ∀ n ∈ snap.Nodes, n.Name = node.Name → n = node)
    (hconds : node.Conditions.filter (fun c => decide (isTruePressure c)) = c₁ :: c₂ :: rest) :
    (∀ c ∈ c₁ :: c₂ :: rest,
        pressureFinding rt snap node c ∈ NodePressureRule.Evaluate rt snap ∧
        (pressureFinding rt snap node c).Category = "node-health" ∧
        resourceRefs (pressureFinding rt snap node c) = ["node/" ++ node.Name] ∧
        rootCauseKey (pressureFinding rt snap node c) = "node-health|node/" ++ node.Name) ∧
      ∃ extras m,
        groupOf (NodePressureRule.Evaluate rt snap) ("node-health|node/" ++ node.Name) =
          pressureFinding rt snap node c₁ :: extras ∧
        (∀ c ∈ c₂ :: rest, pressureFinding rt snap node c ∈ extras) ∧
        m = rescore (extras.foldl mergePair (pressureFinding rt snap node c₁)) ∧
        m ∈ Correlate (NodePressureRule.Evaluate rt snap) ∧
        (∀ m' ∈ Correlate (NodePressureRule.Evaluate rt snap),
          "node/" ++ node.Name ∈ resourceRefs m' → m' = m) ∧
        m.ID = "node-pressure-" ++ node.Name ++ "-" ++ conditionSlug c₁.Type_ ∧
        m.Title = "Node " ++ node.Name ++ " has " ++ c₁.Type_ ∧
        m.Summary = (pressureFinding rt snap node c₁).Summary := by
  constructor
  · intro c hc
    have hc' : c ∈ node.Conditions.filter (fun c => decide (isTruePressure c)) := by
      rw [hconds]; exact hc
    have hmem := List.mem_filter.1 hc'
    exact ⟨(mem_nodePressure_evaluate rt snap _).2
        ⟨node, hnode, c, hmem.1, of_decide_eq_true hmem.2, rfl⟩,
      rfl, pressureFinding_resourceRefs rt snap node c, pressureFinding_key rt snap node c⟩
  · obtain ⟨extras, hgrp, hall, _⟩ := nodePressure_group rt snap node c₁ (c₂ :: rest) hnode
      hname hconds
    have hframe := foldl_mergePair_frame extras (pressureFinding rt snap node c₁)
    have hres := rescore_frame (extras.foldl mergePair (pressureFinding rt snap node c₁))
    refine ⟨extras, _, hgrp, hall, rfl,
      (mem_correlate_iff _ _).2 ⟨_, _, _, hgrp, rfl⟩, ?_, ?_, ?_, ?_⟩
    · intro m' hm' href
      obtain ⟨k, p, extras', hgrp', rfl⟩ := (mem_correlate_iff _ _).1 hm'
      simp only [resourceRefs, List.mem_map, List.mem_filter, decide_eq_true_eq] at href
      obtain ⟨e, ⟨he, htype⟩, href⟩ := href
      rw [(rescore_frame _).2.2.2.2.2.2.2.1] at he
      have hsrc : ∃ g ∈ p :: extras', e ∈ g.Evidence := by
        rcases mem_foldl_mergePair_evidence extras' p e he with h | ⟨s, hs, h⟩
        · exact ⟨p, List.mem_cons_self _ _, h⟩
        · exact ⟨s, List.mem_cons_of_mem _ hs, h⟩
      obtain ⟨g, hg, heg⟩ := hsrc
      rw [← hgrp'] at hg
      obtain ⟨hgfs, hgk⟩ := (mem_groupOf _ _ _).1 hg
      obtain ⟨n, hn, c, _, _, rfl⟩ := (mem_nodePressure_evaluate rt snap g).1 hgfs
      have hrefs : e.Ref ∈ resourceRefs (pressureFinding rt snap n c) := by
        simp only [resourceRefs, List.mem_map, List.mem_filter, decide_eq_true_eq]
        exact ⟨e, ⟨heg, htype⟩, rfl⟩
      rw [pressureFinding_resourceRefs, List.mem_singleton, href] at hrefs
      have hnn : n = node := hname n hn (string_append_left_cancel _ _ _ hrefs).symm
      subst hnn
      rw [pressureFinding_key] at hgk
      rw [← hgk, hgrp] at hgrp'
      have hp := (List.cons.inj hgrp').1
      have hex := (List.cons.inj hgrp').2
      rw [← hp, ← hex]
    · rw [hres.1, hframe.1]
      rfl
    · rw [hres.2.1, hframe.2.1]
      rfl
    · rw [hres.2.2.1, hframe.2.2.1]

/-- Witness of C39 as amended: `TestNodePressureRule_MultiplePressures`, a node with disk
and PID pressure; the two findings become one, with the id and title of the
disk pressure. -/
theorem nodePressure_conditions_merged_witness :
    (NodePressureRule.Evaluate exRuntime exTwoPressures).map (fun f => f.ID) =
        ["node-pressure-worker-3-diskpressure", "node-pressure-worker-3-pidpressure"] ∧
      (Correlate (NodePressureRule.Evaluate exRuntime exTwoPressures)).map
          (fun f => (f.ID, f.Title)) =
        [("node-pressure-worker-3-diskpressure", "Node worker-3 has DiskPressure")] ∧
      ∃ extras m,
        groupOf (NodePressureRule.Evaluate exRuntime exTwoPressures)
            ("node-health|node/" ++ "worker-3") =
          pressureFinding exRuntime exTwoPressures
            { Name := "worker-3",
              Conditions := [{ Type_ := NodeDiskPressure, Status := ConditionTrue,
                               Reason := "DiskPressure", Message := "disk pressure" },
                             { Type_ := NodePIDPressure, Status := ConditionTrue,
                               Reason := "PIDPressure", Message := "pid pressure" }] }
            { Type_ := NodeDiskPressure, Status := ConditionTrue,
              Reason := "DiskPressure", Message := "disk pressure" } :: extras ∧
        m ∈ Correlate (NodePressureRule.Evaluate exRuntime exTwoPressures) ∧
        m.ID = "node-pressure-" ++ "worker-3" ++ "-" ++ conditionSlug NodeDiskPressure := by
  refine ⟨by decide, by decide!, ?_⟩
  obtain ⟨extras, m, hgrp, _, _, hm, _, hid, _⟩ :=
    (nodePressure_conditions_merged exRuntime exTwoPressures
      { Name := "worker-3",
        Conditions := [{ Type_ := NodeDiskPressure, Status := ConditionTrue,
                         Reason := "DiskPressure", Message := "disk pressure" },
                       { Type_ := NodePIDPressure, Status := ConditionTrue,
                         Reason := "PIDPressure", Message := "pid pressure" }] }
      { Type_ := NodeDiskPressure, Status := ConditionTrue,
        Reason := "DiskPressure", Message := "disk pressure" }
      { Type_ := NodePIDPressure, Status := ConditionTrue,
        Reason := "PIDPressure", Message := "pid pressure" }
      [] (List.mem_singleton_self _)
      (by
        intro n hn _
        exact List.mem_singleton.1 hn)
      (by decide)).2
  exact ⟨extras, m, hgrp, hm, hid⟩

end KubeSlowwhy
